import Mathlib

/-!
# Tilck `select`: a shallow embedding of `kernel/select.c`

The system call `sys_select` and its static helpers are translated function by
function.  External collaborators (VFS accessors, scheduler, allocator, user
memory copies) are consulted through an explicit environment, and every call
to one of them is recorded in a trace of events.

The per-task scratch buffer `curr->args_copybuf` is modelled as a bit-addressed
memory: bit `p` is bit `p % 8` of byte `p / 8` (little-endian, as on every
target of the kernel).  A pointer into the buffer is the bit offset of its
first byte.
-/

namespace Tilck

/-! ## Build configuration and constants -/

/-- Build-time constants used by `select.c` whose definitions live in headers
outside the translated sources: `MAX_HANDLES`, `TIMER_HZ` (see
`generated_config.h`) and whether `ASSERT` is compiled in (`DEBUG`). -/
structure Config where
  MAX_HANDLES : Nat
  TIMER_HZ : Nat
  DEBUG : Bool

def EBADF : Int := 9
def ENOMEM : Int := 12
def EFAULT : Int := 14
def EINVAL : Int := 22

def UINT32_MAX : Nat := 2 ^ 32 - 1

/-- Number of bits of an `fd_set`, i.e. `8 * sizeof(fd_set)` (Linux ABI). -/
def FD_SETSIZE : Nat := 1024

/-- A non-NULL `fs_handle`. -/
abbrev fs_handle := Nat

/-- A non-NULL `kcond *`. -/
abbrev kcond := Nat

/-! ## Events: calls to external collaborators -/

/-- One call made by `select.c` to code outside of it.  `copy_from_user i` and
`copy_to_user i` carry the index of the object copied: `0..2` for the three
descriptor sets and `3` for the timeout. -/
inductive Event where
  | copy_from_user (i : Nat)
  | copy_to_user (i : Nat)
  | get_fs_handle (fd : Nat)
  | allocate_mobj_waiter (count : Nat)
  | mobj_waiter_set (idx : Nat) (c : kcond)
  | free_mobj_waiter
  | task_set_wakeup_timer (ticks : Nat)
  | task_cancel_wakeup_timer
  | wait_obj_reset
  | kernel_sleep_on_waiter
  | kernel_sleep (ticks : Nat)
  | assert_failed
  deriving DecidableEq, Repr

/-- Events that copy user memory or look a handle up: no sleep, allocation,
timer operation or assertion failure. -/
def Event.is_copy_or_lookup : Event → Bool
  | Event.copy_from_user _ => true
  | Event.copy_to_user _ => true
  | Event.get_fs_handle _ => true
  | _ => false

/-- Events of a handle lookup. -/
def Event.is_lookup : Event → Bool
  | Event.get_fs_handle _ => true
  | _ => false

/-- Events that the registration loop can produce. -/
def Event.is_registration : Event → Bool
  | Event.get_fs_handle _ => true
  | Event.mobj_waiter_set _ _ => true
  | Event.assert_failed => true
  | _ => false

/-! ## The VFS as seen by `select` -/

/-- A snapshot of the calling task's handle table and of the VFS accessors:
`get_fs_handle(fd)` (`none` is NULL), the table `gcf[k]` of condition
accessors and the table `grf[k]` of readiness predicates, `k = 0, 1, 2` for
read, write, except. -/
structure Vfs where
  get_fs_handle : Nat → Option fs_handle
  gcf : Nat → fs_handle → Option kcond
  grf : Nat → fs_handle → Bool

/-! ## Scratch memory -/

/-- Bit-addressed contents of `curr->args_copybuf`. -/
abbrev Mem := Nat → Bool

/-- Overwrite the `n` bits starting at bit `p` with `src 0 .. src (n-1)`. -/
def store_bits (m : Mem) (p n : Nat) (src : Nat → Bool) : Mem :=
  fun q => if p ≤ q ∧ q < p + n then src (q - p) else m q

/-- Store a 32-bit little-endian word (the value is truncated to 32 bits). -/
def store32 (m : Mem) (p x : Nat) : Mem :=
  store_bits m p 32 (fun b => x.testBit b)

/-- Read `n` bits starting at bit `p` as a little-endian unsigned number. -/
def load_bits (m : Mem) (p : Nat) : Nat → Nat
  | 0 => 0
  | n + 1 => (m p).toNat + 2 * load_bits m (p + 1) n

/-- Load a 32-bit little-endian word. -/
def load32 (m : Mem) (p : Nat) : Nat := load_bits m p 32

/-- The macro `FD_ISSET(i, set)` for a set stored at bit offset `set`. -/
def FD_ISSET (i set : Nat) (m : Mem) : Bool := m (set + i)

/-- The macro `FD_CLR(i, set)` for a set stored at bit offset `set`. -/
def FD_CLR (i set : Nat) (m : Mem) : Mem :=
  fun q => if q = set + i then false else m q

/-- A `struct timeval` as the raw 32-bit images of its two `long` fields: a
value `x < 2^31` is the field `x`, a value `x >= 2^31` the negative field
`x - 2^32`. -/
structure timeval where
  tv_sec : Nat
  tv_usec : Nat
  deriving DecidableEq, Repr

/-- The field `tv->tv_sec` of a timeval stored at bit offset `tv`. -/
def load_tv_sec (m : Mem) (tv : Nat) : Nat := load32 m tv

/-- The field `tv->tv_usec` of a timeval stored at bit offset `tv`. -/
def load_tv_usec (m : Mem) (tv : Nat) : Nat := load32 m (tv + 32)

/-- The assignment `tv->tv_sec = x`. -/
def store_tv_sec (m : Mem) (tv x : Nat) : Mem := store32 m tv x

/-- The assignment `tv->tv_usec = x`. -/
def store_tv_usec (m : Mem) (tv x : Nat) : Mem := store32 m (tv + 32) x

/-- The `struct timeval` stored at bit offset `tv`. -/
def load_timeval (m : Mem) (tv : Nat) : timeval :=
  ⟨load_tv_sec m tv, load_tv_usec m tv⟩

/-- The `fd_set` stored at bit offset `set`, as a bitmap of `FD_SETSIZE` bits. -/
def load_fd_set (m : Mem) (set : Nat) : Nat → Bool :=
  fun j => decide (j < FD_SETSIZE) && m (set + j)

/-- Number of indices below `n` at which the bitmap `s` has a set bit. -/
def count_bits_below (n : Nat) (s : Nat → Bool) : Nat :=
  ((List.range n).filter s).length

/-! ## `select_count_kcond` (lines 47-71) -/

/-- Local state of the loop of `select_count_kcond`: the pending return code
(`0` while the loop is running), `*cond_cnt_ref` and the calls made. -/
structure CountState where
  rc : Int
  cond_cnt : Nat
  trace : List Event

/-- State of `select_count_kcond` after the iterations `0 .. i-1` of its loop
(an early `return -EBADF` freezes the state). -/
def select_count_kcond_loop (v : Vfs) (m : Mem) (set : Nat)
    (get_cond : fs_handle → Option kcond) (s0 : CountState) : Nat → CountState
  | 0 => s0
  | i + 1 =>
    let s := select_count_kcond_loop v m set get_cond s0 i
    if s.rc ≠ 0 then s
    else if !FD_ISSET i set m then s
    else
      match v.get_fs_handle i with
      | none => ⟨-EBADF, s.cond_cnt, s.trace ++ [Event.get_fs_handle i]⟩
      | some h =>
        if (get_cond h).isSome then
          ⟨0, s.cond_cnt + 1, s.trace ++ [Event.get_fs_handle i]⟩
        else
          ⟨0, s.cond_cnt, s.trace ++ [Event.get_fs_handle i]⟩

/-- The function `select_count_kcond(nfds, set, cond_cnt_ref, get_cond)`; `set` is
`none` for a NULL pointer.  The incoming `*cond_cnt_ref` and trace are in `s0`. -/
def select_count_kcond (v : Vfs) (m : Mem) (nfds : Nat) (set : Option Nat)
    (get_cond : fs_handle → Option kcond) (s0 : CountState) : CountState :=
  match set with
  | none => ⟨0, s0.cond_cnt, s0.trace⟩
  | some p => select_count_kcond_loop v m p get_cond ⟨0, s0.cond_cnt, s0.trace⟩ nfds

/-! ## `select_set_kcond` (lines 73-102) -/

/-- Local state of the loop of `select_set_kcond`: the pending return code
(`some 0` while running, `none` after a failed `ASSERT`), `*idx` and the
calls made. -/
structure SetState where
  rc : Option Int
  idx : Nat
  trace : List Event

/-- State of `select_set_kcond` after the iterations `0 .. i-1` of its loop.
`count` is `w->count`. -/
def select_set_kcond_loop (cfg : Config) (v : Vfs) (m : Mem) (count set : Nat)
    (get_cond : fs_handle → Option kcond) (s0 : SetState) : Nat → SetState
  | 0 => s0
  | i + 1 =>
    let s := select_set_kcond_loop cfg v m count set get_cond s0 i
    if s.rc ≠ some 0 then s
    else if !FD_ISSET i set m then s
    else
      match v.get_fs_handle i with
      | none => ⟨some (-EBADF), s.idx, s.trace ++ [Event.get_fs_handle i]⟩
      | some h =>
        if cfg.DEBUG && !decide (s.idx < count) then
          ⟨none, s.idx, s.trace ++ [Event.get_fs_handle i, Event.assert_failed]⟩
        else
          match get_cond h with
          | some c =>
            ⟨some 0, s.idx + 1,
              s.trace ++ [Event.get_fs_handle i, Event.mobj_waiter_set s.idx c]⟩
          | none => ⟨some 0, s.idx, s.trace ++ [Event.get_fs_handle i]⟩

/-- The function `select_set_kcond(nfds, w, idx, set, get_cond)`. -/
def select_set_kcond (cfg : Config) (v : Vfs) (m : Mem) (nfds count : Nat)
    (set : Option Nat) (get_cond : fs_handle → Option kcond) (s0 : SetState) : SetState :=
  match set with
  | none => ⟨some 0, s0.idx, s0.trace⟩
  | some p =>
    select_set_kcond_loop cfg v m count p get_cond ⟨some 0, s0.idx, s0.trace⟩ nfds

/-! ## `select_set_ready` (lines 104-127) -/

/-- Local state of the loop of `select_set_ready`: the scratch memory (the set
is modified in place), `tot` and the calls made. -/
structure ReadyState where
  mem : Mem
  tot : Nat
  trace : List Event

/-- State of `select_set_ready` after the iterations `0 .. i-1` of its loop. -/
def select_set_ready_loop (v : Vfs) (set : Nat) (is_ready : fs_handle → Bool)
    (m0 : Mem) : Nat → ReadyState
  | 0 => ⟨m0, 0, []⟩
  | i + 1 =>
    let s := select_set_ready_loop v set is_ready m0 i
    if !FD_ISSET i set s.mem then s
    else
      match v.get_fs_handle i with
      | none => ⟨FD_CLR i set s.mem, s.tot, s.trace ++ [Event.get_fs_handle i]⟩
      | some h =>
        if !is_ready h then
          ⟨FD_CLR i set s.mem, s.tot, s.trace ++ [Event.get_fs_handle i]⟩
        else
          ⟨s.mem, s.tot + 1, s.trace ++ [Event.get_fs_handle i]⟩

/-- The function `select_set_ready(nfds, set, is_ready)`; `set` is `none` for NULL. -/
def select_set_ready (v : Vfs) (nfds : Nat) (set : Option Nat)
    (is_ready : fs_handle → Bool) (m : Mem) : ReadyState :=
  match set with
  | none => ⟨m, 0, []⟩
  | some p => select_set_ready_loop v p is_ready m nfds

/-! ## `count_ready_streams_per_set` and `count_ready_streams` (lines 159-191) -/

/-- Local state of the counting loops: `count` and the calls made. -/
structure StreamsState where
  count : Nat
  trace : List Event

/-- State of `count_ready_streams_per_set` after the iterations `0 .. j-1`. -/
def count_ready_streams_per_set_loop (v : Vfs) (m : Mem) (set : Nat)
    (is_ready : fs_handle → Bool) : Nat → StreamsState
  | 0 => ⟨0, []⟩
  | j + 1 =>
    let s := count_ready_streams_per_set_loop v m set is_ready j
    if !FD_ISSET j set m then s
    else
      match v.get_fs_handle j with
      | none => ⟨s.count, s.trace ++ [Event.get_fs_handle j]⟩
      | some h =>
        if is_ready h then ⟨s.count + 1, s.trace ++ [Event.get_fs_handle j]⟩
        else ⟨s.count, s.trace ++ [Event.get_fs_handle j]⟩

/-- The function `count_ready_streams_per_set(nfds, set, is_ready)`. -/
def count_ready_streams_per_set (v : Vfs) (m : Mem) (nfds : Nat) (set : Option Nat)
    (is_ready : fs_handle → Bool) : StreamsState :=
  match set with
  | none => ⟨0, []⟩
  | some p => count_ready_streams_per_set_loop v m p is_ready nfds

/-- State of `count_ready_streams` after the iterations `0 .. i-1` of its loop. -/
def count_ready_streams_loop (v : Vfs) (m : Mem) (nfds : Nat) (sets : Nat → Option Nat) :
    Nat → StreamsState
  | 0 => ⟨0, []⟩
  | i + 1 =>
    let s := count_ready_streams_loop v m nfds sets i
    let r := count_ready_streams_per_set v m nfds (sets i) (v.grf i)
    ⟨s.count + r.count, s.trace ++ r.trace⟩

/-- The function `count_ready_streams(nfds, sets)`. -/
def count_ready_streams (v : Vfs) (m : Mem) (nfds : Nat) (sets : Nat → Option Nat) :
    StreamsState :=
  count_ready_streams_loop v m nfds sets 3

/-! ## The environment of one call -/

/-- What the task observes when one `kernel_sleep_on_waiter` returns: whether
`curr->wobj.type` is set (the wakeup timer fired), the VFS at that moment, and
the value `task_cancel_wakeup_timer(curr)` would return (a `u32`). -/
structure Wakeup where
  timer_fired : Bool
  vfs : Vfs
  rem : Nat

/-- Everything outside `select.c` that one call of `sys_select` depends on.
The VFS may change while the task does not hold the CPU, so each pass sees
its own snapshot.  `copy_from_user_fault i` / `copy_to_user_fault i` tell
whether the copy of object `i` (`0..2` the sets, `3` the timeout) faults;
`alloc_fail` whether `allocate_mobj_waiter` returns NULL; `wakeups` the
successive returns of `kernel_sleep_on_waiter` (when the list is exhausted the
task stays blocked). -/
structure Env where
  copy_from_user_fault : Nat → Bool
  copy_to_user_fault : Nat → Bool
  vfs_count : Vfs
  alloc_fail : Bool
  vfs_set : Vfs
  wakeups : List Wakeup
  vfs_ready : Vfs

/-- The user-space objects behind the four pointer arguments of `sys_select`,
by value: `sets i` is the object `u_sets[i]` points to (`none` for a NULL
pointer), `tv` the one `user_tv` points to.  `sys_select` only copies these
objects in and, later, out; where they lie in the caller's memory, and whether
they overlap, is described by `UserArgs` below. -/
structure UserMem where
  sets : Nat → Option (Nat → Bool)
  tv : Option timeval

/-! ## `select_wait_on_cond` (lines 193-267) -/

/-- Result of a function that may not return: `rc = none` when the kernel
panics on a failed `ASSERT` or the task stays blocked forever. -/
structure WaitResult where
  rc : Option Int
  trace : List Event
  mem : Mem

/-- Outcome of the `while (true)` loop: `done = false` when the task stays
blocked in `kernel_sleep_on_waiter`. -/
structure LoopState where
  done : Bool
  trace : List Event
  mem : Mem

/-- The `while (true)` loop of `select_wait_on_cond` (lines 224-262), one
iteration per wakeup. -/
def select_wait_on_cond_loop (cfg : Config) (nfds : Nat) (sets : Nat → Option Nat)
    (tv : Option Nat) (m : Mem) : List Wakeup → LoopState
  | [] => ⟨false, [Event.kernel_sleep_on_waiter], m⟩
  | w :: ws =>
    match tv with
    | some t =>
      if w.timer_fired then
        ⟨true, [Event.kernel_sleep_on_waiter, Event.wait_obj_reset],
          store_tv_usec (store_tv_sec m t 0) t 0⟩
      else
        let r := count_ready_streams w.vfs m nfds sets
        if r.count = 0 then
          let rest := select_wait_on_cond_loop cfg nfds sets tv m ws
          ⟨rest.done, Event.kernel_sleep_on_waiter :: r.trace ++ rest.trace, rest.mem⟩
        else
          ⟨true, Event.kernel_sleep_on_waiter :: r.trace ++ [Event.task_cancel_wakeup_timer],
            store_tv_usec (store_tv_sec m t (w.rem / cfg.TIMER_HZ)) t
              ((w.rem % cfg.TIMER_HZ) * (1000000 / cfg.TIMER_HZ) % 2 ^ 32)⟩
    | none =>
      let r := count_ready_streams w.vfs m nfds sets
      if r.count = 0 then
        let rest := select_wait_on_cond_loop cfg nfds sets tv m ws
        ⟨rest.done, Event.kernel_sleep_on_waiter :: r.trace ++ rest.trace, rest.mem⟩
      else
        ⟨true, Event.kernel_sleep_on_waiter :: r.trace, m⟩

/-- State of the registration loop of `select_wait_on_cond` (lines 214-217)
after the iterations `0 .. i-1`. -/
def select_wait_on_cond_set_loop (cfg : Config) (v : Vfs) (m : Mem) (nfds count : Nat)
    (sets : Nat → Option Nat) : Nat → SetState
  | 0 => ⟨some 0, 0, []⟩
  | i + 1 =>
    let s := select_wait_on_cond_set_loop cfg v m nfds count sets i
    if s.rc ≠ some 0 then s
    else select_set_kcond cfg v m nfds count (sets i) (v.gcf i) s

/-- The function `select_wait_on_cond(nfds, sets, tv, cond_cnt, timeout_ticks)`. -/
def select_wait_on_cond (cfg : Config) (env : Env) (m : Mem) (nfds : Nat)
    (sets : Nat → Option Nat) (tv : Option Nat) (cond_cnt timeout_ticks : Nat) : WaitResult :=
  if env.alloc_fail then
    ⟨some (-ENOMEM), [Event.allocate_mobj_waiter cond_cnt], m⟩
  else
    let reg := select_wait_on_cond_set_loop cfg env.vfs_set m nfds cond_cnt sets 3
    match reg.rc with
    | none => ⟨none, Event.allocate_mobj_waiter cond_cnt :: reg.trace, m⟩
    | some rc =>
      if rc ≠ 0 then
        ⟨some rc, Event.allocate_mobj_waiter cond_cnt :: reg.trace ++ [Event.free_mobj_waiter], m⟩
      else if tv.isSome && cfg.DEBUG && !decide (timeout_ticks > 0) then
        ⟨none, Event.allocate_mobj_waiter cond_cnt :: reg.trace ++ [Event.assert_failed], m⟩
      else
        let arm := if tv.isSome then [Event.task_set_wakeup_timer timeout_ticks] else []
        let lp := select_wait_on_cond_loop cfg nfds sets tv m env.wakeups
        if lp.done then
          ⟨some 0, Event.allocate_mobj_waiter cond_cnt :: reg.trace ++ arm ++ lp.trace ++
              [Event.free_mobj_waiter], lp.mem⟩
        else
          ⟨none, Event.allocate_mobj_waiter cond_cnt :: reg.trace ++ arm ++ lp.trace, lp.mem⟩

/-! ## `sys_select` (lines 269-353) -/

/-- The pointer `((fd_set *) curr->args_copybuf) + i` (line 291), as a bit offset. -/
def sets_ptr (i : Nat) : Nat := i * FD_SETSIZE

/-- The pointer `(void *) ((fd_set *) curr->args_copybuf) + 3` (line 299), as a
bit offset.  The cast binds tighter than `+`, so the addition is done on a
`void *` and advances by 3 bytes. -/
def tv_ptr : Nat := 8 * 3

/-- State of the copy-in loop: pending return code, scratch memory, the array
`sets` and the calls made. -/
structure CopyInState where
  rc : Int
  mem : Mem
  sets : Nat → Option Nat
  trace : List Event

/-- State of the copy-in loop of `sys_select` (lines 286-295) after the
iterations `0 .. i-1`. -/
def sys_select_copy_in_loop (env : Env) (u : UserMem) (m0 : Mem) : Nat → CopyInState
  | 0 => ⟨0, m0, fun _ => none, []⟩
  | i + 1 =>
    let s := sys_select_copy_in_loop env u m0 i
    if s.rc ≠ 0 then s
    else
      match u.sets i with
      | none => s
      | some bits =>
        let sets := fun j => if j = i then some (sets_ptr i) else s.sets j
        if env.copy_from_user_fault i then
          ⟨-EFAULT, s.mem, sets, s.trace ++ [Event.copy_from_user i]⟩
        else
          ⟨0, store_bits s.mem (sets_ptr i) FD_SETSIZE bits, sets,
            s.trace ++ [Event.copy_from_user i]⟩

/-- The conversion `(u64) x` of a `long` field of the timeval (32 bits on the
kernel's target), given by its raw 32-bit image: sign extension. -/
def long_to_u64 (x : Nat) : Nat :=
  if x % 2 ^ 32 < 2 ^ 31 then x % 2 ^ 32 else x % 2 ^ 32 + (2 ^ 64 - 2 ^ 32)

/-- The tick count computed at lines 304-309 from the fields of the copied-in
timeout, given by their raw 32-bit images.  `tmp` is a `u64` (the product and
the sums wrap modulo `2^64`), the result a `u32`.  For a `TIMER_HZ` of 0 or
above 1000000 the C code divides by zero (no working build has such a value);
this definition then yields 0 for the quotient. -/
def sys_select_timeout_ticks (cfg : Config) (tv_sec tv_usec : Nat) : Nat :=
  let tmp0 : Nat := 0
  let tmp1 := (tmp0 + long_to_u64 tv_sec * cfg.TIMER_HZ % 2 ^ 64) % 2 ^ 64
  let tmp2 := (tmp1 + long_to_u64 tv_usec / (1000000 / cfg.TIMER_HZ)) % 2 ^ 64
  min tmp2 UINT32_MAX % 2 ^ 32

/-- State after the timeout block: pending return code, scratch memory, the
pointer `tv`, `timeout_ticks` and the calls made. -/
structure TvState where
  rc : Int
  mem : Mem
  tv : Option Nat
  timeout_ticks : Nat
  trace : List Event

/-- The timeout block of `sys_select` (lines 297-310). -/
def sys_select_copy_tv (cfg : Config) (env : Env) (u : UserMem) (m : Mem) : TvState :=
  match u.tv with
  | none => ⟨0, m, none, 0, []⟩
  | some t =>
    if env.copy_from_user_fault 3 then
      ⟨-EFAULT, m, some tv_ptr, 0, [Event.copy_from_user 3]⟩
    else
      let m1 := store_tv_usec (store_tv_sec m tv_ptr t.tv_sec) tv_ptr t.tv_usec
      ⟨0, m1, some tv_ptr,
        sys_select_timeout_ticks cfg (load_tv_sec m1 tv_ptr) (load_tv_usec m1 tv_ptr),
        [Event.copy_from_user 3]⟩

/-- State of the counting loop of `sys_select` (lines 315-318) after the
iterations `0 .. i-1`. -/
def sys_select_count_loop (v : Vfs) (m : Mem) (nfds : Nat) (sets : Nat → Option Nat) :
    Nat → CountState
  | 0 => ⟨0, 0, []⟩
  | i + 1 =>
    let s := sys_select_count_loop v m nfds sets i
    if s.rc ≠ 0 then s
    else select_count_kcond v m nfds (sets i) (v.gcf i) s

/-- State of the resolution loop: pending return code, scratch memory,
`total_ready_count`, the calls made and the user-space sets. -/
structure ResolveState where
  rc : Int
  mem : Mem
  total_ready_count : Nat
  trace : List Event
  user_sets : Nat → Option (Nat → Bool)

/-- State of the resolution loop of `sys_select` (lines 341-347) after the
iterations `0 .. i-1`.  A faulting `copy_to_user` leaves the user object as it
was. -/
def sys_select_resolve_loop (env : Env) (nfds : Nat) (sets : Nat → Option Nat)
    (u : UserMem) (m0 : Mem) : Nat → ResolveState
  | 0 => ⟨0, m0, 0, [], u.sets⟩
  | i + 1 =>
    let s := sys_select_resolve_loop env nfds sets u m0 i
    if s.rc ≠ 0 then s
    else
      let r := select_set_ready env.vfs_ready nfds (sets i) (env.vfs_ready.grf i) s.mem
      if (u.sets i).isSome then
        match sets i with
        | some p =>
          if env.copy_to_user_fault i then
            ⟨-EFAULT, r.mem, s.total_ready_count + r.tot,
              s.trace ++ r.trace ++ [Event.copy_to_user i], s.user_sets⟩
          else
            ⟨0, r.mem, s.total_ready_count + r.tot,
              s.trace ++ r.trace ++ [Event.copy_to_user i],
              fun j => if j = i then some (load_fd_set r.mem p) else s.user_sets j⟩
        | none =>
          ⟨-EFAULT, r.mem, s.total_ready_count + r.tot,
            s.trace ++ r.trace ++ [Event.copy_to_user i], s.user_sets⟩
      else
        ⟨0, r.mem, s.total_ready_count + r.tot, s.trace ++ r.trace, s.user_sets⟩

/-- Outcome of one call of `sys_select`: the value returned (`none` when the
call does not return), the calls made, the scratch memory and, for each
user-space object, the value last copied out to it (the value supplied when
nothing was copied out). -/
structure Result where
  ret : Option Int
  trace : List Event
  mem : Mem
  user : UserMem

/-- The copy-in loop of `sys_select` (lines 286-295), all three iterations. -/
def sys_select_copy_in (env : Env) (u : UserMem) (m0 : Mem) : CopyInState :=
  sys_select_copy_in_loop env u m0 3

/-- The timeout block (lines 297-310), run after a successful copy-in loop. -/
def sys_select_tv (cfg : Config) (env : Env) (m0 : Mem) (u : UserMem) : TvState :=
  sys_select_copy_tv cfg env u (sys_select_copy_in env u m0).mem

/-- The counting step (lines 314-319), run after the timeout block: skipped
when a timeout was supplied and its tick count is zero. -/
def sys_select_count (cfg : Config) (env : Env) (m0 : Mem) (nfds : Nat) (u : UserMem) :
    CountState :=
  let ts := sys_select_tv cfg env m0 u
  if ts.tv.isNone ∨ ts.timeout_ticks > 0 then
    sys_select_count_loop env.vfs_count ts.mem nfds (sys_select_copy_in env u m0).sets 3
  else ⟨0, 0, []⟩

/-- The path decision (lines 321-339), run after a successful counting step:
the wait path, a plain `kernel_sleep`, or nothing. -/
def sys_select_wait (cfg : Config) (env : Env) (m0 : Mem) (nfds : Nat) (u : UserMem) :
    WaitResult :=
  let ts := sys_select_tv cfg env m0 u
  let cn := sys_select_count cfg env m0 nfds u
  if cn.cond_cnt > 0 then
    select_wait_on_cond cfg env ts.mem nfds (sys_select_copy_in env u m0).sets ts.tv
      cn.cond_cnt ts.timeout_ticks
  else if ts.timeout_ticks > 0 then
    ⟨some 0, [Event.kernel_sleep ts.timeout_ticks], ts.mem⟩
  else ⟨some 0, [], ts.mem⟩

/-- The resolution loop (lines 341-347), run after the path decision returned 0. -/
def sys_select_resolve (cfg : Config) (env : Env) (m0 : Mem) (nfds : Nat) (u : UserMem) :
    ResolveState :=
  sys_select_resolve_loop env nfds (sys_select_copy_in env u m0).sets u
    (sys_select_wait cfg env m0 nfds u).mem 3

/-- The system call `sys_select(user_nfds, user_rfds, user_wfds, user_efds, user_tv)`,
run with scratch memory `m0`; the four user pointers and their targets are `u`. -/
def sys_select (cfg : Config) (env : Env) (m0 : Mem) (user_nfds : Int) (u : UserMem) :
    Result :=
  if user_nfds < 0 ∨ user_nfds > (cfg.MAX_HANDLES : Int) then
    ⟨some (-EINVAL), [], m0, u⟩
  else
    let nfds := user_nfds.toNat
    let ci := sys_select_copy_in env u m0
    if ci.rc ≠ 0 then ⟨some ci.rc, ci.trace, ci.mem, u⟩
    else
      let ts := sys_select_tv cfg env m0 u
      if ts.rc ≠ 0 then ⟨some ts.rc, ci.trace ++ ts.trace, ts.mem, u⟩
      else
        let cn := sys_select_count cfg env m0 nfds u
        if cn.rc ≠ 0 then ⟨some cn.rc, ci.trace ++ ts.trace ++ cn.trace, ts.mem, u⟩
        else
          let wt := sys_select_wait cfg env m0 nfds u
          if wt.rc ≠ some 0 then
            ⟨wt.rc, ci.trace ++ ts.trace ++ cn.trace ++ wt.trace, wt.mem, u⟩
          else
            let rs := sys_select_resolve cfg env m0 nfds u
            let tr := ci.trace ++ ts.trace ++ cn.trace ++ wt.trace ++ rs.trace
            if rs.rc ≠ 0 then ⟨some rs.rc, tr, rs.mem, ⟨rs.user_sets, u.tv⟩⟩
            else
              match ts.tv with
              | none => ⟨some rs.total_ready_count, tr, rs.mem, ⟨rs.user_sets, u.tv⟩⟩
              | some t =>
                if env.copy_to_user_fault 3 then
                  ⟨some (-EFAULT), tr ++ [Event.copy_to_user 3], rs.mem, ⟨rs.user_sets, u.tv⟩⟩
                else
                  ⟨some rs.total_ready_count, tr ++ [Event.copy_to_user 3], rs.mem,
                    ⟨rs.user_sets, some (load_timeval rs.mem t)⟩⟩

/-! ## Auxiliary notions used in the statements -/

/-- Whether descriptor `i` designates an open handle for which `is_ready` holds. -/
def handle_ready (v : Vfs) (is_ready : fs_handle → Bool) (i : Nat) : Bool :=
  match v.get_fs_handle i with
  | some h => is_ready h
  | none => false

/-- Number of bits set below `nfds` in a user-space set (`0` for an absent set). -/
def bits_set_below (nfds : Nat) (s : Option (Nat → Bool)) : Nat :=
  match s with
  | some b => count_bits_below nfds b
  | none => 0

/-- Total number of bits set below `nfds` in the user-space sets `0 .. n-1`. -/
def bits_set_total (nfds : Nat) (sets : Nat → Option (Nat → Bool)) : Nat → Nat
  | 0 => 0
  | k + 1 => bits_set_total nfds sets k + bits_set_below nfds (sets k)

/-- The calls made by the wait loop during a run of wakeups each of which is
followed by a rescan and another sleep: `kernel_sleep_on_waiter`, then the
lookups of `count_ready_streams`. -/
def rescan_trace (m : Mem) (nfds : Nat) (sets : Nat → Option Nat) : List Wakeup → List Event
  | [] => []
  | w :: ws =>
    Event.kernel_sleep_on_waiter :: (count_ready_streams w.vfs m nfds sets).trace ++
      rescan_trace m nfds sets ws

/-- A wakeup after which the wait loop sleeps again when a timeout was
supplied: the timer has not fired and the rescan finds no ready stream. -/
def spurious_wakeup (m : Mem) (nfds : Nat) (sets : Nat → Option Nat) (w : Wakeup) : Bool :=
  !w.timer_fired && decide ((count_ready_streams w.vfs m nfds sets).count = 0)

/-! ## Concrete scenarios -/

/-- The usual build: 16 handles per task, 100 ticks per second, `ASSERT` enabled. -/
def cfg16 : Config := ⟨16, 100, true⟩

/-- A scratch buffer holding zeroes. -/
def mem_zero : Mem := fun _ => false

/-- A VFS in which descriptors 3, 5 and 10 are open (handle `100 + fd`), every
accessor returns a condition iff `cond`, and every predicate returns `ready`. -/
def vfs_fixed (cond ready : Bool) : Vfs :=
  ⟨fun fd => if fd = 3 ∨ fd = 5 ∨ fd = 10 then some (100 + fd) else none,
    fun _ _ => if cond then some 7 else none, fun _ _ => ready⟩

/-- An environment without faults in which the passes before the sleep see
`v`, the sleep is ended by the wakeups `ws`, and resolution sees `vr`. -/
def env_plain (v : Vfs) (ws : List Wakeup) (vr : Vfs) : Env :=
  ⟨fun _ => false, fun _ => false, v, false, v, ws, vr⟩

/-- The bitmap whose only set bit is `n`. -/
def fd_single (n : Nat) : Nat → Bool := fun j => decide (j = n)

/-- User arguments with only the read set (possibly) and the timeout (possibly). -/
def user_rfds (r : Option (Nat → Bool)) (tv : Option timeval) : UserMem :=
  ⟨fun i => if i = 0 then r else none, tv⟩

/-- Scenario "wait times out": descriptor 5 has a condition and is never
ready; the first wakeup is the timer. -/
def env_timer : Env :=
  env_plain (vfs_fixed true false) [⟨true, vfs_fixed true false, 0⟩] (vfs_fixed true false)

/-- Scenario "wait then wake": descriptor 5 has a condition and is ready at the
first wakeup, where 700 ticks remain on the timer. -/
def env_wake : Env :=
  env_plain (vfs_fixed true false) [⟨false, vfs_fixed true true, 700⟩] (vfs_fixed true true)

/-- The arguments `select(8, {5}, NULL, NULL, {sec, 0})` on the user side. -/
def user_wait (sec : Nat) : UserMem := user_rfds (some (fd_single 5)) (some ⟨sec, 0⟩)

/-! ## Further classifications of events -/

/-- Events that copy from user memory. -/
def Event.is_copy_from_user : Event → Bool
  | Event.copy_from_user _ => true
  | _ => false

/-- Events that copy to user memory. -/
def Event.is_copy_to_user : Event → Bool
  | Event.copy_to_user _ => true
  | _ => false

/-- Events that the body of the wait loop can produce. -/
def Event.is_wait_loop : Event → Bool
  | Event.kernel_sleep_on_waiter => true
  | Event.get_fs_handle _ => true
  | Event.wait_obj_reset => true
  | Event.task_cancel_wakeup_timer => true
  | _ => false

/-- Events that arm the wakeup timer. -/
def Event.is_timer_set : Event → Bool
  | Event.task_set_wakeup_timer _ => true
  | _ => false

/-- Events that suspend the task. -/
def Event.is_sleep : Event → Bool
  | Event.kernel_sleep_on_waiter => true
  | Event.kernel_sleep _ => true
  | _ => false

/-- Events that `select_wait_on_cond` can produce. -/
def Event.is_wait_path : Event → Bool
  | Event.copy_from_user _ => false
  | Event.copy_to_user _ => false
  | Event.kernel_sleep _ => false
  | _ => true

/-- The ready count of set `k` on the scratch memory `m`: the number of
descriptors below `nfds` whose bit is set in the copy of set `k` and whose
handle is open and ready for kind `k`; `0` for a set that was not supplied. -/
def set_ready_count (v : Vfs) (m : Mem) (nfds k : Nat) (supplied : Bool) : Nat :=
  if supplied then
    count_bits_below nfds (fun i => FD_ISSET i (sets_ptr k) m && handle_ready v (v.grf k) i)
  else 0

/-- The user arguments `select(nfds, rfds, wfds, NULL, NULL)`. -/
def user_rw (r w : Option (Nat → Bool)) : UserMem :=
  ⟨fun i => if i = 0 then r else if i = 1 then w else none, none⟩

/-- Sum of the ready counts of the sets `0 .. n-1` on the scratch memory `m`. -/
def ready_total (v : Vfs) (m : Mem) (nfds : Nat) (supplied : Nat → Bool) : Nat → Nat
  | 0 => 0
  | k + 1 => ready_total v m nfds supplied k + set_ready_count v m nfds k (supplied k)

/-- The user arguments with every pointer NULL. -/
def user_null : UserMem := ⟨fun _ => none, none⟩

/-- A scratch buffer in which only bit 5 of the read-set copy is set. -/
def mem_fd5 : Mem := fun q => decide (q = 5)

/-- The array `sets` when only the read set was supplied. -/
def sets_read : Nat → Option Nat := fun i => if i = 0 then some (sets_ptr 0) else none

/-- A VFS in which descriptors 3 and 5 are open (handle `100 + fd`), only the
handle of descriptor 3 has conditions (condition 7), and nothing is ready. -/
def vfs_mixed : Vfs :=
  ⟨fun fd => if fd = 3 ∨ fd = 5 then some (100 + fd) else none,
    fun _ h => if h = 103 then some 7 else none, fun _ _ => false⟩

/-- The bitmap `{3, 5}`. -/
def fd_3_5 : Nat → Bool := fun j => decide (j = 3 ∨ j = 5)

/-! ## Conditions of interest, as the specification describes them -/

/-- The pair contributed by descriptor `i` to a set of kind `k` stored at bit
offset `p`: `(k, i, c)` when bit `i` is set, the descriptor is open and the
kind-`k` accessor returns the condition `c`. -/
def cond_at (v : Vfs) (m : Mem) (p k i : Nat) : Option (Nat × Nat × kcond) :=
  if FD_ISSET i p m then
    (v.get_fs_handle i).bind (fun h => (v.gcf k h).map (fun c => (k, i, c)))
  else none

/-- The pairs of one set among the descriptors below `n`, ascending. -/
def set_cond_pairs (v : Vfs) (m : Mem) (p k n : Nat) : List (Nat × Nat × kcond) :=
  (List.range n).filterMap (cond_at v m p k)

/-- The pairs of the sets `0 .. n-1`, in the order read, write, except. -/
def cond_pairs_upto (v : Vfs) (m : Mem) (nfds : Nat) (sets : Nat → Option Nat) :
    Nat → List (Nat × Nat × kcond)
  | 0 => []
  | k + 1 =>
    cond_pairs_upto v m nfds sets k ++
      (match sets k with
        | none => []
        | some p => set_cond_pairs v m p k nfds)

/-- All pairs (interest kind, descriptor below `nfds`) with a condition. -/
def cond_pairs (v : Vfs) (m : Mem) (nfds : Nat) (sets : Nat → Option Nat) :
    List (Nat × Nat × kcond) :=
  cond_pairs_upto v m nfds sets 3

/-- The slot registrations `(idx, c)` of a trace, in call order. -/
def waiter_sets (l : List Event) : List (Nat × kcond) :=
  l.filterMap (fun e =>
    match e with
    | Event.mobj_waiter_set idx c => some (idx, c)
    | _ => none)

/-- The conditions `cs` numbered `n, n+1, ...`. -/
def number_from : Nat → List kcond → List (Nat × kcond)
  | _, [] => []
  | n, c :: cs => (n, c) :: number_from (n + 1) cs

/-- A scratch buffer in which only bits 3 and 5 of the read-set copy are set. -/
def mem_fd_3_5 : Mem := fun q => decide (q = 3 ∨ q = 5)

/-- A wakeup after which the wait loop sleeps again: it is not taken as a timer
wakeup (no timeout supplied, or the timer has not fired) and the rescan finds
no ready stream. -/
def loop_continues (m : Mem) (nfds : Nat) (sets : Nat → Option Nat) (tv : Option Nat)
    (w : Wakeup) : Bool :=
  !(tv.isSome && w.timer_fired) &&
    decide ((count_ready_streams w.vfs m nfds sets).count = 0)

/-- Number of `task_cancel_wakeup_timer` calls expected from the wait loop:
one exactly when a timeout was supplied and the first wakeup that does not
continue the loop is not a timer wakeup. -/
def expected_cancels (m : Mem) (nfds : Nat) (sets : Nat → Option Nat) (tv : Option Nat)
    (ws : List Wakeup) : Nat :=
  match ws.dropWhile (loop_continues m nfds sets tv) with
  | [] => 0
  | w :: _ => if tv.isSome && !w.timer_fired then 1 else 0

/-! ## `gcov.c`: the dump of one GCDA file (lines 98-184) -/

/-- The structure `gcov_ctr_info`: `num` counters stored at `values`
(`values k` is `values[k]`, a `u64`). -/
structure gcov_ctr_info where
  num : Nat
  values : Nat → Nat

/-- The structure `gcov_fn_info`; `ctrs c` is the `c`-th record of the trailing
array `ctrs`. -/
structure gcov_fn_info where
  ident : Nat
  lineno_checksum : Nat
  cfg_checksum : Nat
  ctrs : Nat → gcov_ctr_info

/-- The structure `gcov_info`; `merge j` tells whether `merge[j]` is non-NULL,
`functions i` is `*functions[i]`. -/
structure gcov_info where
  version : Nat
  stamp : Nat
  merge : Nat → Bool
  n_functions : Nat
  functions : Nat → gcov_fn_info

def GCOV_DATA_MAGIC : Nat := 0x67636461
def GCOV_TAG_FUNCTION : Nat := 0x01000000
def GCOV_TAG_FUNCTION_LENGTH : Nat := 3
def GCOV_TAG_COUNTER_BASE : Nat := 0x01a10000

/-- The macro `GCOV_TAG_COUNTER_LENGTH(NUM)`, in `u32` arithmetic. -/
def GCOV_TAG_COUNTER_LENGTH (num : Nat) : Nat := num * 2 % 2 ^ 32

/-- The macro `GCOV_TAG_FOR_COUNTER(COUNT)`, in `u32` arithmetic. -/
def GCOV_TAG_FOR_COUNTER (count : Nat) : Nat :=
  (GCOV_TAG_COUNTER_BASE + (count <<< 17) % 2 ^ 32) % 2 ^ 32

/-- What `printk` receives from the dump: a word or a line break. -/
inductive DumpToken where
  | word (w : Nat)
  | newline
  deriving DecidableEq, Repr

/-- The static `words_dumped` and the output produced so far. -/
structure DumpState where
  words_dumped : Nat
  out : List DumpToken

/-- The function `dump_begin`. -/
def dump_begin : DumpState := ⟨0, []⟩

/-- The function `dump_u32(val)`: a line break after every sixth word, then
the word. -/
def dump_u32 (st : DumpState) (val : Nat) : DumpState :=
  let out1 :=
    if st.words_dumped ≠ 0 ∧ st.words_dumped % 6 = 0 then st.out ++ [DumpToken.newline]
    else st.out
  ⟨(st.words_dumped + 1) % 2 ^ 32, out1 ++ [DumpToken.word (val % 2 ^ 32)]⟩

/-- The function `dump_u64(val)`: low word, then high word. -/
def dump_u64 (st : DumpState) (val : Nat) : DumpState :=
  dump_u32 (dump_u32 st ((val % 2 ^ 64) &&& 0xffffffff)) ((val % 2 ^ 64) >>> 32)

/-- The function `dump_end`. -/
def dump_end (st : DumpState) : DumpState := ⟨st.words_dumped, st.out ++ [DumpToken.newline]⟩

/-- State of the innermost loop of `dump_gcda` (line 176-177) after the
iterations `0 .. k-1`: every iteration dumps `counters->values[j]`. -/
def dump_gcda_values_loop (counters : gcov_ctr_info) (j : Nat) (st0 : DumpState) :
    Nat → DumpState
  | 0 => st0
  | k + 1 => dump_u64 (dump_gcda_values_loop counters j st0 k) (counters.values j)

/-- State of the loop over the counter kinds (lines 168-181) after the
iterations `0 .. j-1`: the dump state and the index of `counters` in `ctrs`. -/
def dump_gcda_counters_loop (info : gcov_info) (func : gcov_fn_info) (st0 : DumpState) :
    Nat → DumpState × Nat
  | 0 => (st0, 0)
  | j + 1 =>
    let s := dump_gcda_counters_loop info func st0 j
    if !info.merge j then s
    else
      let counters := func.ctrs s.2
      let st1 := dump_u32 s.1 (GCOV_TAG_FOR_COUNTER j)
      let st2 := dump_u32 st1 (GCOV_TAG_COUNTER_LENGTH counters.num)
      (dump_gcda_values_loop counters j st2 counters.num, s.2 + 1)

/-- State of the loop over the functions (lines 156-182) after the iterations
`0 .. i-1`. -/
def dump_gcda_functions_loop (gcov_counters : Nat) (info : gcov_info) (st0 : DumpState) :
    Nat → DumpState
  | 0 => st0
  | i + 1 =>
    let st := dump_gcda_functions_loop gcov_counters info st0 i
    let func := info.functions i
    let st1 := dump_u32 st GCOV_TAG_FUNCTION
    let st2 := dump_u32 st1 GCOV_TAG_FUNCTION_LENGTH
    let st3 := dump_u32 st2 func.ident
    let st4 := dump_u32 st3 func.lineno_checksum
    let st5 := dump_u32 st4 func.cfg_checksum
    (dump_gcda_counters_loop info func st5 gcov_counters).1

/-- The function `dump_gcda(info)`, for a build with `GCOV_COUNTERS = gcov_counters`. -/
def dump_gcda (gcov_counters : Nat) (info : gcov_info) : DumpState :=
  let st1 := dump_u32 dump_begin GCOV_DATA_MAGIC
  let st2 := dump_u32 st1 info.version
  let st3 := dump_u32 st2 info.stamp
  dump_end (dump_gcda_functions_loop gcov_counters info st3 info.n_functions)

/-- The words of an output, without the line breaks. -/
def emitted_words (out : List DumpToken) : List Nat :=
  out.filterMap (fun t =>
    match t with
    | DumpToken.word w => some w
    | DumpToken.newline => none)

/-- The words of the values `values[0], ..., values[n-1]`, each as its low
32-bit word followed by its high 32-bit word (the stream the specification
describes). -/
def expected_value_words (counters : gcov_ctr_info) : Nat → List Nat
  | 0 => []
  | k + 1 =>
    expected_value_words counters k ++
      [counters.values k % 2 ^ 32, counters.values k / 2 ^ 32 % 2 ^ 32]

/-- The words described for the counter kinds `0 .. j-1` of one function, with
the index of the function's next counter record. -/
def expected_counter_words (info : gcov_info) (func : gcov_fn_info) : Nat → List Nat × Nat
  | 0 => ([], 0)
  | j + 1 =>
    let s := expected_counter_words info func j
    if info.merge j then
      (s.1 ++ [0x01a10000 + (j <<< 17), 2 * (func.ctrs s.2).num] ++
        expected_value_words (func.ctrs s.2) (func.ctrs s.2).num, s.2 + 1)
    else s

/-- The words described for the functions `0 .. i-1`. -/
def expected_function_words (gcov_counters : Nat) (info : gcov_info) : Nat → List Nat
  | 0 => []
  | i + 1 =>
    expected_function_words gcov_counters info i ++
      [0x01000000, 3, (info.functions i).ident, (info.functions i).lineno_checksum,
        (info.functions i).cfg_checksum] ++
      (expected_counter_words info (info.functions i) gcov_counters).1

/-- The word stream the specification describes for `dump_gcda`. -/
def expected_gcda_words (gcov_counters : Nat) (info : gcov_info) : List Nat :=
  [0x67636461, info.version, info.stamp] ++
    expected_function_words gcov_counters info info.n_functions

/-- A file with one function and one used counter kind (kind 0) holding the two
counters 10 and 20. -/
def gcov_two_counters : gcov_info :=
  ⟨1, 2, fun j => decide (j = 0), 1,
    fun _ => ⟨7, 8, 9, fun _ => ⟨2, fun k => if k = 0 then 10 else if k = 1 then 20 else 0⟩⟩⟩

/-- A build with 64 handles per task, 100 ticks per second, `ASSERT` enabled. -/
def cfg64 : Config := ⟨64, 100, true⟩

/-- A VFS in which only descriptor 30 is open (handle 130), every accessor
returns condition 7, and every predicate returns `ready`. -/
def vfs_fd30 (ready : Bool) : Vfs :=
  ⟨fun fd => if fd = 30 then some 130 else none, fun _ _ => some 7, fun _ _ => ready⟩

/-- Scenario "wait then wake" for descriptor 30: not ready before the sleep,
ready at the first wakeup, where 100 ticks remain on the timer. -/
def env_fd30 : Env :=
  env_plain (vfs_fd30 false) [⟨false, vfs_fd30 true, 100⟩] (vfs_fd30 true)

/-- The arguments `select(nfds, {30}, NULL, NULL, {64, 0})` on the user side. -/
def user_fd30 : UserMem := user_rfds (some (fd_single 30)) (some ⟨64, 0⟩)

/-! ## The caller's address space -/

/-- The four pointer arguments of `sys_select` and the caller's memory:
`u_sets k` is `u_sets[k]` (`user_rfds`, `user_wfds`, `user_efds`) as a bit
address in `mem`, `user_tv` likewise; `none` is NULL.  Nothing prevents two
pointers from designating the same or overlapping objects. -/
structure UserArgs where
  u_sets : Nat → Option Nat
  user_tv : Option Nat
  mem : Mem

/-- The objects the pointers designate in the caller's memory at entry. -/
def UserArgs.objects (a : UserArgs) : UserMem :=
  ⟨fun k => (a.u_sets k).map (fun p => load_fd_set a.mem p),
    a.user_tv.map (fun p => load_timeval a.mem p)⟩

/-- The caller's memory after `copy_to_user(u_sets[i], sets[i], sizeof(fd_set))`
(line 345), when the run `r` made that call and it did not fault; `m` is the
caller's memory before. -/
def copy_out_set (env : Env) (a : UserArgs) (r : Result) (i : Nat) (m : Mem) : Mem :=
  if Event.copy_to_user i ∈ r.trace ∧ env.copy_to_user_fault i = false then
    match a.u_sets i, r.user.sets i with
    | some p, some bits => store_bits m p FD_SETSIZE bits
    | _, _ => m
  else m

/-- The caller's memory after `copy_to_user(user_tv, tv, sizeof(struct timeval))`
(line 349), when the run `r` made that call and it did not fault. -/
def copy_out_tv (env : Env) (a : UserArgs) (r : Result) (m : Mem) : Mem :=
  if Event.copy_to_user 3 ∈ r.trace ∧ env.copy_to_user_fault 3 = false then
    match a.user_tv, r.user.tv with
    | some p, some t => store_tv_usec (store_tv_sec m p t.tv_sec) p t.tv_usec
    | _, _ => m
  else m

/-- Outcome of one call as the caller sees it: the value returned and the
caller's memory afterwards. -/
structure CallResult where
  ret : Option Int
  mem : Mem

/-- One call `sys_select(user_nfds, user_rfds, user_wfds, user_efds, user_tv)`
on the caller's memory.  Every `copy_from_user` of `sys_select` (lines 293 and
301) precedes every `copy_to_user` (lines 345 and 349), so the objects copied
in are those of the memory at entry, also when pointers alias; the copies out
are applied in the order of the calls: sets 0, 1, 2, then the timeout. -/
def sys_select_call (cfg : Config) (env : Env) (m0 : Mem) (user_nfds : Int) (a : UserArgs) :
    CallResult :=
  let r := sys_select cfg env m0 user_nfds a.objects
  ⟨r.ret,
    copy_out_tv env a r (copy_out_set env a r 2 (copy_out_set env a r 1
      (copy_out_set env a r 0 a.mem)))⟩

/-- The non-NULL pointers designate pairwise non-overlapping objects: the
`fd_set`s (`FD_SETSIZE` bits each) and the timeval (64 bits). -/
def UserArgs.disjoint (a : UserArgs) : Prop :=
  (∀ j, j < 3 → ∀ k, k < 3 → j ≠ k → ∀ p, a.u_sets j = some p → ∀ q, a.u_sets k = some q →
    p + FD_SETSIZE ≤ q ∨ q + FD_SETSIZE ≤ p) ∧
  (∀ k, k < 3 → ∀ p, a.u_sets k = some p → ∀ t, a.user_tv = some t →
    p + FD_SETSIZE ≤ t ∨ t + 64 ≤ p)

/-- The set `u_sets[k]` as the caller finds it in the memory `m` (`none` for a
NULL pointer). -/
def UserArgs.returned_set (a : UserArgs) (m : Mem) (k : Nat) : Option (Nat → Bool) :=
  (a.u_sets k).map (fun p => load_fd_set m p)

/-- The caller of `select(nfds, &s, NULL, NULL, NULL)` with `s = {3}` at
address 0. -/
def args_rfds3 : UserArgs :=
  ⟨fun k => if k = 0 then some 0 else none, none, fun q => decide (q = 3)⟩

/-- The caller of `select(nfds, &s, &s, NULL, NULL)` with `s = {3}` at address
0: the read and the write set are the same object. -/
def args_aliased : UserArgs :=
  ⟨fun k => if k = 0 ∨ k = 1 then some 0 else none, none, fun q => decide (q = 3)⟩

/-- A VFS in which descriptor 3 is open (handle 103), no accessor returns a
condition, and the handle is ready for reading only. -/
def vfs_read_ready : Vfs :=
  ⟨fun fd => if fd = 3 then some 103 else none, fun _ _ => none, fun k _ => decide (k = 0)⟩

/-! ## Lemmas on the scratch memory -/

theorem count_bits_below_succ (n : Nat) (s : Nat → Bool) :
    count_bits_below (n + 1) s = count_bits_below n s + (if s n then 1 else 0) := by
  unfold count_bits_below
  rw [List.range_succ, List.filter_append]
  by_cases h : s n = true <;> simp [h]

theorem count_bits_below_congr (n : Nat) (s t : Nat → Bool)
    (h : ∀ i, i < n → s i = t i) : count_bits_below n s = count_bits_below n t := by
  induction n with
  | zero => rfl
  | succ k ih =>
    rw [count_bits_below_succ, count_bits_below_succ,
      ih (fun i hi => h i (Nat.lt_succ_of_lt hi)), h k (Nat.lt_succ_self k)]

theorem count_bits_below_le (n : Nat) (s : Nat → Bool) : count_bits_below n s ≤ n := by
  induction n with
  | zero => simp [count_bits_below]
  | succ k ih =>
    rw [count_bits_below_succ]
    split <;> omega

theorem count_bits_below_eq_zero (n : Nat) (s : Nat → Bool)
    (h : ∀ i, i < n → s i = false) : count_bits_below n s = 0 := by
  induction n with
  | zero => rfl
  | succ k ih =>
    rw [count_bits_below_succ, ih (fun i hi => h i (Nat.lt_succ_of_lt hi)),
      h k (Nat.lt_succ_self k)]
    simp

/-! ## Lemmas on `select_set_ready` -/

theorem handle_ready_iff (v : Vfs) (is_ready : fs_handle → Bool) (i : Nat) :
    handle_ready v is_ready i = true ↔
      ∃ h, v.get_fs_handle i = some h ∧ is_ready h = true := by
  unfold handle_ready
  cases v.get_fs_handle i <;> simp

theorem select_set_ready_loop_mem (v : Vfs) (set : Nat) (is_ready : fs_handle → Bool)
    (m0 : Mem) (n q : Nat) :
    (select_set_ready_loop v set is_ready m0 n).mem q =
      if set ≤ q ∧ q < set + n then m0 q && handle_ready v is_ready (q - set) else m0 q := by
  induction n generalizing q with
  | zero =>
    have hq : ¬(set ≤ q ∧ q < set + 0) := by omega
    rw [if_neg hq]
    rfl
  | succ k ih =>
    have hbit : FD_ISSET k set (select_set_ready_loop v set is_ready m0 k).mem = m0 (set + k) := by
      simp [FD_ISSET, ih]
    simp only [select_set_ready_loop, hbit]
    by_cases hq : q = set + k
    · subst hq
      cases hm : m0 (set + k) with
      | false => simp [ih, hm]
      | true =>
        simp only [Bool.not_true, Bool.false_eq_true, if_false]
        cases hh : v.get_fs_handle k with
        | none => simp [FD_CLR, handle_ready, hh]
        | some h =>
          cases hr : is_ready h with
          | false => simp [FD_CLR, handle_ready, hh, hr]
          | true => simp [ih, hm, handle_ready, hh, hr]
    · have hlt : (set ≤ q ∧ q < set + (k + 1)) ↔ (set ≤ q ∧ q < set + k) := by omega
      simp only [hlt]
      cases hm : m0 (set + k) with
      | false => simp [ih]
      | true =>
        simp only [Bool.not_true, Bool.false_eq_true, if_false]
        cases hh : v.get_fs_handle k with
        | none => simp [FD_CLR, hq, ih]
        | some h =>
          cases hr : is_ready h with
          | false => simp [FD_CLR, hq, ih, hr]
          | true => simp [ih, hr]

theorem select_set_ready_loop_tot (v : Vfs) (set : Nat) (is_ready : fs_handle → Bool)
    (m0 : Mem) (n : Nat) :
    (select_set_ready_loop v set is_ready m0 n).tot =
      count_bits_below n (fun i => m0 (set + i) && handle_ready v is_ready i) := by
  induction n with
  | zero => simp [select_set_ready_loop, count_bits_below]
  | succ k ih =>
    have hbit : FD_ISSET k set (select_set_ready_loop v set is_ready m0 k).mem = m0 (set + k) := by
      simp [FD_ISSET, select_set_ready_loop_mem]
    rw [count_bits_below_succ]
    simp only [select_set_ready_loop, hbit]
    cases hm : m0 (set + k) with
    | false => simp [ih]
    | true =>
      simp only [Bool.not_true, Bool.false_eq_true, if_false]
      cases hh : v.get_fs_handle k with
      | none => simp [ih, handle_ready, hh]
      | some h =>
        cases hr : is_ready h with
        | false => simp [ih, handle_ready, hh, hr]
        | true => simp [ih, handle_ready, hh, hr]

theorem select_set_ready_loop_tot_mem (v : Vfs) (set : Nat) (is_ready : fs_handle → Bool)
    (m0 : Mem) (n : Nat) :
    (select_set_ready_loop v set is_ready m0 n).tot =
      count_bits_below n
        (fun i => FD_ISSET i set (select_set_ready_loop v set is_ready m0 n).mem) := by
  rw [select_set_ready_loop_tot]
  apply count_bits_below_congr
  intro i hi
  simp only [FD_ISSET, select_set_ready_loop_mem]
  have : set ≤ set + i ∧ set + i < set + n := by omega
  simp [this]

theorem select_set_ready_loop_trace (v : Vfs) (set : Nat) (is_ready : fs_handle → Bool)
    (m0 : Mem) (n : Nat) :
    ∀ e ∈ (select_set_ready_loop v set is_ready m0 n).trace, ∃ fd, e = Event.get_fs_handle fd := by
  induction n with
  | zero => simp [select_set_ready_loop]
  | succ k ih =>
    simp only [select_set_ready_loop]
    split
    · exact ih
    · split
      · intro e he
        rcases List.mem_append.mp he with h | h
        · exact ih e h
        · exact ⟨k, by simpa using h⟩
      · split <;>
        · intro e he
          rcases List.mem_append.mp he with h | h
          · exact ih e h
          · exact ⟨k, by simpa using h⟩

/-! ## Return codes of the passes -/

theorem sys_select_copy_in_loop_rc (env : Env) (u : UserMem) (m0 : Mem) (n : Nat) :
    (sys_select_copy_in_loop env u m0 n).rc = 0 ∨
      (sys_select_copy_in_loop env u m0 n).rc = -EFAULT := by
  induction n with
  | zero => simp [sys_select_copy_in_loop]
  | succ k ih =>
    simp only [sys_select_copy_in_loop]
    split
    · exact ih
    · split
      · exact ih
      · split <;> simp

theorem sys_select_copy_in_loop_rc_prev (env : Env) (u : UserMem) (m0 : Mem) (n : Nat)
    (h : (sys_select_copy_in_loop env u m0 (n + 1)).rc = 0) :
    (sys_select_copy_in_loop env u m0 n).rc = 0 := by
  by_contra hne
  simp only [sys_select_copy_in_loop, hne, ne_eq, not_false_eq_true, if_true] at h

theorem sys_select_copy_in_loop_sets (env : Env) (u : UserMem) (m0 : Mem) (n : Nat)
    (h : (sys_select_copy_in_loop env u m0 n).rc = 0) (k : Nat) :
    (sys_select_copy_in_loop env u m0 n).sets k =
      if k < n then (u.sets k).map (fun _ => sets_ptr k) else none := by
  induction n with
  | zero => simp [sys_select_copy_in_loop]
  | succ j ih =>
    have hp := sys_select_copy_in_loop_rc_prev env u m0 j h
    have ih := ih hp
    simp only [sys_select_copy_in_loop, hp, ne_eq, not_true_eq_false, if_false] at h ⊢
    cases hu : u.sets j with
    | none =>
      simp only [ih]
      by_cases hk : k = j
      · subst hk
        simp [hu]
      · have : k < j + 1 ↔ k < j := by omega
        simp [this]
    | some bits =>
      simp only [hu] at h
      by_cases hf : env.copy_from_user_fault j = true
      · simp [hf, EFAULT] at h
      · simp only [hf, Bool.false_eq_true, if_false]
        by_cases hk : k = j
        · subst hk
          simp [hu]
        · have : k < j + 1 ↔ k < j := by omega
          simp [hk, ih, this]

theorem sys_select_copy_tv_rc (cfg : Config) (env : Env) (u : UserMem) (m : Mem) :
    (sys_select_copy_tv cfg env u m).rc = 0 ∨ (sys_select_copy_tv cfg env u m).rc = -EFAULT := by
  unfold sys_select_copy_tv
  split
  · simp
  · split <;> simp

theorem select_count_kcond_loop_rc (v : Vfs) (m : Mem) (set : Nat)
    (get_cond : fs_handle → Option kcond) (s0 : CountState) (n : Nat)
    (h0 : s0.rc = 0 ∨ s0.rc = -EBADF) :
    (select_count_kcond_loop v m set get_cond s0 n).rc = 0 ∨
      (select_count_kcond_loop v m set get_cond s0 n).rc = -EBADF := by
  induction n with
  | zero => simpa [select_count_kcond_loop] using h0
  | succ k ih =>
    simp only [select_count_kcond_loop]
    split
    · exact ih
    · split
      · exact ih
      · split
        · simp
        · split <;> simp

theorem select_count_kcond_rc (v : Vfs) (m : Mem) (nfds : Nat) (set : Option Nat)
    (get_cond : fs_handle → Option kcond) (s0 : CountState) :
    (select_count_kcond v m nfds set get_cond s0).rc = 0 ∨
      (select_count_kcond v m nfds set get_cond s0).rc = -EBADF := by
  cases set with
  | none => simp [select_count_kcond]
  | some p =>
    simp only [select_count_kcond]
    exact select_count_kcond_loop_rc v m p get_cond _ nfds (Or.inl rfl)

theorem sys_select_count_loop_rc (v : Vfs) (m : Mem) (nfds : Nat) (sets : Nat → Option Nat)
    (n : Nat) :
    (sys_select_count_loop v m nfds sets n).rc = 0 ∨
      (sys_select_count_loop v m nfds sets n).rc = -EBADF := by
  induction n with
  | zero => simp [sys_select_count_loop]
  | succ k ih =>
    simp only [sys_select_count_loop]
    split
    · exact ih
    · exact select_count_kcond_rc _ _ _ _ _ _

theorem select_set_kcond_loop_rc (cfg : Config) (v : Vfs) (m : Mem) (count set : Nat)
    (get_cond : fs_handle → Option kcond) (s0 : SetState) (n : Nat)
    (h0 : s0.rc = none ∨ s0.rc = some 0 ∨ s0.rc = some (-EBADF)) :
    (select_set_kcond_loop cfg v m count set get_cond s0 n).rc = none ∨
      (select_set_kcond_loop cfg v m count set get_cond s0 n).rc = some 0 ∨
      (select_set_kcond_loop cfg v m count set get_cond s0 n).rc = some (-EBADF) := by
  induction n with
  | zero => simpa [select_set_kcond_loop] using h0
  | succ k ih =>
    simp only [select_set_kcond_loop]
    split
    · exact ih
    · split
      · exact ih
      · split
        · simp
        · split
          · simp
          · split <;> simp

theorem select_set_kcond_rc (cfg : Config) (v : Vfs) (m : Mem) (nfds count : Nat)
    (set : Option Nat) (get_cond : fs_handle → Option kcond) (s0 : SetState) :
    (select_set_kcond cfg v m nfds count set get_cond s0).rc = none ∨
      (select_set_kcond cfg v m nfds count set get_cond s0).rc = some 0 ∨
      (select_set_kcond cfg v m nfds count set get_cond s0).rc = some (-EBADF) := by
  cases set with
  | none => simp [select_set_kcond]
  | some p =>
    simp only [select_set_kcond]
    exact select_set_kcond_loop_rc cfg v m count p get_cond _ nfds (Or.inr (Or.inl rfl))

theorem select_wait_on_cond_set_loop_rc (cfg : Config) (v : Vfs) (m : Mem) (nfds count : Nat)
    (sets : Nat → Option Nat) (n : Nat) :
    (select_wait_on_cond_set_loop cfg v m nfds count sets n).rc = none ∨
      (select_wait_on_cond_set_loop cfg v m nfds count sets n).rc = some 0 ∨
      (select_wait_on_cond_set_loop cfg v m nfds count sets n).rc = some (-EBADF) := by
  induction n with
  | zero => simp [select_wait_on_cond_set_loop]
  | succ k ih =>
    simp only [select_wait_on_cond_set_loop]
    split
    · exact ih
    · exact select_set_kcond_rc _ _ _ _ _ _ _ _

theorem select_wait_on_cond_rc (cfg : Config) (env : Env) (m : Mem) (nfds : Nat)
    (sets : Nat → Option Nat) (tv : Option Nat) (cond_cnt timeout_ticks : Nat) :
    (select_wait_on_cond cfg env m nfds sets tv cond_cnt timeout_ticks).rc = none ∨
      (select_wait_on_cond cfg env m nfds sets tv cond_cnt timeout_ticks).rc = some 0 ∨
      (select_wait_on_cond cfg env m nfds sets tv cond_cnt timeout_ticks).rc = some (-EBADF) ∨
      (select_wait_on_cond cfg env m nfds sets tv cond_cnt timeout_ticks).rc = some (-ENOMEM) := by
  unfold select_wait_on_cond
  by_cases ha : env.alloc_fail = true
  · simp [ha]
  · simp only [ha, Bool.false_eq_true, if_false]
    rcases select_wait_on_cond_set_loop_rc cfg env.vfs_set m nfds cond_cnt sets 3 with h | h | h
    · simp [h]
    · simp only [h]
      by_cases hd : (tv.isSome && cfg.DEBUG && !decide (timeout_ticks > 0)) = true
      · simp [hd]
      · by_cases hl : (select_wait_on_cond_loop cfg nfds sets tv m env.wakeups).done = true
        · simp [hd, hl]
        · simp [hd, hl]
    · simp [h, EBADF]

theorem sys_select_resolve_loop_rc (env : Env) (nfds : Nat) (sets : Nat → Option Nat)
    (u : UserMem) (m0 : Mem) (n : Nat) :
    (sys_select_resolve_loop env nfds sets u m0 n).rc = 0 ∨
      (sys_select_resolve_loop env nfds sets u m0 n).rc = -EFAULT := by
  induction n with
  | zero => simp [sys_select_resolve_loop]
  | succ k ih =>
    simp only [sys_select_resolve_loop]
    split
    · exact ih
    · split
      · split
        · split <;> simp
        · simp
      · simp

theorem sys_select_resolve_loop_rc_prev (env : Env) (nfds : Nat) (sets : Nat → Option Nat)
    (u : UserMem) (m0 : Mem) (n : Nat)
    (h : (sys_select_resolve_loop env nfds sets u m0 (n + 1)).rc = 0) :
    (sys_select_resolve_loop env nfds sets u m0 n).rc = 0 := by
  by_contra hne
  simp only [sys_select_resolve_loop, hne, ne_eq, not_false_eq_true, if_true] at h

/-! ## One iteration of the resolution loop -/

theorem sys_select_resolve_loop_succ_none (env : Env) (nfds : Nat) (sets : Nat → Option Nat)
    (u : UserMem) (m0 : Mem) (i : Nat) (hu : u.sets i = none) (hs : sets i = none)
    (h : (sys_select_resolve_loop env nfds sets u m0 i).rc = 0) :
    (sys_select_resolve_loop env nfds sets u m0 (i + 1)).rc = 0 ∧
    (sys_select_resolve_loop env nfds sets u m0 (i + 1)).mem =
      (sys_select_resolve_loop env nfds sets u m0 i).mem ∧
    (sys_select_resolve_loop env nfds sets u m0 (i + 1)).total_ready_count =
      (sys_select_resolve_loop env nfds sets u m0 i).total_ready_count ∧
    (sys_select_resolve_loop env nfds sets u m0 (i + 1)).trace =
      (sys_select_resolve_loop env nfds sets u m0 i).trace ∧
    (sys_select_resolve_loop env nfds sets u m0 (i + 1)).user_sets =
      (sys_select_resolve_loop env nfds sets u m0 i).user_sets := by
  simp [sys_select_resolve_loop, h, hu, hs, select_set_ready]

theorem sys_select_resolve_loop_succ_some (env : Env) (nfds : Nat) (sets : Nat → Option Nat)
    (u : UserMem) (m0 : Mem) (i p : Nat) (hu : (u.sets i).isSome = true) (hs : sets i = some p)
    (h : (sys_select_resolve_loop env nfds sets u m0 i).rc = 0)
    (hf : env.copy_to_user_fault i = false) :
    (sys_select_resolve_loop env nfds sets u m0 (i + 1)).rc = 0 ∧
    (sys_select_resolve_loop env nfds sets u m0 (i + 1)).mem =
      (select_set_ready_loop env.vfs_ready p (env.vfs_ready.grf i)
        (sys_select_resolve_loop env nfds sets u m0 i).mem nfds).mem ∧
    (sys_select_resolve_loop env nfds sets u m0 (i + 1)).total_ready_count =
      (sys_select_resolve_loop env nfds sets u m0 i).total_ready_count +
      (select_set_ready_loop env.vfs_ready p (env.vfs_ready.grf i)
        (sys_select_resolve_loop env nfds sets u m0 i).mem nfds).tot ∧
    (sys_select_resolve_loop env nfds sets u m0 (i + 1)).trace =
      (sys_select_resolve_loop env nfds sets u m0 i).trace ++
      (select_set_ready_loop env.vfs_ready p (env.vfs_ready.grf i)
        (sys_select_resolve_loop env nfds sets u m0 i).mem nfds).trace ++
      [Event.copy_to_user i] ∧
    (sys_select_resolve_loop env nfds sets u m0 (i + 1)).user_sets =
      (fun j => if j = i then
          some (load_fd_set (select_set_ready_loop env.vfs_ready p (env.vfs_ready.grf i)
            (sys_select_resolve_loop env nfds sets u m0 i).mem nfds).mem p)
        else (sys_select_resolve_loop env nfds sets u m0 i).user_sets j) := by
  simp [sys_select_resolve_loop, h, hu, hs, hf, select_set_ready]

theorem sys_select_resolve_loop_fault (env : Env) (nfds : Nat) (sets : Nat → Option Nat)
    (u : UserMem) (m0 : Mem) (i p : Nat) (hu : (u.sets i).isSome = true) (hs : sets i = some p)
    (h : (sys_select_resolve_loop env nfds sets u m0 (i + 1)).rc = 0) :
    env.copy_to_user_fault i = false := by
  have hp := sys_select_resolve_loop_rc_prev env nfds sets u m0 i h
  cases hf : env.copy_to_user_fault i with
  | false => rfl
  | true => simp [sys_select_resolve_loop, hp, hu, hs, hf, EFAULT] at h

/-! ## Inversion of a successful `sys_select` -/

theorem sys_select_count_rc (cfg : Config) (env : Env) (m0 : Mem) (nfds : Nat) (u : UserMem) :
    (sys_select_count cfg env m0 nfds u).rc = 0 ∨
      (sys_select_count cfg env m0 nfds u).rc = -EBADF := by
  unfold sys_select_count
  simp only []
  split
  · exact sys_select_count_loop_rc _ _ _ _ _
  · simp

theorem sys_select_wait_rc (cfg : Config) (env : Env) (m0 : Mem) (nfds : Nat) (u : UserMem) :
    (sys_select_wait cfg env m0 nfds u).rc = none ∨
      (sys_select_wait cfg env m0 nfds u).rc = some 0 ∨
      (sys_select_wait cfg env m0 nfds u).rc = some (-EBADF) ∨
      (sys_select_wait cfg env m0 nfds u).rc = some (-ENOMEM) := by
  unfold sys_select_wait
  simp only []
  split
  · exact select_wait_on_cond_rc _ _ _ _ _ _ _ _
  · split <;> simp

/-- A call that returns a count went through every pass without an error, and
its result is what the resolution loop computed. -/
theorem sys_select_ret_nonneg (cfg : Config) (env : Env) (m0 : Mem) (n : Int) (u : UserMem)
    (c : Int) (h : (sys_select cfg env m0 n u).ret = some c) (hc : 0 ≤ c) :
    0 ≤ n ∧ n ≤ (cfg.MAX_HANDLES : Int) ∧
    (sys_select_copy_in env u m0).rc = 0 ∧
    (sys_select_tv cfg env m0 u).rc = 0 ∧
    (sys_select_count cfg env m0 n.toNat u).rc = 0 ∧
    (sys_select_wait cfg env m0 n.toNat u).rc = some 0 ∧
    (sys_select_resolve cfg env m0 n.toNat u).rc = 0 ∧
    c = (sys_select_resolve cfg env m0 n.toNat u).total_ready_count ∧
    (sys_select cfg env m0 n u).user.sets = (sys_select_resolve cfg env m0 n.toNat u).user_sets := by
  unfold sys_select at h ⊢
  by_cases h1 : n < 0 ∨ n > (cfg.MAX_HANDLES : Int)
  · simp [h1, EINVAL] at h
    omega
  simp only [h1, if_false] at h ⊢
  refine ⟨by omega, by omega, ?_⟩
  by_cases h2 : (sys_select_copy_in env u m0).rc = 0
  swap
  · rcases sys_select_copy_in_loop_rc env u m0 3 with h' | h'
    · exact absurd h' h2
    · simp [h2, show (sys_select_copy_in env u m0).rc = -EFAULT from h', EFAULT] at h
      omega
  simp only [h2, ne_eq, not_true_eq_false, if_false] at h ⊢
  refine ⟨trivial, ?_⟩
  by_cases h3 : (sys_select_tv cfg env m0 u).rc = 0
  swap
  · rcases sys_select_copy_tv_rc cfg env u (sys_select_copy_in env u m0).mem with h' | h'
    · exact absurd h' h3
    · simp [h3, show (sys_select_tv cfg env m0 u).rc = -EFAULT from h', EFAULT] at h
      omega
  simp only [h3, ne_eq, not_true_eq_false, if_false] at h ⊢
  refine ⟨trivial, ?_⟩
  by_cases h4 : (sys_select_count cfg env m0 n.toNat u).rc = 0
  swap
  · rcases sys_select_count_rc cfg env m0 n.toNat u with h' | h'
    · exact absurd h' h4
    · simp [h4, h', EBADF] at h
      omega
  simp only [h4, ne_eq, not_true_eq_false, if_false] at h ⊢
  refine ⟨trivial, ?_⟩
  by_cases h5 : (sys_select_wait cfg env m0 n.toNat u).rc = some 0
  swap
  · rcases sys_select_wait_rc cfg env m0 n.toNat u with h' | h' | h' | h'
    · simp [h5, h'] at h
    · exact absurd h' h5
    · simp [h5, h', EBADF] at h
      omega
    · simp [h5, h', ENOMEM] at h
      omega
  simp only [h5, ne_eq, not_true_eq_false, if_false] at h ⊢
  refine ⟨trivial, ?_⟩
  by_cases h6 : (sys_select_resolve cfg env m0 n.toNat u).rc = 0
  swap
  · rcases sys_select_resolve_loop_rc env n.toNat (sys_select_copy_in env u m0).sets u
      (sys_select_wait cfg env m0 n.toNat u).mem 3 with h' | h'
    · exact absurd h' h6
    · simp [h6, show (sys_select_resolve cfg env m0 n.toNat u).rc = -EFAULT from h', EFAULT] at h
      omega
  simp only [h6, ne_eq, not_true_eq_false, if_false] at h ⊢
  refine ⟨trivial, ?_⟩
  cases htv : (sys_select_tv cfg env m0 u).tv with
  | none =>
    simp only [htv] at h ⊢
    simp at h
    exact ⟨by omega, trivial⟩
  | some t =>
    simp only [htv] at h ⊢
    by_cases hf : env.copy_to_user_fault 3 = true
    · simp [hf, EFAULT] at h
      omega
    · simp only [hf, Bool.false_eq_true, if_false] at h ⊢
      simp at h
      exact ⟨by omega, trivial⟩

/-! ## Invariant of the resolution loop -/

theorem bits_set_total_congr (nfds : Nat) (s t : Nat → Option (Nat → Bool)) (n : Nat)
    (h : ∀ k, k < n → s k = t k) : bits_set_total nfds s n = bits_set_total nfds t n := by
  induction n with
  | zero => rfl
  | succ j ih =>
    simp only [bits_set_total]
    rw [ih (fun k hk => h k (Nat.lt_succ_of_lt hk)), h j (Nat.lt_succ_self j)]

theorem load_fd_set_count (m : Mem) (p nfds : Nat) (hn : nfds ≤ FD_SETSIZE) :
    count_bits_below nfds (load_fd_set m p) = count_bits_below nfds (fun i => FD_ISSET i p m) := by
  apply count_bits_below_congr
  intro i hi
  have : i < FD_SETSIZE := by omega
  simp [load_fd_set, FD_ISSET, this]

theorem sys_select_resolve_loop_inv (env : Env) (nfds : Nat) (sets : Nat → Option Nat)
    (u : UserMem) (m0 : Mem) (n : Nat) (hn : nfds ≤ FD_SETSIZE)
    (hsets : ∀ k, k < n → sets k = (u.sets k).map (fun _ => sets_ptr k))
    (h : (sys_select_resolve_loop env nfds sets u m0 n).rc = 0) :
    (∀ k, n ≤ k → (sys_select_resolve_loop env nfds sets u m0 n).user_sets k = u.sets k) ∧
    (∀ k, k < n → ((sys_select_resolve_loop env nfds sets u m0 n).user_sets k).isSome =
      (u.sets k).isSome) ∧
    (∀ k, k < n → ∀ b, (sys_select_resolve_loop env nfds sets u m0 n).user_sets k = some b →
      ∀ i, i < nfds → b i = true →
        handle_ready env.vfs_ready (env.vfs_ready.grf k) i = true) ∧
    (sys_select_resolve_loop env nfds sets u m0 n).total_ready_count =
      bits_set_total nfds (sys_select_resolve_loop env nfds sets u m0 n).user_sets n := by
  induction n with
  | zero => simp [sys_select_resolve_loop, bits_set_total]
  | succ j ih =>
    have hp := sys_select_resolve_loop_rc_prev env nfds sets u m0 j h
    obtain ⟨iha, ihb, ihc, ihd⟩ := ih (fun k hk => hsets k (Nat.lt_succ_of_lt hk)) hp
    have hsj := hsets j (Nat.lt_succ_self j)
    cases hu : u.sets j with
    | none =>
      rw [hu] at hsj
      obtain ⟨_, _, ht, _, hus⟩ :=
        sys_select_resolve_loop_succ_none env nfds sets u m0 j hu hsj hp
      rw [hus, ht]
      refine ⟨fun k hk => iha k (by omega), ?_, ?_, ?_⟩
      · intro k hk
        by_cases hkj : k = j
        · subst hkj
          rw [iha k (Nat.le_refl k)]
        · exact ihb k (by omega)
      · intro k hk b hb
        by_cases hkj : k = j
        · subst hkj
          rw [iha k (Nat.le_refl k), hu] at hb
          exact absurd hb (by simp)
        · exact ihc k (by omega) b hb
      · simp only [bits_set_total]
        rw [iha j (Nat.le_refl j), hu, ihd]
        simp [bits_set_below]
    | some bits =>
      rw [hu] at hsj
      have hsome : (u.sets j).isSome = true := by simp [hu]
      have hf := sys_select_resolve_loop_fault env nfds sets u m0 j (sets_ptr j) hsome hsj h
      obtain ⟨_, _, ht, _, hus⟩ :=
        sys_select_resolve_loop_succ_some env nfds sets u m0 j (sets_ptr j) hsome hsj hp hf
      rw [hus, ht]
      refine ⟨?_, ?_, ?_, ?_⟩
      · intro k hk
        have hkj : k ≠ j := by omega
        simp only [hkj, if_false]
        exact iha k (by omega)
      · intro k hk
        by_cases hkj : k = j
        · subst hkj
          simp [hu]
        · simp only [hkj, if_false]
          exact ihb k (by omega)
      · intro k hk b hb i hi hbi
        by_cases hkj : k = j
        · subst hkj
          simp only [if_true, Option.some.injEq] at hb
          subst hb
          simp only [load_fd_set, Bool.and_eq_true, decide_eq_true_eq,
            select_set_ready_loop_mem] at hbi
          have hr : sets_ptr k ≤ sets_ptr k + i ∧ sets_ptr k + i < sets_ptr k + nfds := by omega
          simp only [hr, and_self, if_true, Bool.and_eq_true, Nat.add_sub_cancel_left] at hbi
          exact hbi.2.2
        · simp only [hkj, if_false] at hb
          exact ihc k (by omega) b hb i hi hbi
      · simp only [bits_set_total, if_true, bits_set_below]
        rw [load_fd_set_count _ _ _ hn, ← select_set_ready_loop_tot_mem, ihd]
        congr 1
        apply bits_set_total_congr
        intro k hk
        have hkj : k ≠ j := by omega
        simp [hkj]

/-! ## C2: the contract of `select_set_ready` -/

/-- C2: `select_set_ready` keeps bit `i < nfds` set iff it was set and
`get_fs_handle(i)` yields a handle for which `is_ready` holds, never sets a
clear bit, changes no bit outside `[0, nfds)` of the set (nor any other bit of
the scratch memory), returns the number of bits below `nfds` left set, and on
a NULL set returns 0 and changes nothing. -/
theorem select_set_ready_contract (v : Vfs) (nfds set : Nat) (is_ready : fs_handle → Bool)
    (m : Mem) :
    (∀ i, i < nfds →
      (FD_ISSET i set (select_set_ready v nfds (some set) is_ready m).mem = true ↔
        FD_ISSET i set m = true ∧ ∃ h, v.get_fs_handle i = some h ∧ is_ready h = true)) ∧
    (∀ i, FD_ISSET i set m = false →
      FD_ISSET i set (select_set_ready v nfds (some set) is_ready m).mem = false) ∧
    (∀ i, nfds ≤ i →
      FD_ISSET i set (select_set_ready v nfds (some set) is_ready m).mem = FD_ISSET i set m) ∧
    (∀ q, q < set ∨ set + nfds ≤ q →
      (select_set_ready v nfds (some set) is_ready m).mem q = m q) ∧
    (select_set_ready v nfds (some set) is_ready m).tot =
      count_bits_below nfds
        (fun i => FD_ISSET i set (select_set_ready v nfds (some set) is_ready m).mem) ∧
    (select_set_ready v nfds none is_ready m).tot = 0 ∧
    (select_set_ready v nfds none is_ready m).mem = m := by
  refine ⟨?_, ?_, ?_, ?_, ?_, rfl, rfl⟩
  · intro i hi
    have hr : set ≤ set + i ∧ set + i < set + nfds := by omega
    simp only [select_set_ready, FD_ISSET, select_set_ready_loop_mem, hr, and_self, if_true,
      Bool.and_eq_true, Nat.add_sub_cancel_left, handle_ready_iff]
  · intro i hi
    simp only [select_set_ready, FD_ISSET, select_set_ready_loop_mem] at hi ⊢
    split <;> simp [hi]
  · intro i hi
    have hr : ¬(set ≤ set + i ∧ set + i < set + nfds) := by omega
    simp only [select_set_ready, FD_ISSET, select_set_ready_loop_mem, hr, if_false]
  · intro q hq
    have hr : ¬(set ≤ q ∧ q < set + nfds) := by omega
    simp only [select_set_ready, select_set_ready_loop_mem, hr, if_false]
  · exact select_set_ready_loop_tot_mem v set is_ready m nfds

/-! ## C1: the returned count and the returned bitmaps -/

/-- C1 as stated fails: with `nfds = 4` and a read set holding only descriptor
10 (an open, ready handle), `sys_select` returns 0 although bit 10 of the
returned read set is set. -/
theorem sys_select_count_ignores_high_bits :
    (∀ i, fd_single 10 i = true → ((vfs_fixed false true).get_fs_handle i).isSome = true) ∧
    (sys_select cfg16 (env_plain (vfs_fixed false true) [] (vfs_fixed false true)) mem_zero 4
      (user_rfds (some (fd_single 10)) none)).ret = some 0 ∧
    ((sys_select cfg16 (env_plain (vfs_fixed false true) [] (vfs_fixed false true)) mem_zero 4
      (user_rfds (some (fd_single 10)) none)).user.sets 0).map (fun b => b 10) = some true := by
  refine ⟨?_, ?_, ?_⟩
  · intro i hi
    simp [fd_single] at hi
    simp [vfs_fixed, hi]
  · decide
  · decide

/-- The count and the bitmaps copied out: whenever `sys_select` returns a count
`c >= 0`, exactly `c` bits are set at indices below `nfds` in total across the
bitmaps passed to `copy_to_user`, and every bit set below `nfds` in one of them
designates an open handle whose readiness predicate of that kind held at
resolution. -/
theorem sys_select_count_matches_copies (cfg : Config) (env : Env) (m0 : Mem) (user_nfds : Int)
    (u : UserMem) (c : Int) (hmax : cfg.MAX_HANDLES ≤ FD_SETSIZE)
    (hret : (sys_select cfg env m0 user_nfds u).ret = some c) (hc : 0 ≤ c) :
    c = ((bits_set_below user_nfds.toNat ((sys_select cfg env m0 user_nfds u).user.sets 0) +
          bits_set_below user_nfds.toNat ((sys_select cfg env m0 user_nfds u).user.sets 1) +
          bits_set_below user_nfds.toNat ((sys_select cfg env m0 user_nfds u).user.sets 2) : Nat) :
          Int) ∧
    ∀ k, k < 3 → ∀ b, (sys_select cfg env m0 user_nfds u).user.sets k = some b →
      ∀ i, i < user_nfds.toNat → b i = true →
        ∃ h, env.vfs_ready.get_fs_handle i = some h ∧ env.vfs_ready.grf k h = true := by
  obtain ⟨h0, hle, hci, _, _, _, hrs, hcv, hus⟩ :=
    sys_select_ret_nonneg cfg env m0 user_nfds u c hret hc
  have hn : user_nfds.toNat ≤ FD_SETSIZE := by omega
  have hsets : ∀ k, k < 3 →
      (sys_select_copy_in env u m0).sets k = (u.sets k).map (fun _ => sets_ptr k) := by
    intro k hk
    have := sys_select_copy_in_loop_sets env u m0 3 hci k
    simpa [sys_select_copy_in, hk] using this
  obtain ⟨_, _, hrdy, htot⟩ :=
    sys_select_resolve_loop_inv env user_nfds.toNat _ u _ 3 hn hsets hrs
  rw [hus]
  refine ⟨?_, ?_⟩
  · rw [hcv]
    simp only [sys_select_resolve] at htot ⊢
    rw [htot]
    simp [bits_set_total]
  · intro k hk b hb i hi hbi
    exact (handle_ready_iff _ _ _).mp (hrdy k hk b hb i hi hbi)

/-- Instance of the count of the bitmaps copied out: descriptor 3 ready in the
read set, `nfds = 4`, returns 1. -/
theorem sys_select_count_matches_copies_witness :
    (1 : Int) =
      ((bits_set_below (4 : Int).toNat ((sys_select cfg16
          (env_plain (vfs_fixed false true) [] (vfs_fixed false true)) mem_zero 4
          (user_rfds (some (fd_single 3)) none)).user.sets 0) +
        bits_set_below (4 : Int).toNat ((sys_select cfg16
          (env_plain (vfs_fixed false true) [] (vfs_fixed false true)) mem_zero 4
          (user_rfds (some (fd_single 3)) none)).user.sets 1) +
        bits_set_below (4 : Int).toNat ((sys_select cfg16
          (env_plain (vfs_fixed false true) [] (vfs_fixed false true)) mem_zero 4
          (user_rfds (some (fd_single 3)) none)).user.sets 2) : Nat) : Int) ∧
    ∀ k, k < 3 → ∀ b, (sys_select cfg16
          (env_plain (vfs_fixed false true) [] (vfs_fixed false true)) mem_zero 4
          (user_rfds (some (fd_single 3)) none)).user.sets k = some b →
      ∀ i, i < (4 : Int).toNat → b i = true →
        ∃ h, (env_plain (vfs_fixed false true) [] (vfs_fixed false true)).vfs_ready.get_fs_handle i
            = some h ∧
          (env_plain (vfs_fixed false true) [] (vfs_fixed false true)).vfs_ready.grf k h = true :=
  sys_select_count_matches_copies cfg16
    (env_plain (vfs_fixed false true) [] (vfs_fixed false true))
    mem_zero 4 (user_rfds (some (fd_single 3)) none) 1 (by decide) (by decide) (by decide)

/-! ## C3: where the timeout copy lives in the scratch buffer -/

/-- C3 fails on the code: the timeout copy starts at byte 3 of the scratch
buffer, inside the copy of the read set.  For `select(0, {}, NULL, NULL, {1,0})`
the copy-in of the timeout sets bit 24 of the read-set copy, and the empty read
set comes back to the user with bit 24 set. -/
theorem sys_select_timeout_overlaps_read_set :
    sets_ptr 0 ≤ tv_ptr ∧ tv_ptr < sets_ptr 0 + FD_SETSIZE ∧ tv_ptr < 3 * FD_SETSIZE ∧
    FD_ISSET 24 (sets_ptr 0)
      (sys_select_copy_in (env_plain (vfs_fixed false false) [] (vfs_fixed false false))
        (user_rfds (some (fun _ => false)) (some ⟨1, 0⟩)) mem_zero).mem = false ∧
    FD_ISSET 24 (sets_ptr 0)
      (sys_select_tv cfg16 (env_plain (vfs_fixed false false) [] (vfs_fixed false false))
        mem_zero (user_rfds (some (fun _ => false)) (some ⟨1, 0⟩))).mem = true ∧
    (sys_select cfg16 (env_plain (vfs_fixed false false) [] (vfs_fixed false false)) mem_zero 0
      (user_rfds (some (fun _ => false)) (some ⟨1, 0⟩))).ret = some 0 ∧
    ((sys_select cfg16 (env_plain (vfs_fixed false false) [] (vfs_fixed false false)) mem_zero 0
      (user_rfds (some (fun _ => false)) (some ⟨1, 0⟩))).user.sets 0).map (fun b => b 24)
      = some true := by
  refine ⟨by decide, by decide, by decide, by decide, by decide, by decide, by decide⟩

/-! ## Loads and stores -/

theorem load_bits_congr (m1 m2 : Mem) (p n : Nat)
    (h : ∀ q, p ≤ q → q < p + n → m1 q = m2 q) : load_bits m1 p n = load_bits m2 p n := by
  induction n generalizing p with
  | zero => rfl
  | succ k ih =>
    simp only [load_bits]
    rw [h p (Nat.le_refl p) (by omega), ih (p + 1) (fun q h1 h2 => h q (by omega) (by omega))]

theorem load_bits_testBit (m : Mem) (p n x : Nat)
    (h : ∀ b, b < n → m (p + b) = x.testBit b) : load_bits m p n = x % 2 ^ n := by
  induction n generalizing p x with
  | zero => simp [load_bits, Nat.mod_one]
  | succ k ih =>
    simp only [load_bits]
    have h0 : m p = x.testBit 0 := by simpa using h 0 (Nat.succ_pos k)
    have hrest : ∀ b, b < k → m (p + 1 + b) = (x / 2).testBit b := by
      intro b hb
      have := h (b + 1) (by omega)
      rw [Nat.testBit_succ] at this
      rw [← this]
      congr 1
      omega
    rw [ih (p + 1) (x / 2) hrest, h0, pow_succ', Nat.mod_mul, Nat.testBit_zero]
    by_cases hx : x % 2 = 1
    · simp [hx]
    · have : x % 2 = 0 := by omega
      simp [this]

theorem load32_store32 (m : Mem) (p x : Nat) : load32 (store32 m p x) p = x % 2 ^ 32 := by
  unfold load32
  apply load_bits_testBit
  intro b hb
  have : p ≤ p + b ∧ p + b < p + 32 := by omega
  simp [store32, store_bits, this]

theorem load32_store32_other (m : Mem) (p q x : Nat) (h : q + 32 ≤ p ∨ p + 32 ≤ q) :
    load32 (store32 m q x) p = load32 m p := by
  unfold load32
  apply load_bits_congr
  intro r h1 h2
  have : ¬(q ≤ r ∧ r < q + 32) := by omega
  simp [store32, store_bits, this]

theorem load_timeval_store (m : Mem) (tv sec usec : Nat) :
    load_timeval (store_tv_usec (store_tv_sec m tv sec) tv usec) tv =
      ⟨sec % 2 ^ 32, usec % 2 ^ 32⟩ := by
  simp only [load_timeval, load_tv_sec, load_tv_usec, store_tv_sec, store_tv_usec]
  rw [load32_store32_other _ _ _ _ (Or.inr (Nat.le_refl _)), load32_store32, load32_store32]

/-! ## C6: the timeout-to-ticks conversion -/

theorem long_to_u64_of_lt (x : Nat) (h : x < 2 ^ 31) : long_to_u64 x = x := by
  have h1 : x % 2 ^ 32 = x := Nat.mod_eq_of_lt (by omega)
  unfold long_to_u64
  rw [h1, if_pos h]

theorem long_to_u64_of_ge (x : Nat) (h : 2 ^ 31 ≤ x) (h2 : x < 2 ^ 32) :
    long_to_u64 x = x + (2 ^ 64 - 2 ^ 32) := by
  have h1 : x % 2 ^ 32 = x := Nat.mod_eq_of_lt h2
  have h3 : ¬ x < 2 ^ 31 := by omega
  unfold long_to_u64
  rw [h1, if_neg h3]

theorem sys_select_tv_supplied (cfg : Config) (env : Env) (m0 : Mem) (u : UserMem) (t : timeval)
    (hu : u.tv = some t) (hf : env.copy_from_user_fault 3 = false) :
    (sys_select_tv cfg env m0 u).rc = 0 ∧
    (sys_select_tv cfg env m0 u).tv = some tv_ptr ∧
    (sys_select_tv cfg env m0 u).trace = [Event.copy_from_user 3] ∧
    (sys_select_tv cfg env m0 u).mem =
      store_tv_usec (store_tv_sec (sys_select_copy_in env u m0).mem tv_ptr t.tv_sec) tv_ptr
        t.tv_usec ∧
    (sys_select_tv cfg env m0 u).timeout_ticks =
      sys_select_timeout_ticks cfg (t.tv_sec % 2 ^ 32) (t.tv_usec % 2 ^ 32) := by
  have hl := load_timeval_store (sys_select_copy_in env u m0).mem tv_ptr t.tv_sec t.tv_usec
  simp only [load_timeval, timeval.mk.injEq] at hl
  simp [sys_select_tv, sys_select_copy_tv, hu, hf, hl.1, hl.2]

theorem sys_select_tv_absent (cfg : Config) (env : Env) (m0 : Mem) (u : UserMem)
    (hu : u.tv = none) :
    (sys_select_tv cfg env m0 u).rc = 0 ∧
    (sys_select_tv cfg env m0 u).tv = none ∧
    (sys_select_tv cfg env m0 u).trace = [] ∧
    (sys_select_tv cfg env m0 u).mem = (sys_select_copy_in env u m0).mem ∧
    (sys_select_tv cfg env m0 u).timeout_ticks = 0 := by
  simp [sys_select_tv, sys_select_copy_tv, hu]

/-- C6: for a supplied timeout with non-negative 32-bit fields and
`0 < TIMER_HZ <= 1000000`, the tick count computed by `sys_select` is
`min (tv_sec * TIMER_HZ + tv_usec / (1000000 / TIMER_HZ)) (2^32 - 1)`, the
64-bit sum does not wrap and the divisor is not zero. -/
theorem sys_select_timeout_ticks_formula (cfg : Config) (env : Env) (m0 : Mem) (u : UserMem)
    (t : timeval) (hu : u.tv = some t) (hf : env.copy_from_user_fault 3 = false)
    (hsec : t.tv_sec < 2 ^ 31) (husec : t.tv_usec < 2 ^ 31)
    (hz : 0 < cfg.TIMER_HZ) (hhz : cfg.TIMER_HZ ≤ 1000000) :
    (sys_select_tv cfg env m0 u).timeout_ticks =
      min (t.tv_sec * cfg.TIMER_HZ + t.tv_usec / (1000000 / cfg.TIMER_HZ)) (2 ^ 32 - 1) ∧
    t.tv_sec * cfg.TIMER_HZ + t.tv_usec / (1000000 / cfg.TIMER_HZ) < 2 ^ 64 ∧
    1000000 / cfg.TIMER_HZ ≠ 0 := by
  have h1 : t.tv_sec * cfg.TIMER_HZ ≤ 2 ^ 31 * 1000000 := Nat.mul_le_mul (Nat.le_of_lt hsec) hhz
  have h2 : t.tv_usec / (1000000 / cfg.TIMER_HZ) ≤ t.tv_usec := Nat.div_le_self _ _
  have h3 : 0 < 1000000 / cfg.TIMER_HZ := Nat.div_pos hhz hz
  have hs : t.tv_sec % 2 ^ 32 = t.tv_sec := Nat.mod_eq_of_lt (by omega)
  have hus : t.tv_usec % 2 ^ 32 = t.tv_usec := Nat.mod_eq_of_lt (by omega)
  refine ⟨?_, by omega, by omega⟩
  rw [(sys_select_tv_supplied cfg env m0 u t hu hf).2.2.2.2, hs, hus]
  unfold sys_select_timeout_ticks UINT32_MAX
  rw [long_to_u64_of_lt _ hsec, long_to_u64_of_lt _ husec]
  generalize t.tv_sec * cfg.TIMER_HZ = a at h1 ⊢
  generalize t.tv_usec / (1000000 / cfg.TIMER_HZ) = b at h2 ⊢
  simp only [Nat.zero_add]
  have ha : a % 2 ^ 64 = a := Nat.mod_eq_of_lt (by omega)
  rw [ha, ha]
  have hab : (a + b) % 2 ^ 64 = a + b := Nat.mod_eq_of_lt (by omega)
  rw [hab]
  exact Nat.mod_eq_of_lt (by omega)

/-- Witness for C6: `{10, 0}` at 100 ticks per second is 1000 ticks. -/
theorem sys_select_timeout_ticks_formula_witness :
    (sys_select_tv cfg16 (env_plain (vfs_fixed true false) [] (vfs_fixed true false)) mem_zero
        (user_rfds none (some ⟨10, 0⟩))).timeout_ticks =
      min ((⟨10, 0⟩ : timeval).tv_sec * cfg16.TIMER_HZ +
        (⟨10, 0⟩ : timeval).tv_usec / (1000000 / cfg16.TIMER_HZ)) (2 ^ 32 - 1) ∧
    (⟨10, 0⟩ : timeval).tv_sec * cfg16.TIMER_HZ +
        (⟨10, 0⟩ : timeval).tv_usec / (1000000 / cfg16.TIMER_HZ) < 2 ^ 64 ∧
    1000000 / cfg16.TIMER_HZ ≠ 0 :=
  sys_select_timeout_ticks_formula cfg16
    (env_plain (vfs_fixed true false) [] (vfs_fixed true false)) mem_zero
    (user_rfds none (some ⟨10, 0⟩)) ⟨10, 0⟩ rfl rfl (by decide) (by decide) (by decide)
    (by decide)

/-! ## C7: `select(0, NULL, NULL, NULL, tv)` -/

/-- C7 fails on the code: `select(0, NULL, NULL, NULL, {0, 500000})` at 100
ticks per second calls `kernel_sleep(50)` and returns 0, but the timeout copied
back to the user is still `{0, 500000}`, not `{0, 0}`. -/
theorem sys_select_sleep_keeps_timeout :
    (sys_select cfg16 (env_plain (vfs_fixed false false) [] (vfs_fixed false false)) mem_zero 0
      (user_rfds none (some ⟨0, 500000⟩))).ret = some 0 ∧
    (sys_select cfg16 (env_plain (vfs_fixed false false) [] (vfs_fixed false false)) mem_zero 0
      (user_rfds none (some ⟨0, 500000⟩))).trace =
      [Event.copy_from_user 3, Event.kernel_sleep 50, Event.copy_to_user 3] ∧
    (sys_select cfg16 (env_plain (vfs_fixed false false) [] (vfs_fixed false false)) mem_zero 0
      (user_rfds none (some ⟨0, 500000⟩))).user.tv = some ⟨0, 500000⟩ := by
  refine ⟨by decide, by decide, by decide⟩

/-! ## C5: the range check on `nfds` -/

theorem sys_select_ret_cases (cfg : Config) (env : Env) (m0 : Mem) (n : Int) (u : UserMem)
    (h1 : ¬(n < 0 ∨ n > (cfg.MAX_HANDLES : Int))) :
    (sys_select cfg env m0 n u).ret = none ∨
    (sys_select cfg env m0 n u).ret = some (-EFAULT) ∨
    (sys_select cfg env m0 n u).ret = some (-EBADF) ∨
    (sys_select cfg env m0 n u).ret = some (-ENOMEM) ∨
    ∃ c : Nat, (sys_select cfg env m0 n u).ret = some (c : Int) := by
  unfold sys_select
  simp only [h1, if_false]
  by_cases h2 : (sys_select_copy_in env u m0).rc = 0
  swap
  · rcases sys_select_copy_in_loop_rc env u m0 3 with h' | h'
    · exact absurd h' h2
    · simp [h2, show (sys_select_copy_in env u m0).rc = -EFAULT from h', EFAULT]
  simp only [h2, ne_eq, not_true_eq_false, if_false]
  by_cases h3 : (sys_select_tv cfg env m0 u).rc = 0
  swap
  · rcases sys_select_copy_tv_rc cfg env u (sys_select_copy_in env u m0).mem with h' | h'
    · exact absurd h' h3
    · simp [h3, show (sys_select_tv cfg env m0 u).rc = -EFAULT from h', EFAULT]
  simp only [h3, ne_eq, not_true_eq_false, if_false]
  by_cases h4 : (sys_select_count cfg env m0 n.toNat u).rc = 0
  swap
  · rcases sys_select_count_rc cfg env m0 n.toNat u with h' | h'
    · exact absurd h' h4
    · simp [h4, h', EBADF]
  simp only [h4, ne_eq, not_true_eq_false, if_false]
  by_cases h5 : (sys_select_wait cfg env m0 n.toNat u).rc = some 0
  swap
  · rcases sys_select_wait_rc cfg env m0 n.toNat u with h' | h' | h' | h'
    · simp [h5, h']
    · exact absurd h' h5
    · simp [h5, h', EBADF]
    · simp [h5, h', ENOMEM]
  simp only [h5, ne_eq, not_true_eq_false, if_false]
  by_cases h6 : (sys_select_resolve cfg env m0 n.toNat u).rc = 0
  swap
  · rcases sys_select_resolve_loop_rc env n.toNat (sys_select_copy_in env u m0).sets u
      (sys_select_wait cfg env m0 n.toNat u).mem 3 with h' | h'
    · exact absurd h' h6
    · simp [h6, show (sys_select_resolve cfg env m0 n.toNat u).rc = -EFAULT from h', EFAULT]
  simp only [h6, ne_eq, not_true_eq_false, if_false]
  cases htv : (sys_select_tv cfg env m0 u).tv with
  | none =>
    right; right; right; right
    exact ⟨_, rfl⟩
  | some t =>
    by_cases hf : env.copy_to_user_fault 3 = true
    · simp [hf]
    · right; right; right; right
      simp only [hf, Bool.false_eq_true, if_false]
      exact ⟨_, rfl⟩

/-- C5: `sys_select` returns `-EINVAL` exactly when `user_nfds < 0` or
`user_nfds > MAX_HANDLES`, and then it has called nothing (no user-memory copy,
handle lookup, allocation, timer operation or sleep) and has changed neither
the scratch buffer nor the user objects. -/
theorem sys_select_einval_iff (cfg : Config) (env : Env) (m0 : Mem) (user_nfds : Int)
    (u : UserMem) :
    ((sys_select cfg env m0 user_nfds u).ret = some (-EINVAL) ↔
      (user_nfds < 0 ∨ user_nfds > (cfg.MAX_HANDLES : Int))) ∧
    ((user_nfds < 0 ∨ user_nfds > (cfg.MAX_HANDLES : Int)) →
      (sys_select cfg env m0 user_nfds u).trace = [] ∧
      (sys_select cfg env m0 user_nfds u).mem = m0 ∧
      (sys_select cfg env m0 user_nfds u).user = u) := by
  refine ⟨⟨?_, ?_⟩, ?_⟩
  · intro h
    by_contra h1
    rcases sys_select_ret_cases cfg env m0 user_nfds u h1 with h' | h' | h' | h' | ⟨c, h'⟩
    · rw [h'] at h
      exact absurd h (by simp)
    · rw [h'] at h
      simp [EFAULT, EINVAL] at h
    · rw [h'] at h
      simp [EBADF, EINVAL] at h
    · rw [h'] at h
      simp [ENOMEM, EINVAL] at h
    · rw [h'] at h
      simp only [EINVAL, Option.some.injEq] at h
      omega
  · intro h
    simp [sys_select, h]
  · intro h
    simp [sys_select, h]

/-! ## C4: a set bit for a closed descriptor -/

theorem sys_select_copy_in_loop_mem (env : Env) (u : UserMem) (m0 : Mem) (n : Nat)
    (h : (sys_select_copy_in_loop env u m0 n).rc = 0) (k : Nat) (hk : k < n)
    (bits : Nat → Bool) (hu : u.sets k = some bits) (i : Nat) (hi : i < FD_SETSIZE) :
    (sys_select_copy_in_loop env u m0 n).mem (sets_ptr k + i) = bits i := by
  induction n with
  | zero => omega
  | succ j ih =>
    have hp := sys_select_copy_in_loop_rc_prev env u m0 j h
    simp only [sys_select_copy_in_loop, hp, ne_eq, not_true_eq_false, if_false] at h ⊢
    cases huj : u.sets j with
    | none =>
      have hkj : k ≠ j := by
        intro e
        rw [e, huj] at hu
        exact absurd hu (by simp)
      exact ih hp (by omega)
    | some bj =>
      simp only [huj] at h
      by_cases hf : env.copy_from_user_fault j = true
      · simp [hf, EFAULT] at h
      · simp only [hf, Bool.false_eq_true, if_false, store_bits]
        by_cases hkj : k = j
        · subst hkj
          rw [huj] at hu
          have hb : bj = bits := by simpa using hu
          have : sets_ptr k ≤ sets_ptr k + i ∧ sets_ptr k + i < sets_ptr k + FD_SETSIZE := by
            omega
          simp [this, hb]
        · have : ¬(sets_ptr j ≤ sets_ptr k + i ∧ sets_ptr k + i < sets_ptr j + FD_SETSIZE) := by
            unfold sets_ptr FD_SETSIZE at *
            omega
          simp only [this, if_false]
          exact ih hp (by omega)

theorem store_timeval_other (m : Mem) (tv a b q : Nat) (h : q < tv ∨ tv + 64 ≤ q) :
    store_tv_usec (store_tv_sec m tv a) tv b q = m q := by
  have h1 : ¬(tv + 32 ≤ q ∧ q < tv + 32 + 32) := by omega
  have h2 : ¬(tv ≤ q ∧ q < tv + 32) := by omega
  simp [store_tv_usec, store_tv_sec, store32, store_bits, h1, h2]

theorem select_count_kcond_loop_ebadf (v : Vfs) (m : Mem) (set : Nat)
    (get_cond : fs_handle → Option kcond) (s0 : CountState) (n i : Nat)
    (h0 : s0.rc = 0) (hi : i < n) (hbit : FD_ISSET i set m = true)
    (hclosed : v.get_fs_handle i = none) :
    (select_count_kcond_loop v m set get_cond s0 n).rc = -EBADF := by
  induction n with
  | zero => omega
  | succ k ih =>
    simp only [select_count_kcond_loop]
    by_cases hik : i = k
    · subst hik
      rcases select_count_kcond_loop_rc v m set get_cond s0 i (Or.inl h0) with h | h
      · simp [h, hbit, hclosed]
      · simp [h, EBADF]
    · have := ih (by omega)
      simp [this, EBADF]

theorem sys_select_count_loop_ebadf (v : Vfs) (m : Mem) (nfds : Nat) (sets : Nat → Option Nat)
    (n k p i : Nat) (hk : k < n) (hs : sets k = some p) (hi : i < nfds)
    (hbit : FD_ISSET i p m = true) (hclosed : v.get_fs_handle i = none) :
    (sys_select_count_loop v m nfds sets n).rc = -EBADF := by
  induction n with
  | zero => omega
  | succ j ih =>
    simp only [sys_select_count_loop]
    rcases sys_select_count_loop_rc v m nfds sets j with h | h
    · have hkj : k = j := by
        by_contra hne
        have := ih (by omega)
        rw [h] at this
        simp [EBADF] at this
      subst hkj
      simp only [h, ne_eq, not_true_eq_false, if_false, select_count_kcond, hs]
      exact select_count_kcond_loop_ebadf v m p _ _ nfds i rfl hi hbit hclosed
    · simp [h, EBADF]

/-- C4 as stated fails: with a zero timeout the counting step is skipped, so
`select(4, {2}, NULL, NULL, {0,0})` with descriptor 2 closed returns 0, not
`-EBADF`. -/
theorem sys_select_zero_timeout_no_ebadf :
    (vfs_fixed true false).get_fs_handle 2 = none ∧
    fd_single 2 2 = true ∧
    (sys_select_copy_in (env_plain (vfs_fixed true false) [] (vfs_fixed true false))
      (user_rfds (some (fd_single 2)) (some ⟨0, 0⟩)) mem_zero).rc = 0 ∧
    (sys_select_tv cfg16 (env_plain (vfs_fixed true false) [] (vfs_fixed true false)) mem_zero
      (user_rfds (some (fd_single 2)) (some ⟨0, 0⟩))).rc = 0 ∧
    (sys_select cfg16 (env_plain (vfs_fixed true false) [] (vfs_fixed true false)) mem_zero 4
      (user_rfds (some (fd_single 2)) (some ⟨0, 0⟩))).ret = some 0 := by
  refine ⟨by decide, by decide, by decide, by decide, by decide⟩

/-- C4 (amended): with `nfds` in range and successful copy-in, if the timeout
is absent or its tick count (as line 309 leaves it in `timeout_ticks`, the
signed fields being converted to `u64`) is positive, and some supplied bitmap has a bit set
below `nfds` that designates no open descriptor (the bit not being one of bits
24..87 of the read set when a timeout is supplied), then `sys_select` returns
`-EBADF`. -/
theorem sys_select_ebadf (cfg : Config) (env : Env) (m0 : Mem) (user_nfds : Int) (u : UserMem)
    (k i : Nat) (bits : Nat → Bool)
    (h0 : 0 ≤ user_nfds) (hmax : user_nfds ≤ (cfg.MAX_HANDLES : Int))
    (hM : cfg.MAX_HANDLES ≤ FD_SETSIZE)
    (hci : (sys_select_copy_in env u m0).rc = 0)
    (hts : (sys_select_tv cfg env m0 u).rc = 0)
    (hk : k < 3) (hu : u.sets k = some bits) (hi : i < user_nfds.toNat) (hbit : bits i = true)
    (hclosed : env.vfs_count.get_fs_handle i = none)
    (htv : u.tv = none ∨ 0 < (sys_select_tv cfg env m0 u).timeout_ticks)
    (hov : u.tv = none ∨ k ≠ 0 ∨ i < 24 ∨ 88 ≤ i) :
    (sys_select cfg env m0 user_nfds u).ret = some (-EBADF) := by
  have hiF : i < FD_SETSIZE := by omega
  have hsets : (sys_select_copy_in env u m0).sets k = some (sets_ptr k) := by
    have := sys_select_copy_in_loop_sets env u m0 3 hci k
    simpa [sys_select_copy_in, hk, hu] using this
  have hmci : (sys_select_copy_in env u m0).mem (sets_ptr k + i) = true := by
    rw [← hbit]
    exact sys_select_copy_in_loop_mem env u m0 3 hci k hk bits hu i hiF
  have hmts : (sys_select_tv cfg env m0 u).mem (sets_ptr k + i) = true := by
    cases htvu : u.tv with
    | none => rw [(sys_select_tv_absent cfg env m0 u htvu).2.2.2.1, hmci]
    | some t =>
      have hf : env.copy_from_user_fault 3 = false := by
        cases hf : env.copy_from_user_fault 3 with
        | false => rfl
        | true => simp [sys_select_tv, sys_select_copy_tv, htvu, hf, EFAULT] at hts
      rw [(sys_select_tv_supplied cfg env m0 u t htvu hf).2.2.2.1, store_timeval_other, hmci]
      rcases hov with h | h | h | h
      · rw [htvu] at h
        exact absurd h (by simp)
      · right
        unfold sets_ptr tv_ptr FD_SETSIZE
        omega
      · have : k = 0 ∨ 0 < k := by omega
        rcases this with hk0 | hk0
        · subst hk0
          left
          unfold sets_ptr tv_ptr
          omega
        · right
          unfold sets_ptr tv_ptr FD_SETSIZE
          omega
      · right
        unfold sets_ptr tv_ptr
        omega
  have hrun : (sys_select_tv cfg env m0 u).tv.isNone = true ∨
      (sys_select_tv cfg env m0 u).timeout_ticks > 0 := by
    rcases htv with h | h
    · left
      rw [(sys_select_tv_absent cfg env m0 u h).2.1]
      rfl
    · right
      exact h
  have hcn : (sys_select_count cfg env m0 user_nfds.toNat u).rc = -EBADF := by
    unfold sys_select_count
    simp only [hrun, if_true]
    exact sys_select_count_loop_ebadf _ _ _ _ 3 k (sets_ptr k) i hk hsets hi hmts hclosed
  have h1 : ¬(user_nfds < 0 ∨ user_nfds > (cfg.MAX_HANDLES : Int)) := by omega
  simp [sys_select, h1, hci, hts, hcn, EBADF]

/-- Witness for C4: `select(4, {2}, NULL, NULL, NULL)` with descriptor 2 closed. -/
theorem sys_select_ebadf_witness :
    (sys_select cfg16 (env_plain (vfs_fixed true false) [] (vfs_fixed true false)) mem_zero 4
      (user_rfds (some (fd_single 2)) none)).ret = some (-EBADF) :=
  sys_select_ebadf cfg16 (env_plain (vfs_fixed true false) [] (vfs_fixed true false)) mem_zero 4
    (user_rfds (some (fd_single 2)) none) 0 2 (fd_single 2)
    (by decide) (by decide) (by decide) (by decide) (by decide) (by decide) rfl (by decide)
    (by decide) (by decide) (Or.inl rfl) (Or.inl rfl)

/-! ## C8: a zero timeout never sleeps -/

theorem sys_select_copy_in_loop_trace (env : Env) (u : UserMem) (m0 : Mem) (n : Nat) :
    ∀ e ∈ (sys_select_copy_in_loop env u m0 n).trace, e.is_copy_or_lookup = true := by
  induction n with
  | zero => simp [sys_select_copy_in_loop]
  | succ k ih =>
    simp only [sys_select_copy_in_loop]
    split
    · exact ih
    · split
      · exact ih
      · split <;>
        · intro e he
          rcases List.mem_append.mp he with h | h
          · exact ih e h
          · simp only [List.mem_singleton] at h
            subst h
            rfl

theorem sys_select_copy_tv_trace (cfg : Config) (env : Env) (u : UserMem) (m : Mem) :
    ∀ e ∈ (sys_select_copy_tv cfg env u m).trace, e.is_copy_or_lookup = true := by
  unfold sys_select_copy_tv
  split
  · simp
  · split <;>
    · intro e he
      simp only [List.mem_singleton] at he
      subst he
      rfl

theorem select_set_ready_trace (v : Vfs) (nfds : Nat) (set : Option Nat)
    (is_ready : fs_handle → Bool) (m : Mem) :
    ∀ e ∈ (select_set_ready v nfds set is_ready m).trace, e.is_copy_or_lookup = true := by
  intro e he
  cases set with
  | none => simp [select_set_ready] at he
  | some p =>
    obtain ⟨fd, hfd⟩ := select_set_ready_loop_trace v p is_ready m nfds e he
    subst hfd
    rfl

theorem sys_select_resolve_loop_trace (env : Env) (nfds : Nat) (sets : Nat → Option Nat)
    (u : UserMem) (m0 : Mem) (n : Nat) :
    ∀ e ∈ (sys_select_resolve_loop env nfds sets u m0 n).trace, e.is_copy_or_lookup = true := by
  induction n with
  | zero => simp [sys_select_resolve_loop]
  | succ k ih =>
    have hcase : ∀ (l1 l2 l3 : List Event), (∀ e ∈ l1, e.is_copy_or_lookup = true) →
        (∀ e ∈ l2, e.is_copy_or_lookup = true) → (∀ e ∈ l3, e.is_copy_or_lookup = true) →
        ∀ e ∈ l1 ++ l2 ++ l3, e.is_copy_or_lookup = true := by
      intro l1 l2 l3 h1 h2 h3 e he
      rcases List.mem_append.mp he with h | h
      · rcases List.mem_append.mp h with h | h
        · exact h1 e h
        · exact h2 e h
      · exact h3 e h
    have hr := select_set_ready_trace env.vfs_ready nfds (sets k) (env.vfs_ready.grf k)
      (sys_select_resolve_loop env nfds sets u m0 k).mem
    have hc : ∀ e ∈ [Event.copy_to_user k], e.is_copy_or_lookup = true := by
      intro e he
      simp only [List.mem_singleton] at he
      subst he
      rfl
    simp only [sys_select_resolve_loop]
    split
    · exact ih
    · split
      · split
        · split
          · exact hcase _ _ _ ih hr hc
          · exact hcase _ _ _ ih hr hc
        · exact hcase _ _ _ ih hr hc
      · intro e he
        have := hcase _ _ [] ih hr (by simp) e (by simpa using he)
        exact this

theorem sys_select_tv_isSome (cfg : Config) (env : Env) (m0 : Mem) (u : UserMem)
    (hts : (sys_select_tv cfg env m0 u).rc = 0) (htv : u.tv.isSome = true) :
    (sys_select_tv cfg env m0 u).tv = some tv_ptr ∧ env.copy_from_user_fault 3 = false := by
  cases hu : u.tv with
  | none => simp [hu] at htv
  | some t =>
    cases hf : env.copy_from_user_fault 3 with
    | true => simp [sys_select_tv, sys_select_copy_tv, hu, hf, EFAULT] at hts
    | false => exact ⟨(sys_select_tv_supplied cfg env m0 u t hu hf).2.1, rfl⟩

theorem mem_append_classified (l1 l2 : List Event) (p : Event → Bool)
    (h1 : ∀ e ∈ l1, p e = true) (h2 : ∀ e ∈ l2, p e = true) :
    ∀ e ∈ l1 ++ l2, p e = true := by
  intro e he
  rcases List.mem_append.mp he with h | h
  · exact h1 e h
  · exact h2 e h

/-- C8: with valid `nfds`, successful copy-in and a supplied timeout whose tick
count is zero (`{0,0}` is one), the counting step is skipped (`cond_cnt` stays
0, no call), the path decision calls nothing (no wait path, hence no `ASSERT`,
waiter, timer or sleep), the call returns, and its whole trace consists of
user-memory copies and handle lookups. -/
theorem sys_select_zero_timeout (cfg : Config) (env : Env) (m0 : Mem) (user_nfds : Int)
    (u : UserMem) (h0 : 0 ≤ user_nfds) (hmax : user_nfds ≤ (cfg.MAX_HANDLES : Int))
    (hci : (sys_select_copy_in env u m0).rc = 0)
    (hts : (sys_select_tv cfg env m0 u).rc = 0)
    (htv : u.tv.isSome = true)
    (hz : (sys_select_tv cfg env m0 u).timeout_ticks = 0) :
    sys_select_timeout_ticks cfg 0 0 = 0 ∧
    (sys_select_count cfg env m0 user_nfds.toNat u).cond_cnt = 0 ∧
    (sys_select_count cfg env m0 user_nfds.toNat u).trace = [] ∧
    (sys_select_wait cfg env m0 user_nfds.toNat u).rc = some 0 ∧
    (sys_select_wait cfg env m0 user_nfds.toNat u).trace = [] ∧
    (sys_select cfg env m0 user_nfds u).ret ≠ none ∧
    (∀ e ∈ (sys_select cfg env m0 user_nfds u).trace, e.is_copy_or_lookup = true) := by
  have htp := (sys_select_tv_isSome cfg env m0 u hts htv).1
  have hcn : sys_select_count cfg env m0 user_nfds.toNat u = ⟨0, 0, []⟩ := by
    simp [sys_select_count, htp, hz]
  have hwt : sys_select_wait cfg env m0 user_nfds.toNat u =
      ⟨some 0, [], (sys_select_tv cfg env m0 u).mem⟩ := by
    simp [sys_select_wait, hcn, hz]
  have h1 : ¬(user_nfds < 0 ∨ user_nfds > (cfg.MAX_HANDLES : Int)) := by omega
  have hci_tr := sys_select_copy_in_loop_trace env u m0 3
  have hts_tr := sys_select_copy_tv_trace cfg env u (sys_select_copy_in env u m0).mem
  have hrs_tr := sys_select_resolve_loop_trace env user_nfds.toNat
    (sys_select_copy_in env u m0).sets u (sys_select_wait cfg env m0 user_nfds.toNat u).mem 3
  have hpre : ∀ e ∈ (sys_select_copy_in env u m0).trace ++ (sys_select_tv cfg env m0 u).trace ++
      (sys_select_resolve cfg env m0 user_nfds.toNat u).trace, e.is_copy_or_lookup = true :=
    mem_append_classified _ _ _ (mem_append_classified _ _ _ hci_tr hts_tr) hrs_tr
  have hlast : ∀ e ∈ [Event.copy_to_user 3], e.is_copy_or_lookup = true := by
    intro e he
    simp only [List.mem_singleton] at he
    subst he
    rfl
  refine ⟨by simp [sys_select_timeout_ticks, long_to_u64_of_lt 0 (by norm_num)],
    by rw [hcn], by rw [hcn], by rw [hwt],
    by rw [hwt], ?_, ?_⟩
  · simp only [sys_select, h1, hci, hts, hcn, hwt, htp, ne_eq, not_true_eq_false, if_false]
    by_cases hrs : (sys_select_resolve cfg env m0 user_nfds.toNat u).rc = 0
    · by_cases hf : env.copy_to_user_fault 3 = true
      · simp [hrs, hf]
      · simp [hrs, hf]
    · simp [hrs]
  · simp only [sys_select, h1, hci, hts, hcn, hwt, htp, ne_eq, not_true_eq_false, if_false,
      List.append_nil]
    by_cases hrs : (sys_select_resolve cfg env m0 user_nfds.toNat u).rc = 0
    · by_cases hf : env.copy_to_user_fault 3 = true
      · simp only [hrs, hf, not_true_eq_false, if_false, if_true]
        exact mem_append_classified _ _ _ hpre hlast
      · simp only [hrs, hf, not_true_eq_false, if_false]
        exact mem_append_classified _ _ _ hpre hlast
    · simp only [hrs, not_false_eq_true, if_true]
      exact hpre

/-- Witness for C8: `select(4, {3}, NULL, NULL, {0,0})`, descriptor 3 with a
condition but not ready. -/
theorem sys_select_zero_timeout_witness :
    sys_select_timeout_ticks cfg16 0 0 = 0 ∧
    (sys_select_count cfg16 (env_plain (vfs_fixed true false) [] (vfs_fixed true false))
      mem_zero (4 : Int).toNat (user_rfds (some (fd_single 3)) (some ⟨0, 0⟩))).cond_cnt = 0 ∧
    (sys_select_count cfg16 (env_plain (vfs_fixed true false) [] (vfs_fixed true false))
      mem_zero (4 : Int).toNat (user_rfds (some (fd_single 3)) (some ⟨0, 0⟩))).trace = [] ∧
    (sys_select_wait cfg16 (env_plain (vfs_fixed true false) [] (vfs_fixed true false))
      mem_zero (4 : Int).toNat (user_rfds (some (fd_single 3)) (some ⟨0, 0⟩))).rc = some 0 ∧
    (sys_select_wait cfg16 (env_plain (vfs_fixed true false) [] (vfs_fixed true false))
      mem_zero (4 : Int).toNat (user_rfds (some (fd_single 3)) (some ⟨0, 0⟩))).trace = [] ∧
    (sys_select cfg16 (env_plain (vfs_fixed true false) [] (vfs_fixed true false))
      mem_zero 4 (user_rfds (some (fd_single 3)) (some ⟨0, 0⟩))).ret ≠ none ∧
    (∀ e ∈ (sys_select cfg16 (env_plain (vfs_fixed true false) [] (vfs_fixed true false))
      mem_zero 4 (user_rfds (some (fd_single 3)) (some ⟨0, 0⟩))).trace,
      e.is_copy_or_lookup = true) :=
  sys_select_zero_timeout cfg16 (env_plain (vfs_fixed true false) [] (vfs_fixed true false))
    mem_zero 4 (user_rfds (some (fd_single 3)) (some ⟨0, 0⟩))
    (by decide) (by decide) (by decide) (by decide) rfl (by decide)

/-! ## The wait loop -/

theorem select_wait_on_cond_loop_timer (cfg : Config) (nfds : Nat) (sets : Nat → Option Nat)
    (t : Nat) (m : Mem) (pre : List Wakeup) (w : Wakeup) (rest : List Wakeup)
    (hpre : ∀ x ∈ pre, spurious_wakeup m nfds sets x = true) (hw : w.timer_fired = true) :
    select_wait_on_cond_loop cfg nfds sets (some t) m (pre ++ w :: rest) =
      ⟨true, rescan_trace m nfds sets pre ++
          [Event.kernel_sleep_on_waiter, Event.wait_obj_reset],
        store_tv_usec (store_tv_sec m t 0) t 0⟩ := by
  induction pre with
  | nil => simp [select_wait_on_cond_loop, hw, rescan_trace]
  | cons x xs ih =>
    have hx := hpre x (List.mem_cons_self x xs)
    simp only [spurious_wakeup, Bool.and_eq_true, Bool.not_eq_true', decide_eq_true_eq] at hx
    have ih := ih (fun y hy => hpre y (List.mem_cons_of_mem x hy))
    simp [select_wait_on_cond_loop, hx.1, hx.2, ih, rescan_trace]

theorem select_wait_on_cond_loop_ready (cfg : Config) (nfds : Nat) (sets : Nat → Option Nat)
    (t : Nat) (m : Mem) (pre : List Wakeup) (w : Wakeup) (rest : List Wakeup)
    (hpre : ∀ x ∈ pre, spurious_wakeup m nfds sets x = true) (hw : w.timer_fired = false)
    (hr : (count_ready_streams w.vfs m nfds sets).count ≠ 0) :
    select_wait_on_cond_loop cfg nfds sets (some t) m (pre ++ w :: rest) =
      ⟨true, rescan_trace m nfds sets pre ++
          (Event.kernel_sleep_on_waiter :: (count_ready_streams w.vfs m nfds sets).trace ++
            [Event.task_cancel_wakeup_timer]),
        store_tv_usec (store_tv_sec m t (w.rem / cfg.TIMER_HZ)) t
          ((w.rem % cfg.TIMER_HZ) * (1000000 / cfg.TIMER_HZ) % 2 ^ 32)⟩ := by
  induction pre with
  | nil => simp [select_wait_on_cond_loop, hw, hr, rescan_trace]
  | cons x xs ih =>
    have hx := hpre x (List.mem_cons_self x xs)
    simp only [spurious_wakeup, Bool.and_eq_true, Bool.not_eq_true', decide_eq_true_eq] at hx
    have ih := ih (fun y hy => hpre y (List.mem_cons_of_mem x hy))
    simp [select_wait_on_cond_loop, hx.1, hx.2, ih, rescan_trace]

/-! ## Classification of the traces of the wait path -/

theorem count_ready_streams_per_set_trace (v : Vfs) (m : Mem) (nfds : Nat) (set : Option Nat)
    (is_ready : fs_handle → Bool) :
    ∀ e ∈ (count_ready_streams_per_set v m nfds set is_ready).trace, e.is_lookup = true := by
  cases set with
  | none => simp [count_ready_streams_per_set]
  | some p =>
    simp only [count_ready_streams_per_set]
    induction nfds with
    | zero => simp [count_ready_streams_per_set_loop]
    | succ k ih =>
      have hk : ∀ e ∈ [Event.get_fs_handle k], e.is_lookup = true := by
        intro e he
        simp only [List.mem_singleton] at he
        subst he
        rfl
      simp only [count_ready_streams_per_set_loop]
      split
      · exact ih
      · split
        · exact mem_append_classified _ _ _ ih hk
        · split <;> exact mem_append_classified _ _ _ ih hk

theorem count_ready_streams_trace (v : Vfs) (m : Mem) (nfds : Nat) (sets : Nat → Option Nat) :
    ∀ e ∈ (count_ready_streams v m nfds sets).trace, e.is_lookup = true := by
  have h : ∀ n, ∀ e ∈ (count_ready_streams_loop v m nfds sets n).trace, e.is_lookup = true := by
    intro n
    induction n with
    | zero => simp [count_ready_streams_loop]
    | succ k ih =>
      simp only [count_ready_streams_loop]
      exact mem_append_classified _ _ _ ih (count_ready_streams_per_set_trace _ _ _ _ _)
  exact h 3

theorem rescan_trace_no_cancel (m : Mem) (nfds : Nat) (sets : Nat → Option Nat)
    (ws : List Wakeup) : Event.task_cancel_wakeup_timer ∉ rescan_trace m nfds sets ws := by
  induction ws with
  | nil => simp [rescan_trace]
  | cons w rest ih =>
    simp only [rescan_trace, List.cons_append, List.mem_cons, List.mem_append, not_or]
    refine ⟨by simp, ?_, ih⟩
    intro hmem
    have := count_ready_streams_trace w.vfs m nfds sets _ hmem
    simp [Event.is_lookup] at this

theorem select_set_kcond_loop_trace (cfg : Config) (v : Vfs) (m : Mem) (count set : Nat)
    (get_cond : fs_handle → Option kcond) (s0 : SetState) (n : Nat)
    (h0 : ∀ e ∈ s0.trace, e.is_registration = true) :
    ∀ e ∈ (select_set_kcond_loop cfg v m count set get_cond s0 n).trace,
      e.is_registration = true := by
  induction n with
  | zero => simpa [select_set_kcond_loop] using h0
  | succ k ih =>
    simp only [select_set_kcond_loop]
    split
    · exact ih
    · split
      · exact ih
      · split
        · apply mem_append_classified _ _ _ ih
          intro e he
          simp only [List.mem_singleton] at he
          subst he
          rfl
        · split
          · apply mem_append_classified _ _ _ ih
            intro e he
            simp only [List.mem_cons, List.mem_singleton, List.not_mem_nil, or_false] at he
            rcases he with he | he <;> subst he <;> rfl
          · split
            · apply mem_append_classified _ _ _ ih
              intro e he
              simp only [List.mem_cons, List.mem_singleton, List.not_mem_nil, or_false] at he
              rcases he with he | he <;> subst he <;> rfl
            · apply mem_append_classified _ _ _ ih
              intro e he
              simp only [List.mem_singleton] at he
              subst he
              rfl

theorem select_wait_on_cond_set_loop_trace (cfg : Config) (v : Vfs) (m : Mem)
    (nfds count : Nat) (sets : Nat → Option Nat) (n : Nat) :
    ∀ e ∈ (select_wait_on_cond_set_loop cfg v m nfds count sets n).trace,
      e.is_registration = true := by
  induction n with
  | zero => simp [select_wait_on_cond_set_loop]
  | succ k ih =>
    simp only [select_wait_on_cond_set_loop]
    split
    · exact ih
    · cases hs : sets k with
      | none => simpa [select_set_kcond] using ih
      | some p =>
        simp only [select_set_kcond]
        exact select_set_kcond_loop_trace cfg v m count p _ _ nfds ih

/-! ## The wait path ended by a wakeup -/

theorem select_wait_on_cond_timer_fired (cfg : Config) (env : Env) (m : Mem) (nfds : Nat)
    (sets : Nat → Option Nat) (t cond_cnt ticks : Nat) (pre : List Wakeup) (w : Wakeup)
    (rest : List Wakeup) (ha : env.alloc_fail = false)
    (hreg : (select_wait_on_cond_set_loop cfg env.vfs_set m nfds cond_cnt sets 3).rc = some 0)
    (hticks : 0 < ticks) (hwk : env.wakeups = pre ++ w :: rest)
    (hpre : ∀ x ∈ pre, spurious_wakeup m nfds sets x = true) (hw : w.timer_fired = true) :
    select_wait_on_cond cfg env m nfds sets (some t) cond_cnt ticks =
      ⟨some 0,
        Event.allocate_mobj_waiter cond_cnt ::
          (select_wait_on_cond_set_loop cfg env.vfs_set m nfds cond_cnt sets 3).trace ++
          [Event.task_set_wakeup_timer ticks] ++
          (rescan_trace m nfds sets pre ++
            [Event.kernel_sleep_on_waiter, Event.wait_obj_reset]) ++
          [Event.free_mobj_waiter],
        store_tv_usec (store_tv_sec m t 0) t 0⟩ := by
  have hl := select_wait_on_cond_loop_timer cfg nfds sets t m pre w rest hpre hw
  simp [select_wait_on_cond, ha, hreg, hticks, hwk, hl]

theorem select_wait_on_cond_ready (cfg : Config) (env : Env) (m : Mem) (nfds : Nat)
    (sets : Nat → Option Nat) (t cond_cnt ticks : Nat) (pre : List Wakeup) (w : Wakeup)
    (rest : List Wakeup) (ha : env.alloc_fail = false)
    (hreg : (select_wait_on_cond_set_loop cfg env.vfs_set m nfds cond_cnt sets 3).rc = some 0)
    (hticks : 0 < ticks) (hwk : env.wakeups = pre ++ w :: rest)
    (hpre : ∀ x ∈ pre, spurious_wakeup m nfds sets x = true) (hw : w.timer_fired = false)
    (hr : (count_ready_streams w.vfs m nfds sets).count ≠ 0) :
    select_wait_on_cond cfg env m nfds sets (some t) cond_cnt ticks =
      ⟨some 0,
        Event.allocate_mobj_waiter cond_cnt ::
          (select_wait_on_cond_set_loop cfg env.vfs_set m nfds cond_cnt sets 3).trace ++
          [Event.task_set_wakeup_timer ticks] ++
          (rescan_trace m nfds sets pre ++
            (Event.kernel_sleep_on_waiter :: (count_ready_streams w.vfs m nfds sets).trace ++
              [Event.task_cancel_wakeup_timer])) ++
          [Event.free_mobj_waiter],
        store_tv_usec (store_tv_sec m t (w.rem / cfg.TIMER_HZ)) t
          ((w.rem % cfg.TIMER_HZ) * (1000000 / cfg.TIMER_HZ) % 2 ^ 32)⟩ := by
  have hl := select_wait_on_cond_loop_ready cfg nfds sets t m pre w rest hpre hw hr
  simp [select_wait_on_cond, ha, hreg, hticks, hwk, hl]

theorem sys_select_wait_ticks_pos (cfg : Config) (env : Env) (m0 : Mem) (nfds : Nat)
    (u : UserMem) (hts : (sys_select_tv cfg env m0 u).rc = 0) (htv : u.tv.isSome = true)
    (hcc : 0 < (sys_select_count cfg env m0 nfds u).cond_cnt) :
    0 < (sys_select_tv cfg env m0 u).timeout_ticks := by
  by_contra hz
  have htp := (sys_select_tv_isSome cfg env m0 u hts htv).1
  have hcn : sys_select_count cfg env m0 nfds u = ⟨0, 0, []⟩ := by
    simp [sys_select_count, htp, Nat.eq_zero_of_not_pos hz]
  rw [hcn] at hcc
  exact absurd hcc (by simp)

/-! ## Resolution after the wait path -/

theorem sys_select_resolve_loop_ok (env : Env) (nfds : Nat) (sets : Nat → Option Nat)
    (u : UserMem) (m0 : Mem) (n : Nat)
    (hsets : ∀ k, k < n → sets k = (u.sets k).map (fun _ => sets_ptr k))
    (hf : ∀ k, k < n → env.copy_to_user_fault k = false) :
    (sys_select_resolve_loop env nfds sets u m0 n).rc = 0 := by
  induction n with
  | zero => rfl
  | succ j ih =>
    have hp := ih (fun k hk => hsets k (Nat.lt_succ_of_lt hk))
      (fun k hk => hf k (Nat.lt_succ_of_lt hk))
    have hsj := hsets j (Nat.lt_succ_self j)
    cases hu : u.sets j with
    | none =>
      rw [hu] at hsj
      exact (sys_select_resolve_loop_succ_none env nfds sets u m0 j hu hsj hp).1
    | some bits =>
      rw [hu] at hsj
      exact (sys_select_resolve_loop_succ_some env nfds sets u m0 j (sets_ptr j)
        (by simp [hu]) hsj hp (hf j (Nat.lt_succ_self j))).1

theorem select_set_ready_mem_le (v : Vfs) (nfds : Nat) (set : Option Nat)
    (is_ready : fs_handle → Bool) (m : Mem) (q : Nat)
    (h : (select_set_ready v nfds set is_ready m).mem q = true) : m q = true := by
  cases set with
  | none => simpa [select_set_ready] using h
  | some p =>
    simp only [select_set_ready, select_set_ready_loop_mem] at h
    split at h
    · simp only [Bool.and_eq_true] at h
      exact h.1
    · exact h

theorem select_set_ready_mem_frame (v : Vfs) (nfds : Nat) (set : Option Nat)
    (is_ready : fs_handle → Bool) (m : Mem) (q : Nat)
    (h : ∀ p, set = some p → q < p ∨ p + nfds ≤ q) :
    (select_set_ready v nfds set is_ready m).mem q = m q := by
  cases set with
  | none => simp [select_set_ready]
  | some p =>
    have hq : ¬(p ≤ q ∧ q < p + nfds) := by
      have := h p rfl
      omega
    simp only [select_set_ready, select_set_ready_loop_mem, hq, if_false]

theorem sys_select_resolve_loop_mem_eq (env : Env) (nfds : Nat) (sets : Nat → Option Nat)
    (u : UserMem) (m0 : Mem) (n : Nat) :
    (sys_select_resolve_loop env nfds sets u m0 (n + 1)).mem =
        (sys_select_resolve_loop env nfds sets u m0 n).mem ∨
    (sys_select_resolve_loop env nfds sets u m0 (n + 1)).mem =
        (select_set_ready env.vfs_ready nfds (sets n) (env.vfs_ready.grf n)
          (sys_select_resolve_loop env nfds sets u m0 n).mem).mem := by
  simp only [sys_select_resolve_loop]
  split
  · left
    rfl
  · right
    split
    · split
      · split <;> rfl
      · rfl
    · rfl

theorem sys_select_resolve_loop_mem_le (env : Env) (nfds : Nat) (sets : Nat → Option Nat)
    (u : UserMem) (m0 : Mem) (n q : Nat)
    (h : (sys_select_resolve_loop env nfds sets u m0 n).mem q = true) : m0 q = true := by
  induction n with
  | zero => simpa [sys_select_resolve_loop] using h
  | succ j ih =>
    rcases sys_select_resolve_loop_mem_eq env nfds sets u m0 j with he | he
    · rw [he] at h
      exact ih h
    · rw [he] at h
      exact ih (select_set_ready_mem_le _ _ _ _ _ _ h)

theorem sys_select_resolve_loop_mem_frame (env : Env) (nfds : Nat) (sets : Nat → Option Nat)
    (u : UserMem) (m0 : Mem) (n q : Nat)
    (h : ∀ k, k < n → ∀ p, sets k = some p → q < p ∨ p + nfds ≤ q) :
    (sys_select_resolve_loop env nfds sets u m0 n).mem q = m0 q := by
  induction n with
  | zero => simp [sys_select_resolve_loop]
  | succ j ih =>
    have ih := ih (fun k hk => h k (Nat.lt_succ_of_lt hk))
    rcases sys_select_resolve_loop_mem_eq env nfds sets u m0 j with he | he
    · rw [he, ih]
    · rw [he, select_set_ready_mem_frame _ _ _ _ _ _ (h j (Nat.lt_succ_self j)), ih]

theorem load32_zero (m : Mem) (p : Nat) (h : ∀ q, p ≤ q → q < p + 32 → m q = false) :
    load32 m p = 0 := by
  have := load_bits_testBit m p 32 0 (fun b hb => by
    rw [h (p + b) (by omega) (by omega)]
    simp)
  simpa [load32] using this

/-! ## C9: the timer fires on the wait path -/

theorem sys_select_copy_in_sets (env : Env) (u : UserMem) (m0 : Mem)
    (hci : (sys_select_copy_in env u m0).rc = 0) (k : Nat) (hk : k < 3) :
    (sys_select_copy_in env u m0).sets k = (u.sets k).map (fun _ => sets_ptr k) := by
  have := sys_select_copy_in_loop_sets env u m0 3 hci k
  simpa [sys_select_copy_in, hk] using this

theorem bits_set_below_eq_zero (nfds : Nat) (s : Option (Nat → Bool))
    (h : ∀ b, s = some b → ∀ i, i < nfds → b i = false) : bits_set_below nfds s = 0 := by
  cases s with
  | none => rfl
  | some b => exact count_bits_below_eq_zero nfds b (h b rfl)

/-- C9: on the wait path with a supplied timeout, when (after any number of
spurious wakeups) a wakeup finds the timer fired, the wait path resets the wait
object, zeroes `tv_sec` and `tv_usec`, leaves the loop without cancelling the
timer, frees the waiter and returns 0.  If moreover no descriptor is ready at
resolution (and the copies back succeed), `sys_select` returns 0, every bit
below `nfds` of every supplied bitmap comes back cleared, and the timeout
written back is `{0,0}`. -/
theorem sys_select_timer_fired (cfg : Config) (env : Env) (m0 : Mem) (user_nfds : Int)
    (u : UserMem) (pre : List Wakeup) (w : Wakeup) (rest : List Wakeup)
    (h0 : 0 ≤ user_nfds) (hmax : user_nfds ≤ (cfg.MAX_HANDLES : Int))
    (hM : cfg.MAX_HANDLES ≤ FD_SETSIZE)
    (hci : (sys_select_copy_in env u m0).rc = 0)
    (hts : (sys_select_tv cfg env m0 u).rc = 0)
    (htv : u.tv.isSome = true)
    (hcn : (sys_select_count cfg env m0 user_nfds.toNat u).rc = 0)
    (hcc : 0 < (sys_select_count cfg env m0 user_nfds.toNat u).cond_cnt)
    (ha : env.alloc_fail = false)
    (hreg : (select_wait_on_cond_set_loop cfg env.vfs_set (sys_select_tv cfg env m0 u).mem
      user_nfds.toNat (sys_select_count cfg env m0 user_nfds.toNat u).cond_cnt
      (sys_select_copy_in env u m0).sets 3).rc = some 0)
    (hwk : env.wakeups = pre ++ w :: rest)
    (hpre : ∀ x ∈ pre, spurious_wakeup (sys_select_tv cfg env m0 u).mem user_nfds.toNat
      (sys_select_copy_in env u m0).sets x = true)
    (hw : w.timer_fired = true) :
    (sys_select_wait cfg env m0 user_nfds.toNat u).rc = some 0 ∧
    (sys_select_wait cfg env m0 user_nfds.toNat u).trace =
      Event.allocate_mobj_waiter (sys_select_count cfg env m0 user_nfds.toNat u).cond_cnt ::
        (select_wait_on_cond_set_loop cfg env.vfs_set (sys_select_tv cfg env m0 u).mem
          user_nfds.toNat (sys_select_count cfg env m0 user_nfds.toNat u).cond_cnt
          (sys_select_copy_in env u m0).sets 3).trace ++
        [Event.task_set_wakeup_timer (sys_select_tv cfg env m0 u).timeout_ticks] ++
        (rescan_trace (sys_select_tv cfg env m0 u).mem user_nfds.toNat
            (sys_select_copy_in env u m0).sets pre ++
          [Event.kernel_sleep_on_waiter, Event.wait_obj_reset]) ++
        [Event.free_mobj_waiter] ∧
    Event.task_cancel_wakeup_timer ∉ (sys_select_wait cfg env m0 user_nfds.toNat u).trace ∧
    load_timeval (sys_select_wait cfg env m0 user_nfds.toNat u).mem tv_ptr = ⟨0, 0⟩ ∧
    ((∀ k, k < 3 → ∀ i, i < user_nfds.toNat →
        handle_ready env.vfs_ready (env.vfs_ready.grf k) i = false) →
      (∀ j, env.copy_to_user_fault j = false) →
      (sys_select cfg env m0 user_nfds u).ret = some 0 ∧
      (∀ k, k < 3 →
        ((sys_select cfg env m0 user_nfds u).user.sets k).isSome = (u.sets k).isSome) ∧
      (∀ k, k < 3 → ∀ b, (sys_select cfg env m0 user_nfds u).user.sets k = some b →
        ∀ i, i < user_nfds.toNat → b i = false) ∧
      (sys_select cfg env m0 user_nfds u).user.tv = some ⟨0, 0⟩) := by
  have htp := (sys_select_tv_isSome cfg env m0 u hts htv).1
  have hticks := sys_select_wait_ticks_pos cfg env m0 user_nfds.toNat u hts htv hcc
  have hwt := select_wait_on_cond_timer_fired cfg env (sys_select_tv cfg env m0 u).mem
    user_nfds.toNat (sys_select_copy_in env u m0).sets tv_ptr
    (sys_select_count cfg env m0 user_nfds.toNat u).cond_cnt
    (sys_select_tv cfg env m0 u).timeout_ticks pre w rest ha hreg hticks hwk hpre hw
  have hwe : sys_select_wait cfg env m0 user_nfds.toNat u =
      select_wait_on_cond cfg env (sys_select_tv cfg env m0 u).mem user_nfds.toNat
        (sys_select_copy_in env u m0).sets (some tv_ptr)
        (sys_select_count cfg env m0 user_nfds.toNat u).cond_cnt
        (sys_select_tv cfg env m0 u).timeout_ticks := by
    unfold sys_select_wait
    simp only [hcc, if_true, htp]
  have hwt2 := hwe.trans hwt
  have hzero : load_timeval (sys_select_wait cfg env m0 user_nfds.toNat u).mem tv_ptr = ⟨0, 0⟩ := by
    rw [hwt2]
    exact load_timeval_store _ _ 0 0
  refine ⟨by rw [hwt2], by rw [hwt2], ?_, hzero, ?_⟩
  · rw [hwt2]
    simp only [List.cons_append, List.mem_cons, List.mem_append, List.mem_singleton,
      List.not_mem_nil, or_false, not_or]
    refine ⟨by simp, ⟨⟨⟨?_, by simp⟩, ⟨rescan_trace_no_cancel _ _ _ _, by simp, by simp⟩⟩,
      by simp⟩⟩
    intro hmem
    have := select_wait_on_cond_set_loop_trace _ _ _ _ _ _ _ _ hmem
    simp [Event.is_registration] at this
  · intro hnr hnf
    have hn : user_nfds.toNat ≤ FD_SETSIZE := by omega
    have hsets := sys_select_copy_in_sets env u m0 hci
    have hrs : (sys_select_resolve cfg env m0 user_nfds.toNat u).rc = 0 :=
      sys_select_resolve_loop_ok env _ _ u _ 3 hsets (fun k _ => hnf k)
    obtain ⟨_, hsome, hrdy, htot⟩ :=
      sys_select_resolve_loop_inv env user_nfds.toNat _ u _ 3 hn hsets hrs
    have hbits : ∀ k, k < 3 → ∀ b, (sys_select_resolve cfg env m0 user_nfds.toNat u).user_sets k
        = some b → ∀ i, i < user_nfds.toNat → b i = false := by
      intro k hk b hb i hi
      cases hbi : b i with
      | false => rfl
      | true =>
        have := hrdy k hk b hb i hi hbi
        rw [hnr k hk i hi] at this
        exact absurd this (by simp)
    have htot0 : (sys_select_resolve cfg env m0 user_nfds.toNat u).total_ready_count = 0 := by
      have htot2 : (sys_select_resolve cfg env m0 user_nfds.toNat u).total_ready_count =
          bits_set_total user_nfds.toNat
            (sys_select_resolve cfg env m0 user_nfds.toNat u).user_sets 3 := htot
      rw [htot2]
      simp only [bits_set_total]
      rw [bits_set_below_eq_zero _ _ (hbits 0 (by omega)),
        bits_set_below_eq_zero _ _ (hbits 1 (by omega)),
        bits_set_below_eq_zero _ _ (hbits 2 (by omega))]
    have hmz : ∀ q, tv_ptr ≤ q → q < tv_ptr + 64 →
        (sys_select_resolve cfg env m0 user_nfds.toNat u).mem q = false := by
      intro q h1 h2
      cases hq : (sys_select_resolve cfg env m0 user_nfds.toNat u).mem q with
      | false => rfl
      | true =>
        have := sys_select_resolve_loop_mem_le env _ _ u _ 3 q hq
        rw [hwt2] at this
        simp only [store_tv_usec, store_tv_sec, store32, store_bits, Nat.zero_testBit] at this
        split at this
        · exact absurd this (by simp)
        · split at this
          · exact absurd this (by simp)
          · omega
    have htv0 : load_timeval (sys_select_resolve cfg env m0 user_nfds.toNat u).mem tv_ptr
        = ⟨0, 0⟩ := by
      simp only [load_timeval, load_tv_sec, load_tv_usec, timeval.mk.injEq]
      exact ⟨load32_zero _ _ (fun q h1 h2 => hmz q h1 (by omega)),
        load32_zero _ _ (fun q h1 h2 => hmz q (by omega) (by omega))⟩
    have h1 : ¬(user_nfds < 0 ∨ user_nfds > (cfg.MAX_HANDLES : Int)) := by omega
    have hwrc : (sys_select_wait cfg env m0 user_nfds.toNat u).rc = some 0 := by rw [hwt2]
    have hres : sys_select cfg env m0 user_nfds u =
        ⟨some (sys_select_resolve cfg env m0 user_nfds.toNat u).total_ready_count,
          (sys_select_copy_in env u m0).trace ++ (sys_select_tv cfg env m0 u).trace ++
            (sys_select_count cfg env m0 user_nfds.toNat u).trace ++
            (sys_select_wait cfg env m0 user_nfds.toNat u).trace ++
            (sys_select_resolve cfg env m0 user_nfds.toNat u).trace ++ [Event.copy_to_user 3],
          (sys_select_resolve cfg env m0 user_nfds.toNat u).mem,
          ⟨(sys_select_resolve cfg env m0 user_nfds.toNat u).user_sets,
            some (load_timeval (sys_select_resolve cfg env m0 user_nfds.toNat u).mem tv_ptr)⟩⟩ := by
      simp [sys_select, h1, hci, hts, hcn, hwrc, hrs, htp, hnf 3]
    rw [hres]
    refine ⟨by simp [htot0], hsome, hbits, by simp [htv0]⟩

/-- Witness for C9: `select(8, {5}, NULL, NULL, {1,0})`, descriptor 5 never
ready, the first wakeup is the timer. -/
theorem sys_select_timer_fired_witness :
    (sys_select cfg16 env_timer mem_zero 8 (user_wait 1)).ret = some 0 ∧
    (sys_select cfg16 env_timer mem_zero 8 (user_wait 1)).user.tv = some ⟨0, 0⟩ :=
  have h := (sys_select_timer_fired cfg16 env_timer mem_zero 8 (user_wait 1) [] _ []
    (by decide) (by decide) (by decide) (by decide) (by decide) rfl (by decide) (by decide)
    rfl (by decide) rfl (by simp) rfl).2.2.2.2 (by decide) (fun _ => rfl)
  ⟨h.1, h.2.2.2⟩

/-! ## C10: a condition wakeup with ready descriptors -/

theorem remaining_usec_lt (hz rem : Nat) (h : 0 < hz) :
    (rem % hz) * (1000000 / hz) < 2 ^ 32 := by
  have h1 : rem % hz < hz := Nat.mod_lt _ h
  have h2 : (rem % hz) * (1000000 / hz) ≤ hz * (1000000 / hz) :=
    Nat.mul_le_mul_right _ (Nat.le_of_lt h1)
  have h3 : hz * (1000000 / hz) ≤ 1000000 := Nat.mul_div_le _ _
  omega

/-- A condition wakeup on the wait path with a supplied timeout: when (after
any number of spurious wakeups) a wakeup is not a timer wakeup and the rescan
finds a ready descriptor, the wait path cancels the wakeup timer and stores
`tv_sec = rem / TIMER_HZ`, `tv_usec = (rem % TIMER_HZ) * (1000000 / TIMER_HZ)`
with `rem` the value returned by `task_cancel_wakeup_timer`, frees the waiter
and returns 0.  When resolution cannot touch the bytes of the timeout (no read
set, or `nfds <= 24`) and the copies back succeed, that is the timeout the
user receives. -/
theorem sys_select_cond_wakeup (cfg : Config) (env : Env) (m0 : Mem) (user_nfds : Int)
    (u : UserMem) (pre : List Wakeup) (w : Wakeup) (rest : List Wakeup)
    (h0 : 0 ≤ user_nfds) (hmax : user_nfds ≤ (cfg.MAX_HANDLES : Int))
    (hz : 0 < cfg.TIMER_HZ)
    (hci : (sys_select_copy_in env u m0).rc = 0)
    (hts : (sys_select_tv cfg env m0 u).rc = 0)
    (htv : u.tv.isSome = true)
    (hcn : (sys_select_count cfg env m0 user_nfds.toNat u).rc = 0)
    (hcc : 0 < (sys_select_count cfg env m0 user_nfds.toNat u).cond_cnt)
    (ha : env.alloc_fail = false)
    (hreg : (select_wait_on_cond_set_loop cfg env.vfs_set (sys_select_tv cfg env m0 u).mem
      user_nfds.toNat (sys_select_count cfg env m0 user_nfds.toNat u).cond_cnt
      (sys_select_copy_in env u m0).sets 3).rc = some 0)
    (hwk : env.wakeups = pre ++ w :: rest)
    (hpre : ∀ x ∈ pre, spurious_wakeup (sys_select_tv cfg env m0 u).mem user_nfds.toNat
      (sys_select_copy_in env u m0).sets x = true)
    (hw : w.timer_fired = false)
    (hr : (count_ready_streams w.vfs (sys_select_tv cfg env m0 u).mem user_nfds.toNat
      (sys_select_copy_in env u m0).sets).count ≠ 0)
    (hrem : w.rem < 2 ^ 32) :
    (sys_select_wait cfg env m0 user_nfds.toNat u).rc = some 0 ∧
    (sys_select_wait cfg env m0 user_nfds.toNat u).trace =
      Event.allocate_mobj_waiter (sys_select_count cfg env m0 user_nfds.toNat u).cond_cnt ::
        (select_wait_on_cond_set_loop cfg env.vfs_set (sys_select_tv cfg env m0 u).mem
          user_nfds.toNat (sys_select_count cfg env m0 user_nfds.toNat u).cond_cnt
          (sys_select_copy_in env u m0).sets 3).trace ++
        [Event.task_set_wakeup_timer (sys_select_tv cfg env m0 u).timeout_ticks] ++
        (rescan_trace (sys_select_tv cfg env m0 u).mem user_nfds.toNat
            (sys_select_copy_in env u m0).sets pre ++
          (Event.kernel_sleep_on_waiter ::
            (count_ready_streams w.vfs (sys_select_tv cfg env m0 u).mem user_nfds.toNat
              (sys_select_copy_in env u m0).sets).trace ++
            [Event.task_cancel_wakeup_timer])) ++
        [Event.free_mobj_waiter] ∧
    Event.task_cancel_wakeup_timer ∈ (sys_select_wait cfg env m0 user_nfds.toNat u).trace ∧
    load_timeval (sys_select_wait cfg env m0 user_nfds.toNat u).mem tv_ptr =
      ⟨w.rem / cfg.TIMER_HZ, (w.rem % cfg.TIMER_HZ) * (1000000 / cfg.TIMER_HZ)⟩ ∧
    ((user_nfds ≤ 24 ∨ u.sets 0 = none) → (∀ j, env.copy_to_user_fault j = false) →
      (∃ c : Nat, (sys_select cfg env m0 user_nfds u).ret = some (c : Int)) ∧
      (sys_select cfg env m0 user_nfds u).user.tv =
        some ⟨w.rem / cfg.TIMER_HZ, (w.rem % cfg.TIMER_HZ) * (1000000 / cfg.TIMER_HZ)⟩) := by
  have htp := (sys_select_tv_isSome cfg env m0 u hts htv).1
  have hticks := sys_select_wait_ticks_pos cfg env m0 user_nfds.toNat u hts htv hcc
  have hwt := select_wait_on_cond_ready cfg env (sys_select_tv cfg env m0 u).mem
    user_nfds.toNat (sys_select_copy_in env u m0).sets tv_ptr
    (sys_select_count cfg env m0 user_nfds.toNat u).cond_cnt
    (sys_select_tv cfg env m0 u).timeout_ticks pre w rest ha hreg hticks hwk hpre hw hr
  have hwe : sys_select_wait cfg env m0 user_nfds.toNat u =
      select_wait_on_cond cfg env (sys_select_tv cfg env m0 u).mem user_nfds.toNat
        (sys_select_copy_in env u m0).sets (some tv_ptr)
        (sys_select_count cfg env m0 user_nfds.toNat u).cond_cnt
        (sys_select_tv cfg env m0 u).timeout_ticks := by
    unfold sys_select_wait
    simp only [hcc, if_true, htp]
  have hwt2 := hwe.trans hwt
  have hsec : w.rem / cfg.TIMER_HZ % 2 ^ 32 = w.rem / cfg.TIMER_HZ :=
    Nat.mod_eq_of_lt (Nat.lt_of_le_of_lt (Nat.div_le_self _ _) hrem)
  have husec : (w.rem % cfg.TIMER_HZ) * (1000000 / cfg.TIMER_HZ) % 2 ^ 32 =
      (w.rem % cfg.TIMER_HZ) * (1000000 / cfg.TIMER_HZ) :=
    Nat.mod_eq_of_lt (remaining_usec_lt _ _ hz)
  have hload : load_timeval (sys_select_wait cfg env m0 user_nfds.toNat u).mem tv_ptr =
      ⟨w.rem / cfg.TIMER_HZ, (w.rem % cfg.TIMER_HZ) * (1000000 / cfg.TIMER_HZ)⟩ := by
    rw [hwt2]
    simp only []
    rw [load_timeval_store, hsec, Nat.mod_mod, husec]
  refine ⟨by rw [hwt2], by rw [hwt2], by rw [hwt2]; simp, hload, ?_⟩
  intro hfar hnf
  have hsets := sys_select_copy_in_sets env u m0 hci
  have hrs : (sys_select_resolve cfg env m0 user_nfds.toNat u).rc = 0 :=
    sys_select_resolve_loop_ok env _ _ u _ 3 hsets (fun k _ => hnf k)
  have hframe : ∀ q, tv_ptr ≤ q → q < tv_ptr + 64 →
      (sys_select_resolve cfg env m0 user_nfds.toNat u).mem q =
        (sys_select_wait cfg env m0 user_nfds.toNat u).mem q := by
    intro q h1 h2
    apply sys_select_resolve_loop_mem_frame
    intro k hk p hp
    rw [hsets k hk] at hp
    cases hu : u.sets k with
    | none => simp [hu] at hp
    | some bits =>
      simp only [hu, Option.map_some', Option.some.injEq] at hp
      subst hp
      have : k = 0 ∨ 0 < k := by omega
      rcases this with hk0 | hk0
      · subst hk0
        rcases hfar with hf | hf
        · right
          unfold sets_ptr tv_ptr at *
          omega
        · rw [hf] at hu
          exact absurd hu (by simp)
      · left
        unfold sets_ptr tv_ptr FD_SETSIZE at *
        omega
  have htv2 : load_timeval (sys_select_resolve cfg env m0 user_nfds.toNat u).mem tv_ptr =
      load_timeval (sys_select_wait cfg env m0 user_nfds.toNat u).mem tv_ptr := by
    simp only [load_timeval, load_tv_sec, load_tv_usec, load32, timeval.mk.injEq]
    exact ⟨load_bits_congr _ _ _ _ (fun q h1 h2 => hframe q h1 (by omega)),
      load_bits_congr _ _ _ _ (fun q h1 h2 => hframe q (by omega) (by omega))⟩
  have h1 : ¬(user_nfds < 0 ∨ user_nfds > (cfg.MAX_HANDLES : Int)) := by omega
  have hwrc : (sys_select_wait cfg env m0 user_nfds.toNat u).rc = some 0 := by rw [hwt2]
  have hres : sys_select cfg env m0 user_nfds u =
      ⟨some (sys_select_resolve cfg env m0 user_nfds.toNat u).total_ready_count,
        (sys_select_copy_in env u m0).trace ++ (sys_select_tv cfg env m0 u).trace ++
          (sys_select_count cfg env m0 user_nfds.toNat u).trace ++
          (sys_select_wait cfg env m0 user_nfds.toNat u).trace ++
          (sys_select_resolve cfg env m0 user_nfds.toNat u).trace ++ [Event.copy_to_user 3],
        (sys_select_resolve cfg env m0 user_nfds.toNat u).mem,
        ⟨(sys_select_resolve cfg env m0 user_nfds.toNat u).user_sets,
          some (load_timeval (sys_select_resolve cfg env m0 user_nfds.toNat u).mem tv_ptr)⟩⟩ := by
    simp [sys_select, h1, hci, hts, hcn, hwrc, hrs, htp, hnf 3]
  rw [hres]
  exact ⟨⟨_, rfl⟩, by simp only [htv2, hload]⟩

/-- Instance of the condition wakeup: `select(8, {5}, NULL, NULL, {10,0})` at
100 ticks per second, descriptor 5 ready at the first wakeup with 700 ticks remaining: the
call returns 1 and the timeout comes back as `{7, 0}`. -/
theorem sys_select_cond_wakeup_witness :
    (sys_select cfg16 env_wake mem_zero 8 (user_wait 10)).ret = some 1 ∧
    (sys_select cfg16 env_wake mem_zero 8 (user_wait 10)).user.tv = some ⟨7, 0⟩ :=
  have h := (sys_select_cond_wakeup cfg16 env_wake mem_zero 8 (user_wait 10) [] _ []
    (by decide) (by decide) (by decide) (by decide) (by decide) rfl (by decide)
    (by decide) rfl (by decide) rfl (by simp) rfl (by decide) (by decide)).2.2.2.2
    (Or.inl (by decide)) (fun _ => rfl)
  ⟨by decide, h.2⟩

/-! ## Traces of the passes, classified -/

theorem sys_select_copy_in_loop_trace_from (env : Env) (u : UserMem) (m0 : Mem) (n : Nat) :
    ∀ e ∈ (sys_select_copy_in_loop env u m0 n).trace, e.is_copy_from_user = true := by
  induction n with
  | zero => simp [sys_select_copy_in_loop]
  | succ k ih =>
    have hk : ∀ e ∈ [Event.copy_from_user k], e.is_copy_from_user = true := by
      intro e he
      simp only [List.mem_singleton] at he
      subst he
      rfl
    simp only [sys_select_copy_in_loop]
    split
    · exact ih
    · split
      · exact ih
      · split <;> exact mem_append_classified _ _ _ ih hk

theorem sys_select_copy_tv_trace_from (cfg : Config) (env : Env) (u : UserMem) (m : Mem) :
    ∀ e ∈ (sys_select_copy_tv cfg env u m).trace, e.is_copy_from_user = true := by
  unfold sys_select_copy_tv
  split
  · simp
  · split <;>
    · intro e he
      simp only [List.mem_singleton] at he
      subst he
      rfl

theorem select_count_kcond_loop_trace (v : Vfs) (m : Mem) (set : Nat)
    (get_cond : fs_handle → Option kcond) (s0 : CountState) (n : Nat)
    (h0 : ∀ e ∈ s0.trace, e.is_lookup = true) :
    ∀ e ∈ (select_count_kcond_loop v m set get_cond s0 n).trace, e.is_lookup = true := by
  induction n with
  | zero => simpa [select_count_kcond_loop] using h0
  | succ k ih =>
    have hk : ∀ e ∈ [Event.get_fs_handle k], e.is_lookup = true := by
      intro e he
      simp only [List.mem_singleton] at he
      subst he
      rfl
    simp only [select_count_kcond_loop]
    split
    · exact ih
    · split
      · exact ih
      · split
        · exact mem_append_classified _ _ _ ih hk
        · split <;> exact mem_append_classified _ _ _ ih hk

theorem sys_select_count_loop_trace (v : Vfs) (m : Mem) (nfds : Nat) (sets : Nat → Option Nat)
    (n : Nat) : ∀ e ∈ (sys_select_count_loop v m nfds sets n).trace, e.is_lookup = true := by
  induction n with
  | zero => simp [sys_select_count_loop]
  | succ k ih =>
    simp only [sys_select_count_loop]
    split
    · exact ih
    · cases hs : sets k with
      | none => simpa [select_count_kcond] using ih
      | some p =>
        simp only [select_count_kcond]
        exact select_count_kcond_loop_trace v m p _ _ nfds ih

theorem sys_select_count_trace (cfg : Config) (env : Env) (m0 : Mem) (nfds : Nat) (u : UserMem) :
    ∀ e ∈ (sys_select_count cfg env m0 nfds u).trace, e.is_lookup = true := by
  unfold sys_select_count
  simp only []
  split
  · exact sys_select_count_loop_trace _ _ _ _ _
  · simp

theorem select_wait_on_cond_loop_trace (cfg : Config) (nfds : Nat) (sets : Nat → Option Nat)
    (tv : Option Nat) (m : Mem) (ws : List Wakeup) :
    ∀ e ∈ (select_wait_on_cond_loop cfg nfds sets tv m ws).trace, e.is_wait_loop = true := by
  have hlook : ∀ (v : Vfs), ∀ e ∈ (count_ready_streams v m nfds sets).trace,
      e.is_wait_loop = true := by
    intro v e he
    have := count_ready_streams_trace v m nfds sets e he
    cases e <;> simp_all [Event.is_lookup, Event.is_wait_loop]
  induction ws with
  | nil =>
    intro e he
    simp only [select_wait_on_cond_loop, List.mem_singleton] at he
    subst he
    rfl
  | cons w rest ih =>
    cases tv with
    | none =>
      simp only [select_wait_on_cond_loop]
      split
      · intro e he
        simp only [List.cons_append, List.mem_cons, List.mem_append] at he
        rcases he with he | he | he
        · subst he
          rfl
        · exact hlook _ e he
        · exact ih e he
      · intro e he
        simp only [List.mem_cons] at he
        rcases he with he | he
        · subst he
          rfl
        · exact hlook _ e he
    | some t =>
      simp only [select_wait_on_cond_loop]
      split
      · intro e he
        simp only [List.mem_cons, List.mem_singleton, List.not_mem_nil, or_false] at he
        rcases he with he | he <;> subst he <;> rfl
      · split
        · intro e he
          simp only [List.cons_append, List.mem_cons, List.mem_append] at he
          rcases he with he | he | he
          · subst he
            rfl
          · exact hlook _ e he
          · exact ih e he
        · intro e he
          simp only [List.cons_append, List.mem_cons, List.mem_append, List.mem_singleton,
            List.not_mem_nil, or_false] at he
          rcases he with he | he | he
          · subst he
            rfl
          · exact hlook _ e he
          · subst he
            rfl

theorem is_wait_path_of_registration (e : Event) (h : e.is_registration = true) :
    e.is_wait_path = true := by
  cases e <;> simp_all [Event.is_registration, Event.is_wait_path]

theorem is_wait_path_of_wait_loop (e : Event) (h : e.is_wait_loop = true) :
    e.is_wait_path = true := by
  cases e <;> simp_all [Event.is_wait_loop, Event.is_wait_path]

theorem no_timer_of_registration (e : Event) (h : e.is_registration = true) :
    e.is_timer_set = false ∧ e.is_sleep = false := by
  cases e <;> simp_all [Event.is_registration, Event.is_timer_set, Event.is_sleep]

/-! ## The shape of the result of `select_wait_on_cond` -/

theorem select_wait_on_cond_enomem (cfg : Config) (env : Env) (m : Mem) (nfds : Nat)
    (sets : Nat → Option Nat) (tv : Option Nat) (cond_cnt ticks : Nat)
    (ha : env.alloc_fail = true) :
    select_wait_on_cond cfg env m nfds sets tv cond_cnt ticks =
      ⟨some (-ENOMEM), [Event.allocate_mobj_waiter cond_cnt], m⟩ := by
  simp [select_wait_on_cond, ha]

theorem select_wait_on_cond_abort (cfg : Config) (env : Env) (m : Mem) (nfds : Nat)
    (sets : Nat → Option Nat) (tv : Option Nat) (cond_cnt ticks : Nat)
    (ha : env.alloc_fail = false)
    (hreg : (select_wait_on_cond_set_loop cfg env.vfs_set m nfds cond_cnt sets 3).rc =
      some (-EBADF)) :
    select_wait_on_cond cfg env m nfds sets tv cond_cnt ticks =
      ⟨some (-EBADF), Event.allocate_mobj_waiter cond_cnt ::
        (select_wait_on_cond_set_loop cfg env.vfs_set m nfds cond_cnt sets 3).trace ++
        [Event.free_mobj_waiter], m⟩ := by
  simp [select_wait_on_cond, ha, hreg, EBADF]

theorem select_wait_on_cond_panic (cfg : Config) (env : Env) (m : Mem) (nfds : Nat)
    (sets : Nat → Option Nat) (tv : Option Nat) (cond_cnt ticks : Nat)
    (ha : env.alloc_fail = false)
    (hreg : (select_wait_on_cond_set_loop cfg env.vfs_set m nfds cond_cnt sets 3).rc = none) :
    select_wait_on_cond cfg env m nfds sets tv cond_cnt ticks =
      ⟨none, Event.allocate_mobj_waiter cond_cnt ::
        (select_wait_on_cond_set_loop cfg env.vfs_set m nfds cond_cnt sets 3).trace, m⟩ := by
  simp [select_wait_on_cond, ha, hreg]

theorem select_wait_on_cond_assert (cfg : Config) (env : Env) (m : Mem) (nfds : Nat)
    (sets : Nat → Option Nat) (tv : Option Nat) (cond_cnt ticks : Nat)
    (ha : env.alloc_fail = false)
    (hreg : (select_wait_on_cond_set_loop cfg env.vfs_set m nfds cond_cnt sets 3).rc = some 0)
    (hd : (tv.isSome && cfg.DEBUG && !decide (ticks > 0)) = true) :
    select_wait_on_cond cfg env m nfds sets tv cond_cnt ticks =
      ⟨none, Event.allocate_mobj_waiter cond_cnt ::
        (select_wait_on_cond_set_loop cfg env.vfs_set m nfds cond_cnt sets 3).trace ++
        [Event.assert_failed], m⟩ := by
  simp [select_wait_on_cond, ha, hreg, hd]

theorem select_wait_on_cond_reaches_loop (cfg : Config) (env : Env) (m : Mem) (nfds : Nat)
    (sets : Nat → Option Nat) (tv : Option Nat) (cond_cnt ticks : Nat)
    (ha : env.alloc_fail = false)
    (hreg : (select_wait_on_cond_set_loop cfg env.vfs_set m nfds cond_cnt sets 3).rc = some 0)
    (hd : (tv.isSome && cfg.DEBUG && !decide (ticks > 0)) = false) :
    select_wait_on_cond cfg env m nfds sets tv cond_cnt ticks =
      ⟨if (select_wait_on_cond_loop cfg nfds sets tv m env.wakeups).done then some 0 else none,
        Event.allocate_mobj_waiter cond_cnt ::
          (select_wait_on_cond_set_loop cfg env.vfs_set m nfds cond_cnt sets 3).trace ++
          (if tv.isSome then [Event.task_set_wakeup_timer ticks] else []) ++
          (select_wait_on_cond_loop cfg nfds sets tv m env.wakeups).trace ++
          (if (select_wait_on_cond_loop cfg nfds sets tv m env.wakeups).done then
            [Event.free_mobj_waiter] else []),
        (select_wait_on_cond_loop cfg nfds sets tv m env.wakeups).mem⟩ := by
  by_cases hl : (select_wait_on_cond_loop cfg nfds sets tv m env.wakeups).done = true
  · simp [select_wait_on_cond, ha, hreg, hd, hl]
  · simp [select_wait_on_cond, ha, hreg, hd, hl]

theorem select_wait_on_cond_trace (cfg : Config) (env : Env) (m : Mem) (nfds : Nat)
    (sets : Nat → Option Nat) (tv : Option Nat) (cond_cnt ticks : Nat) :
    ∀ e ∈ (select_wait_on_cond cfg env m nfds sets tv cond_cnt ticks).trace,
      e.is_wait_path = true := by
  have hreg_tr : ∀ e ∈ (select_wait_on_cond_set_loop cfg env.vfs_set m nfds cond_cnt sets 3).trace,
      e.is_wait_path = true := fun e he =>
    is_wait_path_of_registration e (select_wait_on_cond_set_loop_trace _ _ _ _ _ _ _ e he)
  have hlp_tr : ∀ e ∈ (select_wait_on_cond_loop cfg nfds sets tv m env.wakeups).trace,
      e.is_wait_path = true := fun e he =>
    is_wait_path_of_wait_loop e (select_wait_on_cond_loop_trace _ _ _ _ _ _ e he)
  have hone : ∀ (x : Event), x.is_wait_path = true → ∀ e ∈ [x], e.is_wait_path = true := by
    intro x hx e he
    simp only [List.mem_singleton] at he
    subst he
    exact hx
  have hcons : ∀ (x : Event) (l : List Event), x.is_wait_path = true →
      (∀ e ∈ l, e.is_wait_path = true) → ∀ e ∈ x :: l, e.is_wait_path = true := by
    intro x l hx hl e he
    rcases List.mem_cons.mp he with h | h
    · subst h
      exact hx
    · exact hl e h
  cases ha : env.alloc_fail with
  | true =>
    rw [select_wait_on_cond_enomem _ _ _ _ _ _ _ _ ha]
    exact hone _ rfl
  | false =>
    rcases select_wait_on_cond_set_loop_rc cfg env.vfs_set m nfds cond_cnt sets 3 with h | h | h
    · rw [select_wait_on_cond_panic _ _ _ _ _ _ _ _ ha h]
      exact hcons _ _ rfl hreg_tr
    · cases hd : (tv.isSome && cfg.DEBUG && !decide (ticks > 0)) with
      | true =>
        rw [select_wait_on_cond_assert _ _ _ _ _ _ _ _ ha h hd]
        exact hcons _ _ rfl (mem_append_classified _ _ _ hreg_tr (hone _ rfl))
      | false =>
        rw [select_wait_on_cond_reaches_loop _ _ _ _ _ _ _ _ ha h hd]
        refine hcons _ _ rfl (mem_append_classified _ _ _ (mem_append_classified _ _ _
          (mem_append_classified _ _ _ hreg_tr ?_) hlp_tr) ?_)
        · split
          · exact hone _ rfl
          · simp
        · split
          · exact hone _ rfl
          · simp
    · rw [select_wait_on_cond_abort _ _ _ _ _ _ _ _ ha h]
      exact hcons _ _ rfl (mem_append_classified _ _ _ hreg_tr (hone _ rfl))

/-! ## C12: the waiter is freed exactly once -/

/-- C12: whenever `allocate_mobj_waiter` succeeds and `select_wait_on_cond`
returns, it returns 0 or `-EBADF`, and `free_mobj_waiter` is called exactly
once, as the last call of the function (hence after the last
`kernel_sleep_on_waiter`); when registration aborts with `-EBADF` no timer has
been armed and no sleep has happened. -/
theorem select_wait_on_cond_frees_once (cfg : Config) (env : Env) (m : Mem) (nfds : Nat)
    (sets : Nat → Option Nat) (tv : Option Nat) (cond_cnt ticks : Nat) (r : Int)
    (ha : env.alloc_fail = false)
    (hr : (select_wait_on_cond cfg env m nfds sets tv cond_cnt ticks).rc = some r) :
    (r = 0 ∨ r = -EBADF) ∧
    (∃ l, (select_wait_on_cond cfg env m nfds sets tv cond_cnt ticks).trace =
        l ++ [Event.free_mobj_waiter] ∧ Event.free_mobj_waiter ∉ l) ∧
    (select_wait_on_cond cfg env m nfds sets tv cond_cnt ticks).trace.count
      Event.free_mobj_waiter = 1 ∧
    (r = -EBADF → ∀ e ∈ (select_wait_on_cond cfg env m nfds sets tv cond_cnt ticks).trace,
      e.is_timer_set = false ∧ e.is_sleep = false) := by
  have hreg_tr := select_wait_on_cond_set_loop_trace cfg env.vfs_set m nfds cond_cnt sets 3
  have hlp_tr := select_wait_on_cond_loop_trace cfg nfds sets tv m env.wakeups
  have hcount : ∀ (l : List Event), Event.free_mobj_waiter ∉ l →
      (l ++ [Event.free_mobj_waiter]).count Event.free_mobj_waiter = 1 := by
    intro l hl
    rw [List.count_append, List.count_eq_zero_of_not_mem hl]
    simp
  rcases select_wait_on_cond_set_loop_rc cfg env.vfs_set m nfds cond_cnt sets 3 with h | h | h
  · rw [select_wait_on_cond_panic _ _ _ _ _ _ _ _ ha h] at hr
    exact absurd hr (by simp)
  · cases hd : (tv.isSome && cfg.DEBUG && !decide (ticks > 0)) with
    | true =>
      rw [select_wait_on_cond_assert _ _ _ _ _ _ _ _ ha h hd] at hr
      exact absurd hr (by simp)
    | false =>
      rw [select_wait_on_cond_reaches_loop _ _ _ _ _ _ _ _ ha h hd] at hr ⊢
      cases hl : (select_wait_on_cond_loop cfg nfds sets tv m env.wakeups).done with
      | false => simp [hl] at hr
      | true =>
        simp only [hl, if_true, Option.some.injEq] at hr ⊢
        have hnot : Event.free_mobj_waiter ∉ Event.allocate_mobj_waiter cond_cnt ::
            (select_wait_on_cond_set_loop cfg env.vfs_set m nfds cond_cnt sets 3).trace ++
            (if tv.isSome then [Event.task_set_wakeup_timer ticks] else []) ++
            (select_wait_on_cond_loop cfg nfds sets tv m env.wakeups).trace := by
          simp only [List.cons_append, List.mem_cons, List.mem_append, not_or]
          refine ⟨by simp, ⟨?_, ?_⟩, ?_⟩
          · intro hm
            have := hreg_tr _ hm
            simp [Event.is_registration] at this
          · split <;> simp
          · intro hm
            have := hlp_tr _ hm
            simp [Event.is_wait_loop] at this
        refine ⟨Or.inl hr.symm, ⟨_, rfl, hnot⟩, hcount _ hnot, ?_⟩
        intro hb
        rw [← hr] at hb
        simp [EBADF] at hb
  · rw [select_wait_on_cond_abort _ _ _ _ _ _ _ _ ha h] at hr ⊢
    simp only [Option.some.injEq] at hr
    have hnot : Event.free_mobj_waiter ∉ Event.allocate_mobj_waiter cond_cnt ::
        (select_wait_on_cond_set_loop cfg env.vfs_set m nfds cond_cnt sets 3).trace := by
      simp only [List.mem_cons, not_or]
      refine ⟨by simp, ?_⟩
      intro hm
      have := hreg_tr _ hm
      simp [Event.is_registration] at this
    refine ⟨Or.inr hr.symm, ⟨_, rfl, hnot⟩, hcount _ hnot, ?_⟩
    intro _ e he
    simp only [List.cons_append, List.mem_cons, List.mem_append, List.mem_singleton,
      List.not_mem_nil, or_false] at he
    rcases he with he | he | he
    · subst he
      exact ⟨rfl, rfl⟩
    · exact no_timer_of_registration e (hreg_tr _ he)
    · subst he
      exact ⟨rfl, rfl⟩

/-! ## C13: error returns happen before any copy to user memory -/

theorem mem_append_all (P : Event → Prop) (l1 l2 : List Event)
    (h1 : ∀ e ∈ l1, P e) (h2 : ∀ e ∈ l2, P e) : ∀ e ∈ l1 ++ l2, P e := by
  intro e he
  rcases List.mem_append.mp he with h | h
  · exact h1 e h
  · exact h2 e h

theorem not_copy_to_user_of_from (e : Event) (h : e.is_copy_from_user = true) :
    e.is_copy_to_user = false := by
  cases e <;> simp_all [Event.is_copy_from_user, Event.is_copy_to_user]

theorem not_copy_to_user_of_lookup (e : Event) (h : e.is_lookup = true) :
    e.is_copy_to_user = false := by
  cases e <;> simp_all [Event.is_lookup, Event.is_copy_to_user]

theorem not_copy_to_user_of_wait_path (e : Event) (h : e.is_wait_path = true) :
    e.is_copy_to_user = false := by
  cases e <;> simp_all [Event.is_wait_path, Event.is_copy_to_user]

theorem sys_select_wait_trace (cfg : Config) (env : Env) (m0 : Mem) (nfds : Nat) (u : UserMem) :
    ∀ e ∈ (sys_select_wait cfg env m0 nfds u).trace, e.is_copy_to_user = false := by
  unfold sys_select_wait
  simp only []
  split
  · intro e he
    exact not_copy_to_user_of_wait_path e (select_wait_on_cond_trace _ _ _ _ _ _ _ _ e he)
  · split
    · intro e he
      simp only [List.mem_singleton] at he
      subst he
      rfl
    · simp

theorem sys_select_copy_in_trace_to (env : Env) (u : UserMem) (m0 : Mem) :
    ∀ e ∈ (sys_select_copy_in env u m0).trace, e.is_copy_to_user = false := fun e he =>
  not_copy_to_user_of_from e (sys_select_copy_in_loop_trace_from env u m0 3 e he)

theorem sys_select_tv_trace_to (cfg : Config) (env : Env) (m0 : Mem) (u : UserMem) :
    ∀ e ∈ (sys_select_tv cfg env m0 u).trace, e.is_copy_to_user = false := fun e he =>
  not_copy_to_user_of_from e (sys_select_copy_tv_trace_from cfg env u _ e he)

theorem sys_select_count_trace_to (cfg : Config) (env : Env) (m0 : Mem) (nfds : Nat)
    (u : UserMem) :
    ∀ e ∈ (sys_select_count cfg env m0 nfds u).trace, e.is_copy_to_user = false := fun e he =>
  not_copy_to_user_of_lookup e (sys_select_count_trace cfg env m0 nfds u e he)

theorem sys_select_copy_in_loop_fault (env : Env) (u : UserMem) (m0 : Mem) (n k : Nat)
    (hk : k < n) (hs : (u.sets k).isSome = true) (hf : env.copy_from_user_fault k = true) :
    (sys_select_copy_in_loop env u m0 n).rc = -EFAULT := by
  induction n with
  | zero => omega
  | succ j ih =>
    simp only [sys_select_copy_in_loop]
    rcases sys_select_copy_in_loop_rc env u m0 j with h | h
    · have hkj : k = j := by
        by_contra hne
        have := ih (by omega)
        rw [h] at this
        simp [EFAULT] at this
      subst hkj
      cases hu : u.sets k with
      | none => simp [hu] at hs
      | some bits => simp [h, hf]
    · simp [h, EFAULT]

/-- Every error other than `-EFAULT` leaves the user objects untouched and is
returned before any `copy_to_user`. -/
theorem sys_select_error_user_unchanged (cfg : Config) (env : Env) (m0 : Mem) (n : Int)
    (u : UserMem) (r : Int) (hret : (sys_select cfg env m0 n u).ret = some r)
    (hr : r = -EINVAL ∨ r = -EBADF ∨ r = -ENOMEM) :
    (sys_select cfg env m0 n u).user = u ∧
    (∀ e ∈ (sys_select cfg env m0 n u).trace, e.is_copy_to_user = false) ∧
    (r = -EBADF → (sys_select_count cfg env m0 n.toNat u).rc = -EBADF ∨
      ((sys_select_count cfg env m0 n.toNat u).rc = 0 ∧
        (sys_select_wait cfg env m0 n.toNat u).rc = some (-EBADF))) := by
  have hci_tr := sys_select_copy_in_trace_to env u m0
  have hts_tr := sys_select_tv_trace_to cfg env m0 u
  have hcn_tr := sys_select_count_trace_to cfg env m0 n.toNat u
  have hwt_tr := sys_select_wait_trace cfg env m0 n.toNat u
  unfold sys_select at hret ⊢
  by_cases h1 : n < 0 ∨ n > (cfg.MAX_HANDLES : Int)
  · simp only [h1, if_true, Option.some.injEq] at hret ⊢
    refine ⟨trivial, by simp, ?_⟩
    intro hb
    rw [← hret] at hb
    simp [EINVAL, EBADF] at hb
  simp only [h1, if_false] at hret ⊢
  by_cases h2 : (sys_select_copy_in env u m0).rc = 0
  swap
  · rcases sys_select_copy_in_loop_rc env u m0 3 with h' | h'
    · exact absurd h' h2
    · simp only [h2, ne_eq, not_false_eq_true, if_true, Option.some.injEq] at hret
      rw [show (sys_select_copy_in env u m0).rc = -EFAULT from h'] at hret
      rw [← hret] at hr
      simp [EFAULT, EINVAL, EBADF, ENOMEM] at hr
  simp only [h2, ne_eq, not_true_eq_false, if_false] at hret ⊢
  by_cases h3 : (sys_select_tv cfg env m0 u).rc = 0
  swap
  · rcases sys_select_copy_tv_rc cfg env u (sys_select_copy_in env u m0).mem with h' | h'
    · exact absurd h' h3
    · simp only [h3, not_false_eq_true, if_true, Option.some.injEq] at hret
      rw [show (sys_select_tv cfg env m0 u).rc = -EFAULT from h'] at hret
      rw [← hret] at hr
      simp [EFAULT, EINVAL, EBADF, ENOMEM] at hr
  simp only [h3, not_true_eq_false, if_false] at hret ⊢
  by_cases h4 : (sys_select_count cfg env m0 n.toNat u).rc = 0
  swap
  · simp only [h4, not_false_eq_true, if_true] at hret ⊢
    refine ⟨trivial, mem_append_all _ _ _ (mem_append_all _ _ _ hci_tr hts_tr) hcn_tr, ?_⟩
    intro _
    rcases sys_select_count_rc cfg env m0 n.toNat u with h' | h'
    · exact absurd h' h4
    · exact Or.inl h'
  simp only [h4, not_true_eq_false, if_false] at hret ⊢
  by_cases h5 : (sys_select_wait cfg env m0 n.toNat u).rc = some 0
  swap
  · simp only [h5, not_false_eq_true, if_true] at hret ⊢
    refine ⟨trivial, mem_append_all _ _ _ (mem_append_all _ _ _
      (mem_append_all _ _ _ hci_tr hts_tr) hcn_tr) hwt_tr, ?_⟩
    intro hb
    right
    rw [hret, hb]
    exact ⟨trivial, rfl⟩
  simp only [h5, not_true_eq_false, if_false] at hret ⊢
  exfalso
  by_cases h6 : (sys_select_resolve cfg env m0 n.toNat u).rc = 0
  swap
  · rcases sys_select_resolve_loop_rc env n.toNat (sys_select_copy_in env u m0).sets u
      (sys_select_wait cfg env m0 n.toNat u).mem 3 with h' | h'
    · exact absurd h' h6
    · simp only [h6, not_false_eq_true, if_true, Option.some.injEq] at hret
      rw [show (sys_select_resolve cfg env m0 n.toNat u).rc = -EFAULT from h'] at hret
      rw [← hret] at hr
      simp [EFAULT, EINVAL, EBADF, ENOMEM] at hr
  simp only [h6, not_true_eq_false, if_false] at hret
  cases htv : (sys_select_tv cfg env m0 u).tv with
  | none =>
    simp only [htv, Option.some.injEq] at hret
    simp only [EINVAL, EBADF, ENOMEM] at hr
    omega
  | some t =>
    simp only [htv] at hret
    by_cases hf : env.copy_to_user_fault 3 = true
    · simp only [hf, if_true, Option.some.injEq] at hret
      rw [← hret] at hr
      simp [EFAULT, EINVAL, EBADF, ENOMEM] at hr
    · simp only [hf, Bool.false_eq_true, if_false, Option.some.injEq] at hret
      simp only [EINVAL, EBADF, ENOMEM] at hr
      omega

/-- C13: every error return of `sys_select` other than a copy-out fault
happens before any `copy_to_user` and leaves the user objects unchanged:
`-EINVAL` for `nfds` out of range (nothing called); `-EFAULT` when the
`copy_from_user` of a supplied bitmap or of the timeout fails (only
`copy_from_user` calls were made); `-EBADF` from counting or from registration;
`-ENOMEM` when `cond_cnt > 0` and the waiter allocation fails (the allocation
is the last call: no timer, no sleep). -/
theorem sys_select_errors_before_copy_out (cfg : Config) (env : Env) (m0 : Mem)
    (user_nfds : Int) (u : UserMem) :
    (∀ r, (sys_select cfg env m0 user_nfds u).ret = some r →
      (r = -EINVAL ∨ r = -EBADF ∨ r = -ENOMEM) →
      (sys_select cfg env m0 user_nfds u).user = u ∧
      ∀ e ∈ (sys_select cfg env m0 user_nfds u).trace, e.is_copy_to_user = false) ∧
    ((user_nfds < 0 ∨ user_nfds > (cfg.MAX_HANDLES : Int)) →
      (sys_select cfg env m0 user_nfds u).ret = some (-EINVAL) ∧
      (sys_select cfg env m0 user_nfds u).trace = []) ∧
    (0 ≤ user_nfds → user_nfds ≤ (cfg.MAX_HANDLES : Int) →
      ((∃ k, k < 3 ∧ (u.sets k).isSome = true ∧ env.copy_from_user_fault k = true) ∨
        (u.tv.isSome = true ∧ env.copy_from_user_fault 3 = true)) →
      (sys_select cfg env m0 user_nfds u).ret = some (-EFAULT) ∧
      (sys_select cfg env m0 user_nfds u).user = u ∧
      ∀ e ∈ (sys_select cfg env m0 user_nfds u).trace, e.is_copy_from_user = true) ∧
    ((sys_select cfg env m0 user_nfds u).ret = some (-EBADF) →
      (sys_select_count cfg env m0 user_nfds.toNat u).rc = -EBADF ∨
      ((sys_select_count cfg env m0 user_nfds.toNat u).rc = 0 ∧
        (sys_select_wait cfg env m0 user_nfds.toNat u).rc = some (-EBADF))) ∧
    (0 ≤ user_nfds → user_nfds ≤ (cfg.MAX_HANDLES : Int) →
      (sys_select_copy_in env u m0).rc = 0 → (sys_select_tv cfg env m0 u).rc = 0 →
      (sys_select_count cfg env m0 user_nfds.toNat u).rc = 0 →
      0 < (sys_select_count cfg env m0 user_nfds.toNat u).cond_cnt →
      env.alloc_fail = true →
      (sys_select cfg env m0 user_nfds u).ret = some (-ENOMEM) ∧
      (sys_select cfg env m0 user_nfds u).user = u ∧
      (sys_select cfg env m0 user_nfds u).trace =
        (sys_select_copy_in env u m0).trace ++ (sys_select_tv cfg env m0 u).trace ++
        (sys_select_count cfg env m0 user_nfds.toNat u).trace ++
        [Event.allocate_mobj_waiter (sys_select_count cfg env m0 user_nfds.toNat u).cond_cnt]) := by
  refine ⟨?_, ?_, ?_, ?_, ?_⟩
  · intro r hret hr
    have := sys_select_error_user_unchanged cfg env m0 user_nfds u r hret hr
    exact ⟨this.1, this.2.1⟩
  · intro h
    simp [sys_select, h]
  · intro h0 hmax hfault
    have h1 : ¬(user_nfds < 0 ∨ user_nfds > (cfg.MAX_HANDLES : Int)) := by omega
    have hci_tr := sys_select_copy_in_loop_trace_from env u m0 3
    have hts_tr := sys_select_copy_tv_trace_from cfg env u (sys_select_copy_in env u m0).mem
    by_cases h2 : (sys_select_copy_in env u m0).rc = 0
    swap
    · rcases sys_select_copy_in_loop_rc env u m0 3 with h' | h'
      · exact absurd h' h2
      · have h'' : (sys_select_copy_in env u m0).rc = -EFAULT := h'
        simp only [sys_select, h1, if_false, h2, ne_eq, not_false_eq_true, if_true]
        exact ⟨by rw [h''], trivial, hci_tr⟩
    · have h3 : (sys_select_tv cfg env m0 u).rc = -EFAULT := by
        rcases hfault with ⟨k, hk, hs, hf⟩ | ⟨hs, hf⟩
        · have := sys_select_copy_in_loop_fault env u m0 3 k hk hs hf
          rw [show (sys_select_copy_in_loop env u m0 3).rc = (sys_select_copy_in env u m0).rc
            from rfl, h2] at this
          simp [EFAULT] at this
        · cases hu : u.tv with
          | none => simp [hu] at hs
          | some t => simp [sys_select_tv, sys_select_copy_tv, hu, hf]
      have h3' : (sys_select_tv cfg env m0 u).rc ≠ 0 := by
        rw [h3]
        simp [EFAULT]
      simp only [sys_select, h1, if_false, h2, ne_eq, not_true_eq_false, h3', not_false_eq_true,
        if_true]
      exact ⟨by rw [h3], trivial, mem_append_all _ _ _ hci_tr hts_tr⟩
  · intro hret
    exact (sys_select_error_user_unchanged cfg env m0 user_nfds u _ hret
      (Or.inr (Or.inl rfl))).2.2 rfl
  · intro h0 hmax hci hts hcn hcc ha
    have h1 : ¬(user_nfds < 0 ∨ user_nfds > (cfg.MAX_HANDLES : Int)) := by omega
    have hwt : sys_select_wait cfg env m0 user_nfds.toNat u =
        ⟨some (-ENOMEM),
          [Event.allocate_mobj_waiter (sys_select_count cfg env m0 user_nfds.toNat u).cond_cnt],
          (sys_select_tv cfg env m0 u).mem⟩ := by
      unfold sys_select_wait
      simp only [hcc, if_true]
      exact select_wait_on_cond_enomem _ _ _ _ _ _ _ _ ha
    simp [sys_select, h1, hci, hts, hcn, hwt, ENOMEM]

/-! ## C11: what a successful call returns and copies back -/

theorem count_copy_to_user_zero (l : List Event) (h : ∀ e ∈ l, e.is_copy_to_user = false)
    (j : Nat) : l.count (Event.copy_to_user j) = 0 := by
  apply List.count_eq_zero_of_not_mem
  intro hm
  have := h _ hm
  simp [Event.is_copy_to_user] at this

theorem sys_select_resolve_loop_total (env : Env) (nfds : Nat) (sets : Nat → Option Nat)
    (u : UserMem) (m0 : Mem) (n : Nat) (hn : nfds ≤ FD_SETSIZE)
    (hsets : ∀ k, k < n → sets k = (u.sets k).map (fun _ => sets_ptr k))
    (h : (sys_select_resolve_loop env nfds sets u m0 n).rc = 0) :
    (sys_select_resolve_loop env nfds sets u m0 n).total_ready_count =
      ready_total env.vfs_ready m0 nfds (fun k => (u.sets k).isSome) n := by
  induction n with
  | zero => rfl
  | succ j ih =>
    have hp := sys_select_resolve_loop_rc_prev env nfds sets u m0 j h
    have hsp : ∀ k, k < j → sets k = (u.sets k).map (fun _ => sets_ptr k) :=
      fun k hk => hsets k (Nat.lt_succ_of_lt hk)
    have ih := ih hsp hp
    have hsj := hsets j (Nat.lt_succ_self j)
    simp only [ready_total]
    cases hu : u.sets j with
    | none =>
      rw [hu] at hsj
      rw [(sys_select_resolve_loop_succ_none env nfds sets u m0 j hu hsj hp).2.2.1, ih]
      simp [set_ready_count]
    | some bits =>
      rw [hu] at hsj
      have hsome : (u.sets j).isSome = true := by simp [hu]
      have hf := sys_select_resolve_loop_fault env nfds sets u m0 j (sets_ptr j) hsome hsj h
      rw [(sys_select_resolve_loop_succ_some env nfds sets u m0 j (sets_ptr j) hsome hsj hp
        hf).2.2.1, ih, select_set_ready_loop_tot]
      simp only [set_ready_count, Option.isSome_some, if_true, FD_ISSET]
      congr 1
      apply count_bits_below_congr
      intro i hi
      rw [sys_select_resolve_loop_mem_frame]
      intro k hk p hp2
      rw [hsp k hk] at hp2
      cases huk : u.sets k with
      | none => simp [huk] at hp2
      | some bk =>
        simp only [huk, Option.map_some', Option.some.injEq] at hp2
        subst hp2
        right
        unfold sets_ptr FD_SETSIZE at *
        have : (k + 1) * 1024 ≤ j * 1024 := Nat.mul_le_mul_right _ (by omega)
        omega

theorem sys_select_resolve_loop_count (env : Env) (nfds : Nat) (sets : Nat → Option Nat)
    (u : UserMem) (m0 : Mem) (n : Nat)
    (hsets : ∀ k, k < n → sets k = (u.sets k).map (fun _ => sets_ptr k))
    (h : (sys_select_resolve_loop env nfds sets u m0 n).rc = 0) (j : Nat) :
    (sys_select_resolve_loop env nfds sets u m0 n).trace.count (Event.copy_to_user j) =
      if j < n ∧ (u.sets j).isSome = true then 1 else 0 := by
  induction n with
  | zero => simp [sys_select_resolve_loop]
  | succ i ih =>
    have hp := sys_select_resolve_loop_rc_prev env nfds sets u m0 i h
    have ih := ih (fun k hk => hsets k (Nat.lt_succ_of_lt hk)) hp
    have hsi := hsets i (Nat.lt_succ_self i)
    cases hu : u.sets i with
    | none =>
      rw [hu] at hsi
      rw [(sys_select_resolve_loop_succ_none env nfds sets u m0 i hu hsi hp).2.2.2.1, ih]
      by_cases hji : j = i
      · subst hji
        simp [hu]
      · have : j < i + 1 ↔ j < i := by omega
        simp [this]
    | some bits =>
      rw [hu] at hsi
      have hsome : (u.sets i).isSome = true := by simp [hu]
      have hf := sys_select_resolve_loop_fault env nfds sets u m0 i (sets_ptr i) hsome hsi h
      rw [(sys_select_resolve_loop_succ_some env nfds sets u m0 i (sets_ptr i) hsome hsi hp
        hf).2.2.2.1, List.count_append, List.count_append, ih]
      have hz : (select_set_ready_loop env.vfs_ready (sets_ptr i) (env.vfs_ready.grf i)
          (sys_select_resolve_loop env nfds sets u m0 i).mem nfds).trace.count
          (Event.copy_to_user j) = 0 := by
        apply List.count_eq_zero_of_not_mem
        intro hm
        obtain ⟨fd, hfd⟩ := select_set_ready_loop_trace _ _ _ _ _ _ hm
        exact absurd hfd (by simp)
      rw [hz]
      by_cases hji : j = i
      · subst hji
        simp [hu]
      · have : j < i + 1 ↔ j < i := by omega
        have hne : ¬(i = j) := fun e => hji e.symm
        simp [this, hji, hne]

/-- C11: for every successful call of `sys_select` (return value `c >= 0`): `c`
is the sum of the ready counts of the three sets as the scratch buffer holds
them when resolution starts (an absent set counts 0, a descriptor ready in two
sets counts twice); `copy_to_user` is called once for every supplied set and
never for an absent one; the timeout is copied back iff it was supplied; absent
objects stay absent.  Moreover `sys_select(0, NULL, NULL, NULL, NULL)` returns
0 and calls nothing. -/
theorem sys_select_success_contract (cfg : Config) (env : Env) (m0 : Mem) (user_nfds : Int)
    (u : UserMem) (c : Int) (hM : cfg.MAX_HANDLES ≤ FD_SETSIZE)
    (hret : (sys_select cfg env m0 user_nfds u).ret = some c) (hc : 0 ≤ c) :
    c = ((set_ready_count env.vfs_ready (sys_select_wait cfg env m0 user_nfds.toNat u).mem
            user_nfds.toNat 0 (u.sets 0).isSome +
          set_ready_count env.vfs_ready (sys_select_wait cfg env m0 user_nfds.toNat u).mem
            user_nfds.toNat 1 (u.sets 1).isSome +
          set_ready_count env.vfs_ready (sys_select_wait cfg env m0 user_nfds.toNat u).mem
            user_nfds.toNat 2 (u.sets 2).isSome : Nat) : Int) ∧
    (∀ k, k < 3 → (sys_select cfg env m0 user_nfds u).trace.count (Event.copy_to_user k) =
      if (u.sets k).isSome = true then 1 else 0) ∧
    (sys_select cfg env m0 user_nfds u).trace.count (Event.copy_to_user 3) =
      (if u.tv.isSome = true then 1 else 0) ∧
    (∀ k, k < 3 →
      ((sys_select cfg env m0 user_nfds u).user.sets k).isSome = (u.sets k).isSome) ∧
    (sys_select cfg env m0 user_nfds u).user.tv.isSome = u.tv.isSome ∧
    (sys_select cfg env m0 0 user_null).ret = some 0 ∧
    (sys_select cfg env m0 0 user_null).trace = [] := by
  obtain ⟨h0, hle, hci, hts, hcn, hwt, hrs, hcv, hus⟩ :=
    sys_select_ret_nonneg cfg env m0 user_nfds u c hret hc
  have hn : user_nfds.toNat ≤ FD_SETSIZE := by omega
  have hsets := sys_select_copy_in_sets env u m0 hci
  have htot := sys_select_resolve_loop_total env user_nfds.toNat _ u _ 3 hn hsets hrs
  have hcnt := sys_select_resolve_loop_count env user_nfds.toNat _ u _ 3 hsets hrs
  obtain ⟨_, hsome, _, _⟩ :=
    sys_select_resolve_loop_inv env user_nfds.toNat _ u _ 3 hn hsets hrs
  have h1 : ¬(user_nfds < 0 ∨ user_nfds > (cfg.MAX_HANDLES : Int)) := by omega
  have hpre : ∀ j, ((sys_select_copy_in env u m0).trace ++ (sys_select_tv cfg env m0 u).trace ++
      (sys_select_count cfg env m0 user_nfds.toNat u).trace ++
      (sys_select_wait cfg env m0 user_nfds.toNat u).trace).count (Event.copy_to_user j) = 0 :=
    count_copy_to_user_zero _ (mem_append_all _ _ _ (mem_append_all _ _ _
      (mem_append_all _ _ _ (sys_select_copy_in_trace_to env u m0)
        (sys_select_tv_trace_to cfg env m0 u))
      (sys_select_count_trace_to cfg env m0 user_nfds.toNat u))
      (sys_select_wait_trace cfg env m0 user_nfds.toNat u))
  have hcnt2 : ∀ j, (sys_select_resolve cfg env m0 user_nfds.toNat u).trace.count
      (Event.copy_to_user j) = if j < 3 ∧ (u.sets j).isSome = true then 1 else 0 := hcnt
  have hsum : c = ((set_ready_count env.vfs_ready
      (sys_select_wait cfg env m0 user_nfds.toNat u).mem user_nfds.toNat 0 (u.sets 0).isSome +
      set_ready_count env.vfs_ready (sys_select_wait cfg env m0 user_nfds.toNat u).mem
        user_nfds.toNat 1 (u.sets 1).isSome +
      set_ready_count env.vfs_ready (sys_select_wait cfg env m0 user_nfds.toNat u).mem
        user_nfds.toNat 2 (u.sets 2).isSome : Nat) : Int) := by
    rw [hcv]
    have htot2 : (sys_select_resolve cfg env m0 user_nfds.toNat u).total_ready_count =
        ready_total env.vfs_ready (sys_select_wait cfg env m0 user_nfds.toNat u).mem
          user_nfds.toNat (fun k => (u.sets k).isSome) 3 := htot
    rw [htot2]
    simp [ready_total]
  have hnull : (sys_select cfg env m0 0 user_null).ret = some 0 ∧
      (sys_select cfg env m0 0 user_null).trace = [] := by
    have hnn : ¬((cfg.MAX_HANDLES : Int) < 0) := by omega
    simp [sys_select, hnn, sys_select_copy_in, sys_select_copy_in_loop, sys_select_tv,
      sys_select_copy_tv, sys_select_count, sys_select_count_loop, select_count_kcond,
      sys_select_wait, sys_select_resolve, sys_select_resolve_loop, select_set_ready,
      user_null]
  have hf : u.tv.isSome = true → env.copy_to_user_fault 3 = false := by
    intro hsm
    have htp := (sys_select_tv_isSome cfg env m0 u hts hsm).1
    cases hf : env.copy_to_user_fault 3 with
    | false => rfl
    | true =>
      simp [sys_select, h1, hci, hts, hcn, hwt, hrs, htp, hf, EFAULT] at hret
      omega
  have htrace : (sys_select cfg env m0 user_nfds u).trace =
      ((sys_select_copy_in env u m0).trace ++ (sys_select_tv cfg env m0 u).trace ++
        (sys_select_count cfg env m0 user_nfds.toNat u).trace ++
        (sys_select_wait cfg env m0 user_nfds.toNat u).trace) ++
      (sys_select_resolve cfg env m0 user_nfds.toNat u).trace ++
      (if u.tv.isSome = true then [Event.copy_to_user 3] else []) := by
    cases hu : u.tv with
    | none =>
      have htn := (sys_select_tv_absent cfg env m0 u hu).2.1
      simp [sys_select, h1, hci, hts, hcn, hwt, hrs, htn]
    | some t =>
      have htp := (sys_select_tv_isSome cfg env m0 u hts (by simp [hu])).1
      have hf3 := hf (by simp [hu])
      simp [sys_select, h1, hci, hts, hcn, hwt, hrs, htp, hf3]
  refine ⟨hsum, ?_, ?_, ?_, ?_, hnull.1, hnull.2⟩
  · intro k hk
    have hlast : (if u.tv.isSome = true then [Event.copy_to_user 3] else []).count
        (Event.copy_to_user k) = 0 := by
      split
      · apply List.count_eq_zero_of_not_mem
        simp only [List.mem_singleton, Event.copy_to_user.injEq]
        omega
      · simp
    rw [htrace, List.count_append, List.count_append, hpre, hcnt2, hlast]
    simp [hk]
  · have hlast : (if u.tv.isSome = true then [Event.copy_to_user 3] else []).count
        (Event.copy_to_user 3) = if u.tv.isSome = true then 1 else 0 := by
      split <;> simp
    rw [htrace, List.count_append, List.count_append, hpre, hcnt2, hlast]
    simp
  · intro k hk
    rw [hus]
    exact hsome k hk
  · cases hu : u.tv with
    | none =>
      have htn := (sys_select_tv_absent cfg env m0 u hu).2.1
      simp [sys_select, h1, hci, hts, hcn, hwt, hrs, htn, hu]
    | some t =>
      have htp := (sys_select_tv_isSome cfg env m0 u hts (by simp [hu])).1
      have hf3 := hf (by simp [hu])
      simp [sys_select, h1, hci, hts, hcn, hwt, hrs, htp, hf3]

/-- Witness for C11: `select(4, {3}, {3}, NULL, NULL)` with descriptor 3 ready
for reading and writing returns 2. -/
theorem sys_select_success_contract_witness :
    (2 : Int) = ((set_ready_count (vfs_fixed false true)
          (sys_select_wait cfg16 (env_plain (vfs_fixed false true) [] (vfs_fixed false true))
            mem_zero (4 : Int).toNat (user_rw (some (fd_single 3)) (some (fd_single 3)))).mem
          (4 : Int).toNat 0 true +
        set_ready_count (vfs_fixed false true)
          (sys_select_wait cfg16 (env_plain (vfs_fixed false true) [] (vfs_fixed false true))
            mem_zero (4 : Int).toNat (user_rw (some (fd_single 3)) (some (fd_single 3)))).mem
          (4 : Int).toNat 1 true +
        set_ready_count (vfs_fixed false true)
          (sys_select_wait cfg16 (env_plain (vfs_fixed false true) [] (vfs_fixed false true))
            mem_zero (4 : Int).toNat (user_rw (some (fd_single 3)) (some (fd_single 3)))).mem
          (4 : Int).toNat 2 false : Nat) : Int) :=
  (sys_select_success_contract cfg16
    (env_plain (vfs_fixed false true) [] (vfs_fixed false true)) mem_zero 4
    (user_rw (some (fd_single 3)) (some (fd_single 3))) 2 (by decide) (by decide)
    (by decide)).1

/-- Witness for C12: the wait path over the read set `{5}` without timeout,
ended by the first wakeup, frees its waiter once. -/
theorem select_wait_on_cond_frees_once_witness :
    (select_wait_on_cond cfg16 env_wake mem_fd5 8 sets_read none 1 0).trace.count
      Event.free_mobj_waiter = 1 :=
  (select_wait_on_cond_frees_once cfg16 env_wake mem_fd5 8 sets_read none 1 0 0 rfl
    (by decide)).2.2.1

/-! ## C14: the assertion in `select_set_kcond` -/

/-- C14 fails on the code: for `select(8, {3,5}, NULL, NULL, NULL)` where only
descriptor 3 has a read condition, counting gives `cond_cnt = 1`; registration
fills slot 0 for descriptor 3 and then evaluates `ASSERT(1 < 1)` at descriptor
5, before looking at its (absent) condition.  With assertions compiled in the
kernel panics and the call never returns. -/
theorem select_set_kcond_assert_fails :
    (sys_select_count cfg16 (env_plain vfs_mixed [] vfs_mixed) mem_zero 8
      (user_rfds (some fd_3_5) none)).rc = 0 ∧
    (sys_select_count cfg16 (env_plain vfs_mixed [] vfs_mixed) mem_zero 8
      (user_rfds (some fd_3_5) none)).cond_cnt = 1 ∧
    (sys_select cfg16 (env_plain vfs_mixed [] vfs_mixed) mem_zero 8
      (user_rfds (some fd_3_5) none)).ret = none ∧
    (sys_select cfg16 (env_plain vfs_mixed [] vfs_mixed) mem_zero 8
      (user_rfds (some fd_3_5) none)).trace =
      [Event.copy_from_user 0, Event.get_fs_handle 3, Event.get_fs_handle 5,
        Event.allocate_mobj_waiter 1, Event.get_fs_handle 3, Event.mobj_waiter_set 0 7,
        Event.get_fs_handle 5, Event.assert_failed] := by
  refine ⟨by decide, by decide, by decide, by decide⟩

/-! ## C15: counting and registering the conditions -/

theorem number_from_append (n : Nat) (xs ys : List kcond) :
    number_from n (xs ++ ys) = number_from n xs ++ number_from (n + xs.length) ys := by
  induction xs generalizing n with
  | nil => simp [number_from]
  | cons x rest ih =>
    have hlen : n + 1 + rest.length = n + (rest.length + 1) := by omega
    rw [List.cons_append]
    simp only [number_from, List.length_cons]
    rw [ih, hlen, List.cons_append]

theorem set_cond_pairs_succ (v : Vfs) (m : Mem) (p k n : Nat) :
    set_cond_pairs v m p k (n + 1) =
      set_cond_pairs v m p k n ++ (cond_at v m p k n).toList := by
  unfold set_cond_pairs
  rw [List.range_succ, List.filterMap_append]
  cases h : cond_at v m p k n <;> simp [h]

theorem waiter_sets_append (l1 l2 : List Event) :
    waiter_sets (l1 ++ l2) = waiter_sets l1 ++ waiter_sets l2 := by
  simp [waiter_sets, List.filterMap_append]

theorem prefix_eq_of_length_le {α : Type} (P L : List α) (h : P <+: L)
    (hl : L.length ≤ P.length) : P = L := by
  obtain ⟨t, ht⟩ := h
  have hlen : P.length + t.length = L.length := by
    rw [← ht, List.length_append]
  have : t = [] := List.eq_nil_of_length_eq_zero (by omega)
  rw [this, List.append_nil] at ht
  exact ht

theorem select_count_kcond_loop_pairs (v : Vfs) (m : Mem) (p k : Nat) (s0 : CountState)
    (n : Nat) (h0 : s0.rc = 0)
    (hopen : ∀ i, i < n → FD_ISSET i p m = true → (v.get_fs_handle i).isSome = true) :
    (select_count_kcond_loop v m p (v.gcf k) s0 n).rc = 0 ∧
    (select_count_kcond_loop v m p (v.gcf k) s0 n).cond_cnt =
      s0.cond_cnt + (set_cond_pairs v m p k n).length := by
  induction n with
  | zero => simp [select_count_kcond_loop, h0, set_cond_pairs]
  | succ j ih =>
    obtain ⟨ihrc, ihc⟩ := ih (fun i hi => hopen i (Nat.lt_succ_of_lt hi))
    rw [set_cond_pairs_succ]
    simp only [select_count_kcond_loop, ihrc, ne_eq, not_true_eq_false, if_false]
    cases hb : FD_ISSET j p m with
    | false => simp [cond_at, hb, ihrc, ihc]
    | true =>
      have ho := hopen j (Nat.lt_succ_self j) hb
      cases hh : v.get_fs_handle j with
      | none => simp [hh] at ho
      | some h =>
        cases hc : v.gcf k h with
        | none => simp [cond_at, hb, hh, hc, ihc]
        | some c =>
          simp [cond_at, hb, hh, hc, ihc]
          omega

theorem sys_select_count_loop_pairs (v : Vfs) (m : Mem) (nfds : Nat)
    (sets : Nat → Option Nat) (n : Nat)
    (hopen : ∀ k, k < n → ∀ p, sets k = some p → ∀ i, i < nfds → FD_ISSET i p m = true →
      (v.get_fs_handle i).isSome = true) :
    (sys_select_count_loop v m nfds sets n).rc = 0 ∧
    (sys_select_count_loop v m nfds sets n).cond_cnt =
      (cond_pairs_upto v m nfds sets n).length := by
  induction n with
  | zero => simp [sys_select_count_loop, cond_pairs_upto]
  | succ j ih =>
    obtain ⟨ihrc, ihc⟩ := ih (fun k hk => hopen k (Nat.lt_succ_of_lt hk))
    simp only [sys_select_count_loop, ihrc, ne_eq, not_true_eq_false, if_false, cond_pairs_upto]
    cases hs : sets j with
    | none => simp [select_count_kcond, ihc]
    | some p =>
      simp only [select_count_kcond, List.length_append]
      have := select_count_kcond_loop_pairs v m p j
        ⟨0, (sys_select_count_loop v m nfds sets j).cond_cnt,
          (sys_select_count_loop v m nfds sets j).trace⟩ nfds rfl
        (hopen j (Nat.lt_succ_self j) p hs)
      rw [← ihc]
      exact this

theorem select_set_kcond_loop_inv (cfg : Config) (v : Vfs) (m : Mem) (count p k : Nat)
    (s0 : SetState) (base : List (Nat × Nat × kcond)) (n : Nat)
    (hopen : ∀ i, i < n → FD_ISSET i p m = true → (v.get_fs_handle i).isSome = true)
    (h0rc : s0.rc = some 0) (h0idx : s0.idx = base.length)
    (h0tr : waiter_sets s0.trace = number_from 0 (base.map (fun x => x.2.2))) :
    ∃ P, P <+: base ++ set_cond_pairs v m p k n ∧
      (select_set_kcond_loop cfg v m count p (v.gcf k) s0 n).idx = P.length ∧
      waiter_sets (select_set_kcond_loop cfg v m count p (v.gcf k) s0 n).trace =
        number_from 0 (P.map (fun x => x.2.2)) ∧
      ((select_set_kcond_loop cfg v m count p (v.gcf k) s0 n).rc = some 0 →
        P = base ++ set_cond_pairs v m p k n) ∧
      ((select_set_kcond_loop cfg v m count p (v.gcf k) s0 n).rc = none →
        count ≤ P.length) ∧
      ((select_set_kcond_loop cfg v m count p (v.gcf k) s0 n).rc = some 0 ∨
        (select_set_kcond_loop cfg v m count p (v.gcf k) s0 n).rc = none) := by
  induction n with
  | zero =>
    refine ⟨base, ?_, h0idx, h0tr, fun _ => ?_, fun h => ?_, Or.inl h0rc⟩
    · simp [set_cond_pairs]
    · simp [set_cond_pairs]
    · simp [select_set_kcond_loop, h0rc] at h
  | succ j ih =>
    obtain ⟨P, hpre, hidx, htr, hok, hpanic, hrc⟩ :=
      ih (fun i hi => hopen i (Nat.lt_succ_of_lt hi))
    have hgrow : base ++ set_cond_pairs v m p k j <+: base ++ set_cond_pairs v m p k (j + 1) := by
      rw [set_cond_pairs_succ, ← List.append_assoc]
      exact List.prefix_append _ _
    rcases hrc with hrc | hrc
    swap
    · -- frozen after a failed assertion
      have hs : select_set_kcond_loop cfg v m count p (v.gcf k) s0 (j + 1) =
          select_set_kcond_loop cfg v m count p (v.gcf k) s0 j := by
        simp [select_set_kcond_loop, hrc]
      rw [hs]
      exact ⟨P, hpre.trans hgrow, hidx, htr, fun h => by simp [hrc] at h, hpanic, Or.inr hrc⟩
    · have hP := hok hrc
      cases hb : FD_ISSET j p m with
      | false =>
        have hs : select_set_kcond_loop cfg v m count p (v.gcf k) s0 (j + 1) =
            select_set_kcond_loop cfg v m count p (v.gcf k) s0 j := by
          simp [select_set_kcond_loop, hrc, hb]
        have hc : cond_at v m p k j = none := by simp [cond_at, hb]
        rw [hs, set_cond_pairs_succ, hc]
        simp only [Option.toList, List.append_nil]
        exact ⟨P, hpre, hidx, htr, hok, hpanic, Or.inl hrc⟩
      | true =>
        have ho := hopen j (Nat.lt_succ_self j) hb
        cases hh : v.get_fs_handle j with
        | none => simp [hh] at ho
        | some h =>
          by_cases hd : (cfg.DEBUG && !decide
              ((select_set_kcond_loop cfg v m count p (v.gcf k) s0 j).idx < count)) = true
          · have hs : select_set_kcond_loop cfg v m count p (v.gcf k) s0 (j + 1) =
                ⟨none, (select_set_kcond_loop cfg v m count p (v.gcf k) s0 j).idx,
                  (select_set_kcond_loop cfg v m count p (v.gcf k) s0 j).trace ++
                    [Event.get_fs_handle j, Event.assert_failed]⟩ := by
              simp [select_set_kcond_loop, hrc, hb, hh, hd]
            rw [hs]
            refine ⟨P, hpre.trans hgrow, hidx, ?_, fun h => by simp at h, fun _ => ?_,
              Or.inr rfl⟩
            · rw [waiter_sets_append, htr]
              simp [waiter_sets]
            · simp only [Bool.and_eq_true, Bool.not_eq_true', decide_eq_false_iff_not] at hd
              omega
          · cases hc : v.gcf k h with
            | none =>
              have hs : select_set_kcond_loop cfg v m count p (v.gcf k) s0 (j + 1) =
                  ⟨some 0, (select_set_kcond_loop cfg v m count p (v.gcf k) s0 j).idx,
                    (select_set_kcond_loop cfg v m count p (v.gcf k) s0 j).trace ++
                      [Event.get_fs_handle j]⟩ := by
                simp [select_set_kcond_loop, hrc, hb, hh, hd, hc]
              have hca : cond_at v m p k j = none := by simp [cond_at, hb, hh, hc]
              rw [hs, set_cond_pairs_succ, hca]
              simp only [Option.toList, List.append_nil]
              refine ⟨P, hpre, hidx, ?_, fun _ => hP, fun h => by simp at h, Or.inl trivial⟩
              rw [waiter_sets_append, htr]
              simp [waiter_sets]
            | some c =>
              have hs : select_set_kcond_loop cfg v m count p (v.gcf k) s0 (j + 1) =
                  ⟨some 0, (select_set_kcond_loop cfg v m count p (v.gcf k) s0 j).idx + 1,
                    (select_set_kcond_loop cfg v m count p (v.gcf k) s0 j).trace ++
                      [Event.get_fs_handle j, Event.mobj_waiter_set
                        (select_set_kcond_loop cfg v m count p (v.gcf k) s0 j).idx c]⟩ := by
                simp [select_set_kcond_loop, hrc, hb, hh, hd, hc]
              have hca : cond_at v m p k j = some (k, j, c) := by simp [cond_at, hb, hh, hc]
              rw [hs, set_cond_pairs_succ, hca]
              simp only [Option.toList]
              refine ⟨P ++ [(k, j, c)], ?_, ?_, ?_, fun _ => ?_, fun h => by simp at h,
                Or.inl trivial⟩
              · rw [hP, List.append_assoc]
              · simp [hidx]
              · rw [waiter_sets_append, htr, List.map_append, number_from_append]
                simp [waiter_sets, number_from, hidx]
              · rw [hP, List.append_assoc]

theorem select_wait_on_cond_set_loop_inv (cfg : Config) (v : Vfs) (m : Mem)
    (nfds count : Nat) (sets : Nat → Option Nat) (n : Nat)
    (hopen : ∀ k, k < n → ∀ p, sets k = some p → ∀ i, i < nfds → FD_ISSET i p m = true →
      (v.get_fs_handle i).isSome = true) :
    ∃ P, P <+: cond_pairs_upto v m nfds sets n ∧
      (select_wait_on_cond_set_loop cfg v m nfds count sets n).idx = P.length ∧
      waiter_sets (select_wait_on_cond_set_loop cfg v m nfds count sets n).trace =
        number_from 0 (P.map (fun x => x.2.2)) ∧
      ((select_wait_on_cond_set_loop cfg v m nfds count sets n).rc = some 0 →
        P = cond_pairs_upto v m nfds sets n) ∧
      ((select_wait_on_cond_set_loop cfg v m nfds count sets n).rc = none →
        count ≤ P.length) ∧
      ((select_wait_on_cond_set_loop cfg v m nfds count sets n).rc = some 0 ∨
        (select_wait_on_cond_set_loop cfg v m nfds count sets n).rc = none) := by
  induction n with
  | zero =>
    exact ⟨[], by simp [cond_pairs_upto], rfl, rfl, fun _ => rfl,
      fun h => by simp [select_wait_on_cond_set_loop] at h, Or.inl rfl⟩
  | succ j ih =>
    obtain ⟨P, hpre, hidx, htr, hok, hpanic, hrc⟩ :=
      ih (fun k hk => hopen k (Nat.lt_succ_of_lt hk))
    have hgrow : cond_pairs_upto v m nfds sets j <+: cond_pairs_upto v m nfds sets (j + 1) := by
      simp only [cond_pairs_upto]
      exact List.prefix_append _ _
    rcases hrc with hrc | hrc
    swap
    · have hs : select_wait_on_cond_set_loop cfg v m nfds count sets (j + 1) =
          select_wait_on_cond_set_loop cfg v m nfds count sets j := by
        simp [select_wait_on_cond_set_loop, hrc]
      rw [hs]
      exact ⟨P, hpre.trans hgrow, hidx, htr, fun h => by simp [hrc] at h, hpanic, Or.inr hrc⟩
    · have hP := hok hrc
      cases hs : sets j with
      | none =>
        have he : select_wait_on_cond_set_loop cfg v m nfds count sets (j + 1) =
            ⟨some 0, (select_wait_on_cond_set_loop cfg v m nfds count sets j).idx,
              (select_wait_on_cond_set_loop cfg v m nfds count sets j).trace⟩ := by
          simp [select_wait_on_cond_set_loop, hrc, hs, select_set_kcond]
        rw [he]
        simp only [cond_pairs_upto, hs, List.append_nil]
        exact ⟨P, hpre, hidx, htr, fun _ => hP, fun h => by simp at h, Or.inl trivial⟩
      | some p =>
        have he : select_wait_on_cond_set_loop cfg v m nfds count sets (j + 1) =
            select_set_kcond_loop cfg v m count p (v.gcf j)
              ⟨some 0, (select_wait_on_cond_set_loop cfg v m nfds count sets j).idx,
                (select_wait_on_cond_set_loop cfg v m nfds count sets j).trace⟩ nfds := by
          simp [select_wait_on_cond_set_loop, hrc, hs, select_set_kcond]
        rw [he]
        simp only [cond_pairs_upto, hs]
        rw [hP] at hidx htr
        exact select_set_kcond_loop_inv cfg v m count p j _ _ nfds
          (hopen j (Nat.lt_succ_self j) p hs) rfl hidx htr

theorem select_set_kcond_loop_release (cfg : Config) (v : Vfs) (m : Mem) (count p : Nat)
    (get_cond : fs_handle → Option kcond) (s0 : SetState) (n : Nat)
    (hd : cfg.DEBUG = false) (h0 : s0.rc ≠ none) :
    (select_set_kcond_loop cfg v m count p get_cond s0 n).rc ≠ none := by
  induction n with
  | zero => simpa [select_set_kcond_loop] using h0
  | succ j ih =>
    simp only [select_set_kcond_loop, hd, Bool.false_and, Bool.false_eq_true, if_false]
    split
    · exact ih
    · split
      · exact ih
      · split
        · simp
        · split <;> simp

theorem select_wait_on_cond_set_loop_release (cfg : Config) (v : Vfs) (m : Mem)
    (nfds count : Nat) (sets : Nat → Option Nat) (n : Nat) (hd : cfg.DEBUG = false) :
    (select_wait_on_cond_set_loop cfg v m nfds count sets n).rc ≠ none := by
  induction n with
  | zero => simp [select_wait_on_cond_set_loop]
  | succ j ih =>
    simp only [select_wait_on_cond_set_loop]
    split
    · exact ih
    · cases hs : sets j with
      | none => simp [select_set_kcond]
      | some p =>
        simp only [select_set_kcond]
        exact select_set_kcond_loop_release cfg v m count p _ _ nfds hd (by simp)

/-- C15: with the same handle table and accessors in both passes and every
set bit below `nfds` designating an open handle, the counting passes succeed
and leave `cond_cnt` equal to the number of pairs (kind, descriptor below
`nfds`) whose bit is set in the set of that kind and whose accessor returns a
condition; the registration passes call `mobj_waiter_set` exactly `cond_cnt`
times, with slot indices `0, 1, ..., cond_cnt - 1` in the order read, write,
except and ascending descriptor, each with that descriptor's condition; they
never return `-EBADF`, and complete when assertions are compiled out. -/
theorem select_count_and_set_agree (cfg : Config) (v : Vfs) (m : Mem) (nfds : Nat)
    (sets : Nat → Option Nat)
    (hopen : ∀ k, k < 3 → ∀ p, sets k = some p → ∀ i, i < nfds → FD_ISSET i p m = true →
      (v.get_fs_handle i).isSome = true) :
    (sys_select_count_loop v m nfds sets 3).rc = 0 ∧
    (sys_select_count_loop v m nfds sets 3).cond_cnt = (cond_pairs v m nfds sets).length ∧
    waiter_sets (select_wait_on_cond_set_loop cfg v m nfds
        (sys_select_count_loop v m nfds sets 3).cond_cnt sets 3).trace =
      number_from 0 ((cond_pairs v m nfds sets).map (fun x => x.2.2)) ∧
    (waiter_sets (select_wait_on_cond_set_loop cfg v m nfds
        (sys_select_count_loop v m nfds sets 3).cond_cnt sets 3).trace).length =
      (sys_select_count_loop v m nfds sets 3).cond_cnt ∧
    (select_wait_on_cond_set_loop cfg v m nfds
        (sys_select_count_loop v m nfds sets 3).cond_cnt sets 3).rc ≠ some (-EBADF) ∧
    (cfg.DEBUG = false →
      (select_wait_on_cond_set_loop cfg v m nfds
        (sys_select_count_loop v m nfds sets 3).cond_cnt sets 3).rc = some 0) := by
  obtain ⟨hrc, hcnt⟩ := sys_select_count_loop_pairs v m nfds sets 3 hopen
  obtain ⟨P, hpre, hidx, htr, hok, hpanic, hcases⟩ :=
    select_wait_on_cond_set_loop_inv cfg v m nfds
      (sys_select_count_loop v m nfds sets 3).cond_cnt sets 3 hopen
  have hP : P = cond_pairs v m nfds sets := by
    rcases hcases with h | h
    · exact hok h
    · have := hpanic h
      rw [hcnt] at this
      exact prefix_eq_of_length_le P _ hpre this
  have hlen : ∀ (n : Nat) (l : List kcond), (number_from n l).length = l.length := by
    intro n l
    induction l generalizing n with
    | nil => rfl
    | cons x rest ih => simp [number_from, ih]
  refine ⟨hrc, hcnt, by rw [htr, hP], ?_, ?_, ?_⟩
  · rw [htr, hP, hlen, List.length_map, hcnt]
    rfl
  · rcases hcases with h | h <;> rw [h] <;> simp [EBADF]
  · intro hd
    rcases hcases with h | h
    · exact h
    · exact absurd h (select_wait_on_cond_set_loop_release cfg v m nfds _ sets 3 hd)

/-- Witness for C15: the read set `{3, 5}` where only descriptor 3 has a
condition: one pair, one registration in slot 0. -/
theorem select_count_and_set_agree_witness :
    (sys_select_count_loop vfs_mixed mem_fd_3_5 8 sets_read 3).cond_cnt = 1 ∧
    waiter_sets (select_wait_on_cond_set_loop cfg16 vfs_mixed mem_fd_3_5 8
        (sys_select_count_loop vfs_mixed mem_fd_3_5 8 sets_read 3).cond_cnt sets_read 3).trace =
      [(0, 7)] :=
  have hopen : ∀ k, k < 3 → ∀ p, sets_read k = some p → ∀ i, i < 8 →
      FD_ISSET i p mem_fd_3_5 = true → (vfs_mixed.get_fs_handle i).isSome = true := by
    intro k hk p hp i hi hbit
    have hk0 : k = 0 := by
      by_contra hne
      simp [sets_read, hne] at hp
    subst hk0
    have hp0 : p = 0 := by
      simp [sets_read, sets_ptr] at hp
      exact hp.symm
    subst hp0
    simp only [FD_ISSET, mem_fd_3_5, Nat.zero_add, decide_eq_true_eq] at hbit
    rcases hbit with h | h <;> subst h <;> decide
  have h := select_count_and_set_agree cfg16 vfs_mixed mem_fd_3_5 8 sets_read hopen
  ⟨by decide, h.2.2.1.trans (by decide)⟩

/-! ## C16 and C17: the wait loop, wakeup by wakeup -/

theorem select_wait_on_cond_loop_continue (cfg : Config) (nfds : Nat)
    (sets : Nat → Option Nat) (tv : Option Nat) (m : Mem) (w : Wakeup) (ws : List Wakeup)
    (hw : loop_continues m nfds sets tv w = true) :
    select_wait_on_cond_loop cfg nfds sets tv m (w :: ws) =
      ⟨(select_wait_on_cond_loop cfg nfds sets tv m ws).done,
        Event.kernel_sleep_on_waiter :: (count_ready_streams w.vfs m nfds sets).trace ++
          (select_wait_on_cond_loop cfg nfds sets tv m ws).trace,
        (select_wait_on_cond_loop cfg nfds sets tv m ws).mem⟩ := by
  simp only [loop_continues, Bool.and_eq_true, Bool.not_eq_true', decide_eq_true_eq] at hw
  cases tv with
  | none => simp [select_wait_on_cond_loop, hw.2]
  | some t =>
    have hf : w.timer_fired = false := by simpa using hw.1
    simp [select_wait_on_cond_loop, hf, hw.2]

theorem select_wait_on_cond_loop_stop (cfg : Config) (nfds : Nat)
    (sets : Nat → Option Nat) (tv : Option Nat) (m : Mem) (w : Wakeup) (ws : List Wakeup)
    (hw : loop_continues m nfds sets tv w = false) :
    (select_wait_on_cond_loop cfg nfds sets tv m (w :: ws)).done = true ∧
    (select_wait_on_cond_loop cfg nfds sets tv m (w :: ws)).trace =
      Event.kernel_sleep_on_waiter ::
        (if tv.isSome && w.timer_fired then [Event.wait_obj_reset]
          else (count_ready_streams w.vfs m nfds sets).trace ++
            (if tv.isSome then [Event.task_cancel_wakeup_timer] else [])) := by
  cases tv with
  | none =>
    have hc : (count_ready_streams w.vfs m nfds sets).count ≠ 0 := by
      simpa [loop_continues] using hw
    simp [select_wait_on_cond_loop, hc]
  | some t =>
    cases hf : w.timer_fired with
    | true => simp [select_wait_on_cond_loop, hf]
    | false =>
      have hc : (count_ready_streams w.vfs m nfds sets).count ≠ 0 := by
        simpa [loop_continues, hf] using hw
      simp [select_wait_on_cond_loop, hf, hc]

theorem select_wait_on_cond_loop_prefix (cfg : Config) (nfds : Nat)
    (sets : Nat → Option Nat) (tv : Option Nat) (m : Mem) (pre rest : List Wakeup)
    (hpre : ∀ x ∈ pre, loop_continues m nfds sets tv x = true) :
    select_wait_on_cond_loop cfg nfds sets tv m (pre ++ rest) =
      ⟨(select_wait_on_cond_loop cfg nfds sets tv m rest).done,
        rescan_trace m nfds sets pre ++ (select_wait_on_cond_loop cfg nfds sets tv m rest).trace,
        (select_wait_on_cond_loop cfg nfds sets tv m rest).mem⟩ := by
  induction pre with
  | nil => simp [rescan_trace]
  | cons x xs ih =>
    have ih := ih (fun y hy => hpre y (List.mem_cons_of_mem x hy))
    rw [List.cons_append,
      select_wait_on_cond_loop_continue cfg nfds sets tv m x _ (hpre x (List.mem_cons_self x xs)),
      ih]
    simp [rescan_trace]

theorem count_sleep_lookups (l : List Event) (h : ∀ e ∈ l, e.is_lookup = true) :
    l.count Event.kernel_sleep_on_waiter = 0 ∧ l.count Event.task_cancel_wakeup_timer = 0 := by
  constructor <;>
  · apply List.count_eq_zero_of_not_mem
    intro hm
    have := h _ hm
    simp [Event.is_lookup] at this

theorem select_wait_on_cond_loop_counts (cfg : Config) (nfds : Nat)
    (sets : Nat → Option Nat) (tv : Option Nat) (m : Mem) (ws : List Wakeup) :
    (select_wait_on_cond_loop cfg nfds sets tv m ws).trace.count Event.kernel_sleep_on_waiter =
      (ws.takeWhile (loop_continues m nfds sets tv)).length + 1 ∧
    (select_wait_on_cond_loop cfg nfds sets tv m ws).trace.count
      Event.task_cancel_wakeup_timer = expected_cancels m nfds sets tv ws ∧
    ((select_wait_on_cond_loop cfg nfds sets tv m ws).done = true ↔
      ∃ w ∈ ws, loop_continues m nfds sets tv w = false) := by
  induction ws with
  | nil => simp [select_wait_on_cond_loop, expected_cancels]
  | cons w rest ih =>
    have hlk := count_sleep_lookups _ (count_ready_streams_trace w.vfs m nfds sets)
    cases hw : loop_continues m nfds sets tv w with
    | true =>
      rw [select_wait_on_cond_loop_continue cfg nfds sets tv m w rest hw]
      obtain ⟨ih1, ih2, ih3⟩ := ih
      refine ⟨?_, ?_, ?_⟩
      · simp only [List.cons_append, List.count_cons_self, List.count_append, hlk.1, ih1,
          List.takeWhile_cons, hw, if_true, List.length_cons]
        omega
      · have hne : (Event.kernel_sleep_on_waiter == Event.task_cancel_wakeup_timer) = false := by
          decide
        simp only [List.cons_append, List.count_cons, hne, List.count_append, hlk.2, ih2,
          expected_cancels, List.dropWhile_cons, hw, if_true]
        simp
      · simp only [ih3, List.mem_cons, exists_eq_or_imp, hw]
        simp
    | false =>
      obtain ⟨hd, htr⟩ := select_wait_on_cond_loop_stop cfg nfds sets tv m w rest hw
      refine ⟨?_, ?_, ?_⟩
      · rw [htr]
        simp only [List.takeWhile_cons, hw, List.length_nil, List.count_cons_self]
        cases htv : tv.isSome <;> cases hf : w.timer_fired <;>
          simp [hlk.1, List.count_append, hf]
      · rw [htr]
        have hne : (Event.kernel_sleep_on_waiter == Event.task_cancel_wakeup_timer) = false := by
          decide
        simp only [expected_cancels, List.dropWhile_cons, hw, List.count_cons, hne]
        cases htv : tv.isSome <;> cases hf : w.timer_fired <;>
          simp [hlk.2, List.count_append, hf]
      · rw [hd]
        simp only [true_iff]
        exact ⟨w, List.mem_cons_self w rest, hw⟩

theorem rescan_trace_events (m : Mem) (nfds : Nat) (sets : Nat → Option Nat)
    (ws : List Wakeup) :
    ∀ e ∈ rescan_trace m nfds sets ws,
      e = Event.kernel_sleep_on_waiter ∨ e.is_lookup = true := by
  induction ws with
  | nil => simp [rescan_trace]
  | cons w rest ih =>
    intro e he
    simp only [rescan_trace, List.cons_append, List.mem_cons, List.mem_append] at he
    rcases he with he | he | he
    · exact Or.inl he
    · exact Or.inr (count_ready_streams_trace w.vfs m nfds sets e he)
    · exact ih e he

theorem count_registration (l : List Event) (h : ∀ e ∈ l, e.is_registration = true) :
    l.count Event.kernel_sleep_on_waiter = 0 ∧ l.count Event.task_cancel_wakeup_timer = 0 ∧
    l.countP Event.is_timer_set = 0 := by
  refine ⟨?_, ?_, ?_⟩
  · apply List.count_eq_zero_of_not_mem
    intro hm
    have := h _ hm
    simp [Event.is_registration] at this
  · apply List.count_eq_zero_of_not_mem
    intro hm
    have := h _ hm
    simp [Event.is_registration] at this
  · rw [List.countP_eq_zero]
    intro e he
    have := (no_timer_of_registration e (h e he)).1
    simp [this]

theorem not_timer_set_of_wait_loop (e : Event) (h : e.is_wait_loop = true) :
    e.is_timer_set = false := by
  cases e <;> simp_all [Event.is_wait_loop, Event.is_timer_set]

/-- C16: the wait loop is left only at a wakeup that is taken as a timer
wakeup (timeout supplied and timer fired) or at which `count_ready_streams` is
positive; across any run of other wakeups it sleeps again with the scratch
memory (bitmap copies and timeout) unchanged and having made only handle
lookups; so the number of `kernel_sleep_on_waiter` calls is one more than the
number of leading spurious wakeups, for the loop and for the whole of
`select_wait_on_cond` when it reaches the loop. -/
theorem select_wait_on_cond_loop_spurious (cfg : Config) (nfds : Nat)
    (sets : Nat → Option Nat) (tv : Option Nat) (m : Mem) (ws : List Wakeup) :
    (∀ w, loop_continues m nfds sets tv w = false ↔
      ((tv.isSome = true ∧ w.timer_fired = true) ∨
        0 < (count_ready_streams w.vfs m nfds sets).count)) ∧
    ((select_wait_on_cond_loop cfg nfds sets tv m ws).done = true ↔
      ∃ w ∈ ws, loop_continues m nfds sets tv w = false) ∧
    (∀ pre rest, (∀ x ∈ pre, loop_continues m nfds sets tv x = true) →
      select_wait_on_cond_loop cfg nfds sets tv m (pre ++ rest) =
        ⟨(select_wait_on_cond_loop cfg nfds sets tv m rest).done,
          rescan_trace m nfds sets pre ++
            (select_wait_on_cond_loop cfg nfds sets tv m rest).trace,
          (select_wait_on_cond_loop cfg nfds sets tv m rest).mem⟩) ∧
    (∀ pre, ∀ e ∈ rescan_trace m nfds sets pre,
      e = Event.kernel_sleep_on_waiter ∨ e.is_lookup = true) ∧
    (select_wait_on_cond_loop cfg nfds sets tv m ws).trace.count Event.kernel_sleep_on_waiter =
      (ws.takeWhile (loop_continues m nfds sets tv)).length + 1 ∧
    (∀ (env : Env) (cond_cnt ticks : Nat), env.wakeups = ws → env.alloc_fail = false →
      (select_wait_on_cond_set_loop cfg env.vfs_set m nfds cond_cnt sets 3).rc = some 0 →
      (tv.isSome && cfg.DEBUG && !decide (ticks > 0)) = false →
      (select_wait_on_cond cfg env m nfds sets tv cond_cnt ticks).trace.count
        Event.kernel_sleep_on_waiter =
        (ws.takeWhile (loop_continues m nfds sets tv)).length + 1) := by
  obtain ⟨hsleep, _, hdone⟩ := select_wait_on_cond_loop_counts cfg nfds sets tv m ws
  refine ⟨?_, hdone, fun pre rest h => select_wait_on_cond_loop_prefix cfg nfds sets tv m pre rest h,
    fun pre => rescan_trace_events m nfds sets pre, hsleep, ?_⟩
  · intro w
    cases htv : tv.isSome <;> cases hf : w.timer_fired <;>
      simp [loop_continues, htv, hf, Nat.pos_iff_ne_zero]
  · intro env cond_cnt ticks hwk ha hreg hd
    rw [select_wait_on_cond_reaches_loop _ _ _ _ _ _ _ _ ha hreg hd, hwk]
    have hr := (count_registration _
      (select_wait_on_cond_set_loop_trace cfg env.vfs_set m nfds cond_cnt sets 3)).1
    have hne : (Event.allocate_mobj_waiter cond_cnt == Event.kernel_sleep_on_waiter) = false := by
      simp
    simp only [List.cons_append, List.count_cons, hne, List.count_append, hr, hsleep]
    cases htv : tv.isSome <;>
      cases hdn : (select_wait_on_cond_loop cfg nfds sets tv m ws).done <;> simp

/-- C17: in every execution of `select_wait_on_cond` that reaches the wait
loop, `task_set_wakeup_timer` is called exactly once if a timeout was supplied
and never otherwise, before any sleep and never inside the loop;
`task_cancel_wakeup_timer` is called at most once, exactly when a timeout was
supplied and the wakeup that ends the loop is not a timer wakeup (it ends the
loop through the readiness check), and then it is the last call of the loop. -/
theorem select_wait_on_cond_timer_calls (cfg : Config) (env : Env) (m : Mem) (nfds : Nat)
    (sets : Nat → Option Nat) (tv : Option Nat) (cond_cnt ticks : Nat)
    (ha : env.alloc_fail = false)
    (hreg : (select_wait_on_cond_set_loop cfg env.vfs_set m nfds cond_cnt sets 3).rc = some 0)
    (hd : (tv.isSome && cfg.DEBUG && !decide (ticks > 0)) = false) :
    (select_wait_on_cond cfg env m nfds sets tv cond_cnt ticks).trace.countP
      Event.is_timer_set = (if tv.isSome = true then 1 else 0) ∧
    (tv.isSome = true → ∃ l1 l2,
      (select_wait_on_cond cfg env m nfds sets tv cond_cnt ticks).trace =
        l1 ++ Event.task_set_wakeup_timer ticks :: l2 ∧
      (∀ e ∈ l1, e.is_sleep = false ∧ e.is_timer_set = false) ∧
      (∀ e ∈ l2, e.is_timer_set = false)) ∧
    (∀ e ∈ (select_wait_on_cond_loop cfg nfds sets tv m env.wakeups).trace,
      e.is_timer_set = false) ∧
    (select_wait_on_cond cfg env m nfds sets tv cond_cnt ticks).trace.count
      Event.task_cancel_wakeup_timer = expected_cancels m nfds sets tv env.wakeups ∧
    expected_cancels m nfds sets tv env.wakeups ≤ 1 ∧
    (expected_cancels m nfds sets tv env.wakeups = 1 → ∃ l,
      (select_wait_on_cond_loop cfg nfds sets tv m env.wakeups).trace =
        l ++ [Event.task_cancel_wakeup_timer]) := by
  have hreg_tr := select_wait_on_cond_set_loop_trace cfg env.vfs_set m nfds cond_cnt sets 3
  have hlp_tr := select_wait_on_cond_loop_trace cfg nfds sets tv m env.wakeups
  have hlp_nt : ∀ e ∈ (select_wait_on_cond_loop cfg nfds sets tv m env.wakeups).trace,
      e.is_timer_set = false := fun e he => not_timer_set_of_wait_loop e (hlp_tr e he)
  obtain ⟨_, hcancel, _⟩ := select_wait_on_cond_loop_counts cfg nfds sets tv m env.wakeups
  have hrc := count_registration _ hreg_tr
  have hlp0 : (select_wait_on_cond_loop cfg nfds sets tv m env.wakeups).trace.countP
      Event.is_timer_set = 0 := by
    rw [List.countP_eq_zero]
    intro e he
    simp [hlp_nt e he]
  refine ⟨?_, ?_, hlp_nt, ?_, ?_, ?_⟩
  · rw [select_wait_on_cond_reaches_loop _ _ _ _ _ _ _ _ ha hreg hd]
    simp only [List.cons_append, List.countP_cons, List.countP_append, hrc.2.2, hlp0]
    cases htv : tv.isSome <;>
      cases hdn : (select_wait_on_cond_loop cfg nfds sets tv m env.wakeups).done <;>
      simp [Event.is_timer_set]
  · intro htv
    rw [select_wait_on_cond_reaches_loop _ _ _ _ _ _ _ _ ha hreg hd]
    refine ⟨Event.allocate_mobj_waiter cond_cnt ::
        (select_wait_on_cond_set_loop cfg env.vfs_set m nfds cond_cnt sets 3).trace,
      (select_wait_on_cond_loop cfg nfds sets tv m env.wakeups).trace ++
        (if (select_wait_on_cond_loop cfg nfds sets tv m env.wakeups).done then
          [Event.free_mobj_waiter] else []), ?_, ?_, ?_⟩
    · simp [htv]
    · intro e he
      rcases List.mem_cons.mp he with h | h
      · subst h
        exact ⟨rfl, rfl⟩
      · have := no_timer_of_registration e (hreg_tr e h)
        exact ⟨this.2, this.1⟩
    · apply mem_append_all _ _ _ hlp_nt
      intro e he
      split at he
      · simp only [List.mem_singleton] at he
        subst he
        rfl
      · simp at he
  · rw [select_wait_on_cond_reaches_loop _ _ _ _ _ _ _ _ ha hreg hd]
    have hne : (Event.allocate_mobj_waiter cond_cnt == Event.task_cancel_wakeup_timer) = false := by
      simp
    simp only [List.cons_append, List.count_cons, hne, List.count_append, hrc.2.1, hcancel]
    cases htv : tv.isSome <;>
      cases hdn : (select_wait_on_cond_loop cfg nfds sets tv m env.wakeups).done <;> simp
  · unfold expected_cancels
    split
    · omega
    · split <;> omega
  · intro hone
    unfold expected_cancels at hone
    split at hone
    · omega
    · rename_i w rest hdrop
      have hws : env.wakeups =
          env.wakeups.takeWhile (loop_continues m nfds sets tv) ++ w :: rest := by
        rw [← hdrop, List.takeWhile_append_dropWhile]
      have hwstop : loop_continues m nfds sets tv w = false := by
        have := List.head_dropWhile_not (loop_continues m nfds sets tv) env.wakeups
          (by rw [hdrop]; simp)
        simpa [hdrop] using this
      have hcond : (tv.isSome && !w.timer_fired) = true := by
        by_contra hc
        simp [hc] at hone
      simp only [Bool.and_eq_true, Bool.not_eq_true'] at hcond
      have hstop := (select_wait_on_cond_loop_stop cfg nfds sets tv m w rest hwstop).2
      rw [hws, select_wait_on_cond_loop_prefix cfg nfds sets tv m _ _
        (fun x hx => (List.mem_takeWhile_imp hx)), hstop]
      simp only [hcond.1, hcond.2, Bool.and_false, Bool.false_eq_true, if_false, if_true]
      exact ⟨rescan_trace m nfds sets (env.wakeups.takeWhile (loop_continues m nfds sets tv)) ++
        (Event.kernel_sleep_on_waiter :: (count_ready_streams w.vfs m nfds sets).trace),
        by simp⟩

/-- Witness for C17: the wait path over the read set `{5}` with a timeout,
ended by a condition wakeup: the timer is armed once and cancelled once. -/
theorem select_wait_on_cond_timer_calls_witness :
    (select_wait_on_cond cfg16 env_wake mem_fd5 8 sets_read (some tv_ptr) 1 1000).trace.countP
      Event.is_timer_set = 1 ∧
    (select_wait_on_cond cfg16 env_wake mem_fd5 8 sets_read (some tv_ptr) 1 1000).trace.count
      Event.task_cancel_wakeup_timer = 1 :=
  have h := select_wait_on_cond_timer_calls cfg16 env_wake mem_fd5 8 sets_read (some tv_ptr)
    1 1000 rfl (by decide) (by decide)
  ⟨h.1, h.2.2.2.1.trans (by decide)⟩

/-! ## C18: the rescan count and the resolution count -/

theorem count_ready_streams_per_set_loop_count (v : Vfs) (m : Mem) (set : Nat)
    (is_ready : fs_handle → Bool) (n : Nat) :
    (count_ready_streams_per_set_loop v m set is_ready n).count =
      count_bits_below n (fun i => m (set + i) && handle_ready v is_ready i) := by
  induction n with
  | zero => simp [count_ready_streams_per_set_loop, count_bits_below]
  | succ k ih =>
    rw [count_bits_below_succ]
    simp only [count_ready_streams_per_set_loop, FD_ISSET]
    by_cases hm : m (set + k) = true
    · simp only [hm, Bool.not_true, Bool.false_eq_true, if_false, Bool.true_and]
      cases hh : v.get_fs_handle k with
      | none => simp [ih, handle_ready, hh]
      | some h =>
        cases hr : is_ready h with
        | false => simp [ih, handle_ready, hh, hr]
        | true => simp [ih, handle_ready, hh, hr]
    · have hm2 : m (set + k) = false := by simpa using hm
      simp [hm2, ih]

theorem count_ready_streams_per_set_eq (v : Vfs) (m : Mem) (nfds : Nat) (set : Option Nat)
    (is_ready : fs_handle → Bool) :
    (count_ready_streams_per_set v m nfds set is_ready).count =
      (select_set_ready v nfds set is_ready m).tot := by
  cases set with
  | none => rfl
  | some p =>
    simp only [count_ready_streams_per_set, select_set_ready,
      count_ready_streams_per_set_loop_count, select_set_ready_loop_tot]

theorem count_ready_streams_loop_total (v : Vfs) (m : Mem) (nfds : Nat)
    (sets : Nat → Option Nat) (u : UserMem) (n : Nat)
    (hsets : ∀ k, k < n → sets k = (u.sets k).map (fun _ => sets_ptr k)) :
    (count_ready_streams_loop v m nfds sets n).count =
      ready_total v m nfds (fun k => (u.sets k).isSome) n := by
  induction n with
  | zero => rfl
  | succ j ih =>
    have ih := ih (fun k hk => hsets k (Nat.lt_succ_of_lt hk))
    simp only [count_ready_streams_loop, ready_total, ih, hsets j (Nat.lt_succ_self j)]
    cases hu : u.sets j with
    | none => simp [count_ready_streams_per_set, set_ready_count]
    | some bits =>
      simp [count_ready_streams_per_set, set_ready_count,
        count_ready_streams_per_set_loop_count, FD_ISSET]

theorem select_wait_on_cond_loop_mem_frame (cfg : Config) (nfds : Nat)
    (sets : Nat → Option Nat) (tv : Option Nat) (m : Mem) (ws : List Wakeup) (q : Nat)
    (h : ∀ t, tv = some t → q < t ∨ t + 64 ≤ q) :
    (select_wait_on_cond_loop cfg nfds sets tv m ws).mem q = m q := by
  induction ws with
  | nil => simp [select_wait_on_cond_loop]
  | cons w rest ih =>
    cases tv with
    | none =>
      simp only [select_wait_on_cond_loop]
      split
      · exact ih
      · rfl
    | some t =>
      have hq := h t rfl
      simp only [select_wait_on_cond_loop]
      split
      · exact store_timeval_other _ _ _ _ _ hq
      · split
        · exact ih
        · exact store_timeval_other _ _ _ _ _ hq

theorem ready_total_congr (v : Vfs) (m1 m2 : Mem) (nfds : Nat) (supplied : Nat → Bool) (n : Nat)
    (h : ∀ k, k < n → supplied k = true → ∀ i, i < nfds →
      m1 (sets_ptr k + i) = m2 (sets_ptr k + i)) :
    ready_total v m1 nfds supplied n = ready_total v m2 nfds supplied n := by
  induction n with
  | zero => rfl
  | succ j ih =>
    simp only [ready_total]
    rw [ih (fun k hk => h k (Nat.lt_succ_of_lt hk))]
    congr 1
    cases hs : supplied j with
    | false => simp [set_ready_count]
    | true =>
      simp only [set_ready_count, if_true, FD_ISSET]
      apply count_bits_below_congr
      intro i hi
      rw [h j (Nat.lt_succ_self j) hs i hi]

theorem sys_select_tv_ptr (cfg : Config) (env : Env) (m0 : Mem) (u : UserMem) (t : Nat)
    (h : (sys_select_tv cfg env m0 u).tv = some t) : t = tv_ptr ∧ u.tv.isSome = true := by
  unfold sys_select_tv sys_select_copy_tv at h
  cases hu : u.tv with
  | none => simp [hu] at h
  | some x =>
    simp only [hu] at h
    split at h <;> simp at h <;> exact ⟨h.symm, rfl⟩

/-- The rescan and the resolution agree on the same memory:
`count_ready_streams_per_set` (which has no access to modify the set) returns
the number `select_set_ready` returns on the same inputs; hence
`count_ready_streams` equals the total of a completed resolution loop run on the
same scratch memory, handle table and predicates; and when the wait loop is
left through the readiness check, resolution sees the same handle table and
predicates, the copies back succeed and resolution does not examine the bytes
of the timeout (no timeout, no read set, or `nfds <= 24`), `sys_select`
returns a count greater than 0. -/
theorem count_ready_streams_matches_resolution (cfg : Config) (env : Env) (m0 : Mem)
    (user_nfds : Int) (u : UserMem) (pre : List Wakeup) (w : Wakeup) (rest : List Wakeup)
    (h0 : 0 ≤ user_nfds) (hmax : user_nfds ≤ (cfg.MAX_HANDLES : Int))
    (hM : cfg.MAX_HANDLES ≤ FD_SETSIZE)
    (hci : (sys_select_copy_in env u m0).rc = 0)
    (hts : (sys_select_tv cfg env m0 u).rc = 0)
    (hcn : (sys_select_count cfg env m0 user_nfds.toNat u).rc = 0)
    (hcc : 0 < (sys_select_count cfg env m0 user_nfds.toNat u).cond_cnt)
    (ha : env.alloc_fail = false)
    (hreg : (select_wait_on_cond_set_loop cfg env.vfs_set (sys_select_tv cfg env m0 u).mem
      user_nfds.toNat (sys_select_count cfg env m0 user_nfds.toNat u).cond_cnt
      (sys_select_copy_in env u m0).sets 3).rc = some 0)
    (hwk : env.wakeups = pre ++ w :: rest)
    (hpre : ∀ x ∈ pre, loop_continues (sys_select_tv cfg env m0 u).mem user_nfds.toNat
      (sys_select_copy_in env u m0).sets (sys_select_tv cfg env m0 u).tv x = true)
    (hstop : loop_continues (sys_select_tv cfg env m0 u).mem user_nfds.toNat
      (sys_select_copy_in env u m0).sets (sys_select_tv cfg env m0 u).tv w = false)
    (hnt : ((sys_select_tv cfg env m0 u).tv.isSome && w.timer_fired) = false)
    (hvfs : w.vfs = env.vfs_ready)
    (hnf : ∀ j, env.copy_to_user_fault j = false)
    (hfar : u.tv = none ∨ user_nfds ≤ 24 ∨ u.sets 0 = none) :
    (∀ (v : Vfs) (m : Mem) (nfds : Nat) (set : Option Nat) (r : fs_handle → Bool),
      (count_ready_streams_per_set v m nfds set r).count =
        (select_set_ready v nfds set r m).tot) ∧
    (∀ m, (sys_select_resolve_loop env user_nfds.toNat (sys_select_copy_in env u m0).sets u m
        3).rc = 0 →
      (count_ready_streams env.vfs_ready m user_nfds.toNat
        (sys_select_copy_in env u m0).sets).count =
      (sys_select_resolve_loop env user_nfds.toNat (sys_select_copy_in env u m0).sets u m
        3).total_ready_count) ∧
    (∃ c : Nat, (sys_select cfg env m0 user_nfds u).ret = some (c : Int) ∧ 0 < c) := by
  have hn : user_nfds.toNat ≤ FD_SETSIZE := by omega
  have hsets := sys_select_copy_in_sets env u m0 hci
  have hpart2 : ∀ m, (sys_select_resolve_loop env user_nfds.toNat
      (sys_select_copy_in env u m0).sets u m 3).rc = 0 →
      (count_ready_streams env.vfs_ready m user_nfds.toNat
        (sys_select_copy_in env u m0).sets).count =
      (sys_select_resolve_loop env user_nfds.toNat (sys_select_copy_in env u m0).sets u m
        3).total_ready_count := by
    intro m hrc
    rw [sys_select_resolve_loop_total env _ _ u m 3 hn hsets hrc]
    exact count_ready_streams_loop_total env.vfs_ready m _ _ u 3 hsets
  refine ⟨count_ready_streams_per_set_eq, hpart2, ?_⟩
  -- the wait path reaches the loop and leaves it at `w`
  have hd : ((sys_select_tv cfg env m0 u).tv.isSome && cfg.DEBUG &&
      !decide ((sys_select_tv cfg env m0 u).timeout_ticks > 0)) = false := by
    cases htv : (sys_select_tv cfg env m0 u).tv with
    | none => simp
    | some t =>
      have hsm := (sys_select_tv_ptr cfg env m0 u t htv).2
      have := sys_select_wait_ticks_pos cfg env m0 user_nfds.toNat u hts hsm hcc
      simp [this]
  have hloop := select_wait_on_cond_loop_prefix cfg user_nfds.toNat
    (sys_select_copy_in env u m0).sets (sys_select_tv cfg env m0 u).tv
    (sys_select_tv cfg env m0 u).mem pre (w :: rest) hpre
  have hdone := (select_wait_on_cond_loop_stop cfg user_nfds.toNat
    (sys_select_copy_in env u m0).sets (sys_select_tv cfg env m0 u).tv
    (sys_select_tv cfg env m0 u).mem w rest hstop).1
  have hwe : sys_select_wait cfg env m0 user_nfds.toNat u =
      select_wait_on_cond cfg env (sys_select_tv cfg env m0 u).mem user_nfds.toNat
        (sys_select_copy_in env u m0).sets (sys_select_tv cfg env m0 u).tv
        (sys_select_count cfg env m0 user_nfds.toNat u).cond_cnt
        (sys_select_tv cfg env m0 u).timeout_ticks := by
    unfold sys_select_wait
    simp only [hcc, if_true]
  have hreach := select_wait_on_cond_reaches_loop cfg env (sys_select_tv cfg env m0 u).mem
    user_nfds.toNat (sys_select_copy_in env u m0).sets (sys_select_tv cfg env m0 u).tv
    (sys_select_count cfg env m0 user_nfds.toNat u).cond_cnt
    (sys_select_tv cfg env m0 u).timeout_ticks ha hreg hd
  have hldone : (select_wait_on_cond_loop cfg user_nfds.toNat (sys_select_copy_in env u m0).sets
      (sys_select_tv cfg env m0 u).tv (sys_select_tv cfg env m0 u).mem env.wakeups).done
      = true := by
    rw [hwk, hloop]
    exact hdone
  have hwrc : (sys_select_wait cfg env m0 user_nfds.toNat u).rc = some 0 := by
    rw [hwe, hreach]
    simp [hldone]
  have hwmem : (sys_select_wait cfg env m0 user_nfds.toNat u).mem =
      (select_wait_on_cond_loop cfg user_nfds.toNat (sys_select_copy_in env u m0).sets
        (sys_select_tv cfg env m0 u).tv (sys_select_tv cfg env m0 u).mem env.wakeups).mem := by
    rw [hwe, hreach]
  -- the rescan at `w` found a ready stream
  have hpos : (count_ready_streams w.vfs (sys_select_tv cfg env m0 u).mem user_nfds.toNat
      (sys_select_copy_in env u m0).sets).count ≠ 0 := by
    intro hz
    simp [loop_continues, hnt, hz] at hstop
  -- resolution
  have hrs : (sys_select_resolve cfg env m0 user_nfds.toNat u).rc = 0 :=
    sys_select_resolve_loop_ok env _ _ u _ 3 hsets (fun k _ => hnf k)
  have htot : (sys_select_resolve cfg env m0 user_nfds.toNat u).total_ready_count =
      ready_total env.vfs_ready (sys_select_wait cfg env m0 user_nfds.toNat u).mem
        user_nfds.toNat (fun k => (u.sets k).isSome) 3 :=
    sys_select_resolve_loop_total env _ _ u _ 3 hn hsets hrs
  have hcongr : ready_total env.vfs_ready (sys_select_wait cfg env m0 user_nfds.toNat u).mem
      user_nfds.toNat (fun k => (u.sets k).isSome) 3 =
      ready_total env.vfs_ready (sys_select_tv cfg env m0 u).mem
        user_nfds.toNat (fun k => (u.sets k).isSome) 3 := by
    apply ready_total_congr
    intro k hk hs i hi
    rw [hwmem]
    apply select_wait_on_cond_loop_mem_frame
    intro t ht
    obtain ⟨htp, hsm⟩ := sys_select_tv_ptr cfg env m0 u t ht
    subst htp
    have hk0 : k = 0 ∨ 0 < k := by omega
    rcases hk0 with hk0 | hk0
    · subst hk0
      rcases hfar with hf | hf | hf
      · rw [hf] at hsm
        simp at hsm
      · left
        unfold sets_ptr tv_ptr
        omega
      · have hs2 : (u.sets 0).isSome = true := hs
        rw [hf] at hs2
        simp at hs2
    · right
      unfold sets_ptr tv_ptr FD_SETSIZE
      omega
  have hrescan := count_ready_streams_loop_total w.vfs (sys_select_tv cfg env m0 u).mem
    user_nfds.toNat (sys_select_copy_in env u m0).sets u 3 hsets
  have hrescan2 : (count_ready_streams w.vfs (sys_select_tv cfg env m0 u).mem user_nfds.toNat
      (sys_select_copy_in env u m0).sets).count =
      ready_total w.vfs (sys_select_tv cfg env m0 u).mem user_nfds.toNat
        (fun k => (u.sets k).isSome) 3 := hrescan
  have htotpos : 0 < (sys_select_resolve cfg env m0 user_nfds.toNat u).total_ready_count := by
    rw [htot, hcongr, ← hvfs, ← hrescan2]
    omega
  have h1 : ¬(user_nfds < 0 ∨ user_nfds > (cfg.MAX_HANDLES : Int)) := by omega
  refine ⟨(sys_select_resolve cfg env m0 user_nfds.toNat u).total_ready_count, ?_, htotpos⟩
  cases htv : (sys_select_tv cfg env m0 u).tv with
  | none => simp [sys_select, h1, hci, hts, hcn, hwrc, hrs, htv]
  | some t => simp [sys_select, h1, hci, hts, hcn, hwrc, hrs, htv, hnf 3]

/-- Instance of the agreement: `select(8, {5}, NULL, NULL, {10,0})`, descriptor
5 ready at the first wakeup: the call returns 1. -/
theorem count_ready_streams_matches_resolution_witness :
    ∃ c : Nat, (sys_select cfg16 env_wake mem_zero 8 (user_wait 10)).ret = some (c : Int) ∧
      0 < c :=
  (count_ready_streams_matches_resolution cfg16 env_wake mem_zero 8 (user_wait 10) [] _ []
    (by decide) (by decide) (by decide) (by decide) (by decide) (by decide) (by decide) rfl
    (by decide) rfl (by simp) (by decide) (by decide) rfl (fun _ => rfl)
    (Or.inr (Or.inl (by decide)))).2.2

/-! ## C19: the remaining time converts back to the same tick count -/

/-- C20 fails on the code: the innermost loop dumps `counters->values[j]` (the
index of the counter kind) at every iteration instead of `values[k]`.  For a
file with one function whose kind-0 record holds the counters 10 and 20 the
code emits `10, 0, 10, 0` where the described stream has `10, 0, 20, 0`. -/
theorem dump_gcda_repeats_value :
    emitted_words (dump_gcda 9 gcov_two_counters).out =
      [0x67636461, 1, 2, 0x01000000, 3, 7, 8, 9, 0x01a10000, 4, 10, 0, 10, 0] ∧
    expected_gcda_words 9 gcov_two_counters =
      [0x67636461, 1, 2, 0x01000000, 3, 7, 8, 9, 0x01a10000, 4, 10, 0, 20, 0] ∧
    emitted_words (dump_gcda 9 gcov_two_counters).out ≠
      expected_gcda_words 9 gcov_two_counters := by
  refine ⟨by decide, by decide, by decide⟩

/-! ## Negative timeval fields and the overlap at a condition wakeup -/

theorem sys_select_timeout_ticks_negative :
    sys_select_timeout_ticks cfg16 0 4294967295 = 4294967295 ∧
    sys_select_timeout_ticks cfg16 4294967295 1000000 = 0 ∧
    sys_select_timeout_ticks cfg16 4294967295 0 = 4294967295 := by
  refine ⟨by decide, by decide, by decide⟩

/-- C18 fails on the code: for `select(32, {30}, NULL, NULL, {64, 0})` in a
build with 64 handles and 100 ticks per second, descriptor 30 ready at the
first wakeup with 100 ticks remaining, the rescan `count_ready_streams` finds
one ready stream and the loop is left through the readiness check; the wait
path then stores the remaining time `{1, 0}` at `tv`, byte 3 of the read-set
copy, which clears bit 30 and sets bit 24 of that copy; resolution, run against
the same handle table and predicates, counts 0 and `sys_select` returns 0. -/
theorem sys_select_ready_wakeup_returns_zero :
    (sys_select_count cfg64 env_fd30 mem_zero 32 user_fd30).cond_cnt = 1 ∧
    (count_ready_streams (vfs_fd30 true) (sys_select_tv cfg64 env_fd30 mem_zero user_fd30).mem 32
      (sys_select_copy_in env_fd30 user_fd30 mem_zero).sets).count = 1 ∧
    loop_continues (sys_select_tv cfg64 env_fd30 mem_zero user_fd30).mem 32
      (sys_select_copy_in env_fd30 user_fd30 mem_zero).sets
      (sys_select_tv cfg64 env_fd30 mem_zero user_fd30).tv ⟨false, vfs_fd30 true, 100⟩ = false ∧
    (sys_select_wait cfg64 env_fd30 mem_zero 32 user_fd30).rc = some 0 ∧
    Event.task_cancel_wakeup_timer ∈ (sys_select_wait cfg64 env_fd30 mem_zero 32 user_fd30).trace ∧
    FD_ISSET 30 (sets_ptr 0) (sys_select_tv cfg64 env_fd30 mem_zero user_fd30).mem = true ∧
    FD_ISSET 30 (sets_ptr 0) (sys_select_wait cfg64 env_fd30 mem_zero 32 user_fd30).mem = false ∧
    FD_ISSET 24 (sets_ptr 0) (sys_select_wait cfg64 env_fd30 mem_zero 32 user_fd30).mem = true ∧
    (count_ready_streams env_fd30.vfs_ready
      (sys_select_wait cfg64 env_fd30 mem_zero 32 user_fd30).mem 32
      (sys_select_copy_in env_fd30 user_fd30 mem_zero).sets).count = 0 ∧
    (sys_select_resolve cfg64 env_fd30 mem_zero 32 user_fd30).total_ready_count = 0 ∧
    (sys_select cfg64 env_fd30 mem_zero 32 user_fd30).ret = some 0 := by
  refine ⟨by decide, by decide, by decide, by decide, by decide, by decide, by decide,
    by decide, by decide, by decide, by decide⟩

/-! ## The caller's memory after a call -/

theorem sys_select_call_aliased_sets :
    (sys_select_call cfg16 (env_plain vfs_read_ready [] vfs_read_ready) mem_zero 4
      args_aliased).ret = some 1 ∧
    bits_set_below 4 (args_aliased.returned_set
      (sys_select_call cfg16 (env_plain vfs_read_ready [] vfs_read_ready) mem_zero 4
        args_aliased).mem 0) = 0 ∧
    bits_set_below 4 (args_aliased.returned_set
      (sys_select_call cfg16 (env_plain vfs_read_ready [] vfs_read_ready) mem_zero 4
        args_aliased).mem 1) = 0 := by
  refine ⟨by decide, by decide, by decide⟩

theorem select_wait_on_cond_mem_frame (cfg : Config) (env : Env) (m : Mem) (nfds : Nat)
    (sets : Nat → Option Nat) (tv : Option Nat) (cond_cnt ticks q : Nat)
    (h : ∀ t, tv = some t → q < t ∨ t + 64 ≤ q) :
    (select_wait_on_cond cfg env m nfds sets tv cond_cnt ticks).mem q = m q := by
  have hl := select_wait_on_cond_loop_mem_frame cfg nfds sets tv m env.wakeups q h
  cases ha : env.alloc_fail with
  | true => rw [select_wait_on_cond_enomem _ _ _ _ _ _ _ _ ha]
  | false =>
    rcases select_wait_on_cond_set_loop_rc cfg env.vfs_set m nfds cond_cnt sets 3 with
      hreg | hreg | hreg
    · rw [select_wait_on_cond_panic _ _ _ _ _ _ _ _ ha hreg]
    · cases hd : (tv.isSome && cfg.DEBUG && !decide (ticks > 0)) with
      | true => rw [select_wait_on_cond_assert _ _ _ _ _ _ _ _ ha hreg hd]
      | false =>
        rw [select_wait_on_cond_reaches_loop _ _ _ _ _ _ _ _ ha hreg hd]
        exact hl
    · rw [select_wait_on_cond_abort _ _ _ _ _ _ _ _ ha hreg]

theorem sys_select_wait_mem_frame (cfg : Config) (env : Env) (m0 : Mem) (nfds : Nat)
    (u : UserMem) (q : Nat) (h : u.tv = none ∨ q < tv_ptr ∨ tv_ptr + 64 ≤ q) :
    (sys_select_wait cfg env m0 nfds u).mem q = (sys_select_tv cfg env m0 u).mem q := by
  unfold sys_select_wait
  simp only []
  by_cases hcc : (sys_select_count cfg env m0 nfds u).cond_cnt > 0
  · simp only [hcc, if_true]
    apply select_wait_on_cond_mem_frame
    intro t ht
    obtain ⟨htp, hsm⟩ := sys_select_tv_ptr cfg env m0 u t ht
    subst htp
    rcases h with h | h
    · rw [h] at hsm
      simp at hsm
    · exact h
  · simp only [hcc, if_false]
    by_cases ht : (sys_select_tv cfg env m0 u).timeout_ticks > 0
    · simp only [ht, if_true]
    · simp only [ht, if_false]

theorem sys_select_tv_mem_frame (cfg : Config) (env : Env) (m0 : Mem) (u : UserMem) (q : Nat)
    (h : u.tv = none ∨ q < tv_ptr ∨ tv_ptr + 64 ≤ q) :
    (sys_select_tv cfg env m0 u).mem q = (sys_select_copy_in env u m0).mem q := by
  unfold sys_select_tv sys_select_copy_tv
  cases htv : u.tv with
  | none => rfl
  | some t =>
    simp only []
    by_cases hf : env.copy_from_user_fault 3 = true
    · simp only [hf, if_true]
    · simp only [hf, Bool.false_eq_true, if_false]
      rcases h with h | h
      · rw [htv] at h
        simp at h
      · exact store_timeval_other _ _ _ _ _ h

theorem sys_select_resolve_loop_high (env : Env) (nfds : Nat) (sets : Nat → Option Nat)
    (u : UserMem) (m0 : Mem) (n : Nat) (hn : nfds ≤ FD_SETSIZE)
    (hsets : ∀ k, k < n → sets k = (u.sets k).map (fun _ => sets_ptr k))
    (h : (sys_select_resolve_loop env nfds sets u m0 n).rc = 0) :
    ∀ k, k < n → ∀ b, (sys_select_resolve_loop env nfds sets u m0 n).user_sets k = some b →
      ∀ i, nfds ≤ i → i < FD_SETSIZE → b i = m0 (sets_ptr k + i) := by
  induction n with
  | zero =>
    intro k hk
    omega
  | succ j ih =>
    have hp := sys_select_resolve_loop_rc_prev env nfds sets u m0 j h
    have ih2 := ih (fun k hk => hsets k (Nat.lt_succ_of_lt hk)) hp
    obtain ⟨iha, _, _, _⟩ := sys_select_resolve_loop_inv env nfds sets u m0 j hn
      (fun k hk => hsets k (Nat.lt_succ_of_lt hk)) hp
    have hsj := hsets j (Nat.lt_succ_self j)
    cases hu : u.sets j with
    | none =>
      rw [hu] at hsj
      obtain ⟨_, _, _, _, hus⟩ :=
        sys_select_resolve_loop_succ_none env nfds sets u m0 j hu hsj hp
      rw [hus]
      intro k hk b hb
      by_cases hkj : k = j
      · subst hkj
        rw [iha k (Nat.le_refl k), hu] at hb
        exact absurd hb (by simp)
      · exact ih2 k (by omega) b hb
    | some bits =>
      rw [hu] at hsj
      have hsome : (u.sets j).isSome = true := by simp [hu]
      have hf := sys_select_resolve_loop_fault env nfds sets u m0 j (sets_ptr j) hsome hsj h
      obtain ⟨_, _, _, _, hus⟩ :=
        sys_select_resolve_loop_succ_some env nfds sets u m0 j (sets_ptr j) hsome hsj hp hf
      rw [hus]
      intro k hk b hb i hi hiF
      by_cases hkj : k = j
      · subst hkj
        simp only [if_true, Option.some.injEq] at hb
        subst hb
        have hr : ¬(sets_ptr k ≤ sets_ptr k + i ∧ sets_ptr k + i < sets_ptr k + nfds) := by
          omega
        simp only [load_fd_set, hiF, decide_True, Bool.true_and, select_set_ready_loop_mem, hr,
          if_false]
        apply sys_select_resolve_loop_mem_frame
        intro k2 hk2 p hp2
        have := hsets k2 (by omega)
        rw [hp2] at this
        cases hu2 : u.sets k2 with
        | none => simp [hu2] at this
        | some b2 =>
          simp only [hu2, Option.map_some', Option.some.injEq] at this
          subst this
          right
          unfold sets_ptr FD_SETSIZE at *
          have : k2 + 1 ≤ k := hk2
          nlinarith
      · simp only [hkj, if_false] at hb
        exact ih2 k (by omega) b hb i hi hiF

theorem sys_select_resolve_loop_rc_le (env : Env) (nfds : Nat) (sets : Nat → Option Nat)
    (u : UserMem) (m0 : Mem) (n : Nat)
    (h : (sys_select_resolve_loop env nfds sets u m0 n).rc = 0) (j : Nat) (hj : j ≤ n) :
    (sys_select_resolve_loop env nfds sets u m0 j).rc = 0 := by
  induction n with
  | zero =>
    have : j = 0 := by omega
    subst this
    exact h
  | succ k ih =>
    by_cases hjk : j = k + 1
    · subst hjk
      exact h
    · exact ih (sys_select_resolve_loop_rc_prev env nfds sets u m0 k h) (by omega)

theorem sys_select_success_trace (cfg : Config) (env : Env) (m0 : Mem) (n : Int) (u : UserMem)
    (c : Int) (h : (sys_select cfg env m0 n u).ret = some c) (hc : 0 ≤ c) :
    ∃ l1 l2, (sys_select cfg env m0 n u).trace =
      l1 ++ (sys_select_resolve cfg env m0 n.toNat u).trace ++ l2 := by
  obtain ⟨h0, hle, hci, hts, hcn, hwt, hrs, _, _⟩ := sys_select_ret_nonneg cfg env m0 n u c h hc
  have h1 : ¬(n < 0 ∨ n > (cfg.MAX_HANDLES : Int)) := by omega
  simp only [sys_select, h1, hci, hts, hcn, hwt, hrs, ne_eq, not_true_eq_false, if_false]
  split
  · exact ⟨(sys_select_copy_in env u m0).trace ++ (sys_select_tv cfg env m0 u).trace ++
      (sys_select_count cfg env m0 n.toNat u).trace ++
      (sys_select_wait cfg env m0 n.toNat u).trace, [], by simp⟩
  · split
    · exact ⟨(sys_select_copy_in env u m0).trace ++ (sys_select_tv cfg env m0 u).trace ++
        (sys_select_count cfg env m0 n.toNat u).trace ++
        (sys_select_wait cfg env m0 n.toNat u).trace, [Event.copy_to_user 3], rfl⟩
    · exact ⟨(sys_select_copy_in env u m0).trace ++ (sys_select_tv cfg env m0 u).trace ++
        (sys_select_count cfg env m0 n.toNat u).trace ++
        (sys_select_wait cfg env m0 n.toNat u).trace, [Event.copy_to_user 3], rfl⟩

theorem sys_select_success_copy_out (cfg : Config) (env : Env) (m0 : Mem) (n : Int)
    (u : UserMem) (c : Int) (h : (sys_select cfg env m0 n u).ret = some c) (hc : 0 ≤ c)
    (k : Nat) (hk : k < 3) (hu : (u.sets k).isSome = true) :
    Event.copy_to_user k ∈ (sys_select cfg env m0 n u).trace ∧
    env.copy_to_user_fault k = false := by
  obtain ⟨h0, hle, hci, hts, hcn, hwt, hrs, _, _⟩ := sys_select_ret_nonneg cfg env m0 n u c h hc
  have hsets := sys_select_copy_in_sets env u m0 hci
  refine ⟨?_, ?_⟩
  · obtain ⟨l1, l2, htr⟩ := sys_select_success_trace cfg env m0 n u c h hc
    have hcnt := sys_select_resolve_loop_count env n.toNat (sys_select_copy_in env u m0).sets u
      (sys_select_wait cfg env m0 n.toNat u).mem 3 hsets hrs k
    simp only [hk, hu, and_self, if_true] at hcnt
    have hmem : Event.copy_to_user k ∈ (sys_select_resolve cfg env m0 n.toNat u).trace := by
      apply List.count_pos_iff.mp
      unfold sys_select_resolve
      omega
    rw [htr]
    simp [hmem]
  · have hsk : (sys_select_copy_in env u m0).sets k = some (sets_ptr k) := by
      rw [hsets k hk]
      cases huk : u.sets k with
      | none => simp [huk] at hu
      | some b => rfl
    exact sys_select_resolve_loop_fault env n.toNat _ u _ k (sets_ptr k) hu hsk
      (sys_select_resolve_loop_rc_le env n.toNat _ u _ 3 hrs (k + 1) (by omega))

theorem copy_out_set_other (env : Env) (a : UserArgs) (r : Result) (j : Nat) (m : Mem) (q : Nat)
    (h : ∀ p, a.u_sets j = some p → q < p ∨ p + FD_SETSIZE ≤ q) :
    copy_out_set env a r j m q = m q := by
  unfold copy_out_set
  split
  · cases hp : a.u_sets j with
    | none => rfl
    | some p =>
      cases hb : r.user.sets j with
      | none => rfl
      | some bits =>
        have := h p hp
        have hn : ¬(p ≤ q ∧ q < p + FD_SETSIZE) := by omega
        simp only [store_bits, hn, if_false]
  · rfl

theorem copy_out_set_self (env : Env) (a : UserArgs) (r : Result) (k : Nat) (m : Mem)
    (p : Nat) (b : Nat → Bool) (hmem : Event.copy_to_user k ∈ r.trace)
    (hf : env.copy_to_user_fault k = false) (hp : a.u_sets k = some p)
    (hb : r.user.sets k = some b) (i : Nat) (hi : i < FD_SETSIZE) :
    copy_out_set env a r k m (p + i) = b i := by
  unfold copy_out_set
  have hr : p ≤ p + i ∧ p + i < p + FD_SETSIZE := by omega
  simp only [hmem, hf, hp, hb, and_self, if_true, store_bits, hr, Nat.add_sub_cancel_left]

theorem copy_out_tv_other (env : Env) (a : UserArgs) (r : Result) (m : Mem) (q : Nat)
    (h : ∀ t, a.user_tv = some t → q < t ∨ t + 64 ≤ q) :
    copy_out_tv env a r m q = m q := by
  unfold copy_out_tv
  split
  · cases ht : a.user_tv with
    | none => rfl
    | some t =>
      cases hb : r.user.tv with
      | none => rfl
      | some tv => exact store_timeval_other _ _ _ _ _ (h t ht)
  · rfl

theorem sys_select_call_returned (cfg : Config) (env : Env) (m0 : Mem) (n : Int)
    (a : UserArgs) (c : Int) (hM : cfg.MAX_HANDLES ≤ FD_SETSIZE) (hd : a.disjoint)
    (h : (sys_select cfg env m0 n a.objects).ret = some c) (hc : 0 ≤ c)
    (k : Nat) (hk : k < 3) (p : Nat) (hp : a.u_sets k = some p) :
    ∃ b, (sys_select cfg env m0 n a.objects).user.sets k = some b ∧
      ∀ i, i < FD_SETSIZE → (sys_select_call cfg env m0 n a).mem (p + i) = b i := by
  obtain ⟨h0, hle, hci, _, _, _, hrs, _, hus⟩ :=
    sys_select_ret_nonneg cfg env m0 n a.objects c h hc
  have hn : n.toNat ≤ FD_SETSIZE := by omega
  have hsets := sys_select_copy_in_sets env a.objects m0 hci
  have hsup : (a.objects.sets k).isSome = true := by
    simp [UserArgs.objects, hp]
  obtain ⟨_, hsome, _, _⟩ := sys_select_resolve_loop_inv env n.toNat _ a.objects _ 3 hn hsets hrs
  have hres : ((sys_select cfg env m0 n a.objects).user.sets k).isSome = true := by
    rw [hus]
    exact (hsome k hk).trans hsup
  obtain ⟨b, hb⟩ := Option.isSome_iff_exists.mp hres
  refine ⟨b, hb, ?_⟩
  intro i hi
  obtain ⟨hmem, hf⟩ := sys_select_success_copy_out cfg env m0 n a.objects c h hc k hk hsup
  have htv : ∀ t, a.user_tv = some t → p + i < t ∨ t + 64 ≤ p + i := by
    intro t ht
    rcases hd.2 k hk p hp t ht with h1 | h1
    · left
      omega
    · right
      omega
  have hoth : ∀ j, j < 3 → j ≠ k → ∀ pj, a.u_sets j = some pj →
      p + i < pj ∨ pj + FD_SETSIZE ≤ p + i := by
    intro j hj hjk pj hpj
    rcases hd.1 j hj k hk hjk pj hpj p hp with h1 | h1
    · right
      omega
    · left
      omega
  unfold sys_select_call
  simp only []
  rw [copy_out_tv_other _ _ _ _ _ htv]
  have hk3 : k = 0 ∨ k = 1 ∨ k = 2 := by omega
  rcases hk3 with hk0 | hk0 | hk0
  · subst hk0
    rw [copy_out_set_other _ _ _ _ _ _ (hoth 2 (by omega) (by omega)),
      copy_out_set_other _ _ _ _ _ _ (hoth 1 (by omega) (by omega))]
    exact copy_out_set_self _ _ _ _ _ _ _ hmem hf hp hb i hi
  · subst hk0
    rw [copy_out_set_other _ _ _ _ _ _ (hoth 2 (by omega) (by omega))]
    exact copy_out_set_self _ _ _ _ _ _ _ hmem hf hp hb i hi
  · subst hk0
    exact copy_out_set_self _ _ _ _ _ _ _ hmem hf hp hb i hi

theorem sys_select_call_bits (cfg : Config) (env : Env) (m0 : Mem) (n : Int)
    (a : UserArgs) (c : Int) (hM : cfg.MAX_HANDLES ≤ FD_SETSIZE) (hd : a.disjoint)
    (h : (sys_select cfg env m0 n a.objects).ret = some c) (hc : 0 ≤ c)
    (k : Nat) (hk : k < 3) :
    bits_set_below n.toNat (a.returned_set (sys_select_call cfg env m0 n a).mem k) =
      bits_set_below n.toNat ((sys_select cfg env m0 n a.objects).user.sets k) := by
  obtain ⟨h0, hle, hci, _, _, _, hrs, _, hus⟩ :=
    sys_select_ret_nonneg cfg env m0 n a.objects c h hc
  have hn : n.toNat ≤ FD_SETSIZE := by omega
  cases hp : a.u_sets k with
  | none =>
    have hsets := sys_select_copy_in_sets env a.objects m0 hci
    obtain ⟨_, hsome, _, _⟩ :=
      sys_select_resolve_loop_inv env n.toNat _ a.objects _ 3 hn hsets hrs
    have hnone : (sys_select cfg env m0 n a.objects).user.sets k = none := by
      have : ((sys_select cfg env m0 n a.objects).user.sets k).isSome =
          (a.objects.sets k).isSome := by
        rw [hus]
        exact hsome k hk
      have hobj : (a.objects.sets k).isSome = false := by
        simp [UserArgs.objects, hp]
      rw [hobj] at this
      cases hx : (sys_select cfg env m0 n a.objects).user.sets k with
      | none => rfl
      | some b =>
        rw [hx] at this
        exact absurd this (by simp)
    simp [UserArgs.returned_set, hp, hnone, bits_set_below]
  | some p =>
    obtain ⟨b, hb, hbits⟩ := sys_select_call_returned cfg env m0 n a c hM hd h hc k hk p hp
    simp only [UserArgs.returned_set, hp, Option.map_some', hb, bits_set_below]
    apply count_bits_below_congr
    intro i hi
    have hiF : i < FD_SETSIZE := by omega
    simp only [load_fd_set, hiF, decide_True, Bool.true_and]
    exact hbits i hiF

/-! ## C1, amended: the count and the returned bitmaps -/

/-- C1 (amended): for a call whose non-NULL pointers designate pairwise
non-overlapping user objects and which returns a count `c >= 0`: exactly `c`
bits are set at indices below `nfds` in total across the three bitmaps the
caller finds afterwards, and every bit set below `nfds` in one of them
designates an open handle whose readiness predicate of that kind held at
resolution.  A bit at an index `i` with `nfds <= i < FD_SETSIZE` is not
examined: it comes back as the scratch copy holds it before resolution, which
is the bit the caller supplied unless a timeout was supplied and it is one of
bits 24..87 of the read set. -/
theorem sys_select_count_matches_bits (cfg : Config) (env : Env) (m0 : Mem) (user_nfds : Int)
    (a : UserArgs) (c : Int) (hmax : cfg.MAX_HANDLES ≤ FD_SETSIZE) (hd : a.disjoint)
    (hret : (sys_select_call cfg env m0 user_nfds a).ret = some c) (hc : 0 ≤ c) :
    c = ((bits_set_below user_nfds.toNat
            (a.returned_set (sys_select_call cfg env m0 user_nfds a).mem 0) +
          bits_set_below user_nfds.toNat
            (a.returned_set (sys_select_call cfg env m0 user_nfds a).mem 1) +
          bits_set_below user_nfds.toNat
            (a.returned_set (sys_select_call cfg env m0 user_nfds a).mem 2) : Nat) : Int) ∧
    (∀ k, k < 3 → ∀ b, a.returned_set (sys_select_call cfg env m0 user_nfds a).mem k = some b →
      ∀ i, i < user_nfds.toNat → b i = true →
        ∃ h, env.vfs_ready.get_fs_handle i = some h ∧ env.vfs_ready.grf k h = true) ∧
    (∀ k, k < 3 → ∀ b, a.returned_set (sys_select_call cfg env m0 user_nfds a).mem k = some b →
      ∀ i, user_nfds.toNat ≤ i → i < FD_SETSIZE →
        b i = (sys_select_wait cfg env m0 user_nfds.toNat a.objects).mem (sets_ptr k + i)) ∧
    (∀ k, k < 3 → ∀ p, a.u_sets k = some p → ∀ i, user_nfds.toNat ≤ i → i < FD_SETSIZE →
      (a.user_tv = none ∨ k ≠ 0 ∨ i < 24 ∨ 88 ≤ i) →
        (sys_select_call cfg env m0 user_nfds a).mem (p + i) = a.mem (p + i)) := by
  have h : (sys_select cfg env m0 user_nfds a.objects).ret = some c := hret
  obtain ⟨h0, hle, hci, _, _, _, hrs, _, hus⟩ :=
    sys_select_ret_nonneg cfg env m0 user_nfds a.objects c h hc
  have hn : user_nfds.toNat ≤ FD_SETSIZE := by omega
  have hsets := sys_select_copy_in_sets env a.objects m0 hci
  obtain ⟨hcount, hready⟩ :=
    sys_select_count_matches_copies cfg env m0 user_nfds a.objects c hmax h hc
  have hhigh := sys_select_resolve_loop_high env user_nfds.toNat
    (sys_select_copy_in env a.objects m0).sets a.objects
    (sys_select_wait cfg env m0 user_nfds.toNat a.objects).mem 3 hn hsets hrs
  have hret_set : ∀ k, k < 3 → ∀ b,
      a.returned_set (sys_select_call cfg env m0 user_nfds a).mem k = some b →
      ∃ p b2, a.u_sets k = some p ∧
        (sys_select cfg env m0 user_nfds a.objects).user.sets k = some b2 ∧
        ∀ i, i < FD_SETSIZE → b i = b2 i := by
    intro k hk b hb
    cases hp : a.u_sets k with
    | none => simp [UserArgs.returned_set, hp] at hb
    | some p =>
      obtain ⟨b2, hb2, hbits⟩ :=
        sys_select_call_returned cfg env m0 user_nfds a c hmax hd h hc k hk p hp
      refine ⟨p, b2, rfl, hb2, ?_⟩
      intro i hi
      simp only [UserArgs.returned_set, hp, Option.map_some', Option.some.injEq] at hb
      rw [← hb]
      simp only [load_fd_set, hi, decide_True, Bool.true_and]
      exact hbits i hi
  refine ⟨?_, ?_, ?_, ?_⟩
  · rw [sys_select_call_bits cfg env m0 user_nfds a c hmax hd h hc 0 (by omega),
      sys_select_call_bits cfg env m0 user_nfds a c hmax hd h hc 1 (by omega),
      sys_select_call_bits cfg env m0 user_nfds a c hmax hd h hc 2 (by omega)]
    exact hcount
  · intro k hk b hb i hi hbi
    obtain ⟨p, b2, _, hb2, heq⟩ := hret_set k hk b hb
    rw [heq i (by omega)] at hbi
    exact hready k hk b2 hb2 i hi hbi
  · intro k hk b hb i hi hiF
    obtain ⟨p, b2, _, hb2, heq⟩ := hret_set k hk b hb
    rw [heq i hiF]
    rw [hus] at hb2
    exact hhigh k hk b2 hb2 i hi hiF
  · intro k hk p hp i hi hiF hfar
    obtain ⟨b2, hb2, hbits⟩ :=
      sys_select_call_returned cfg env m0 user_nfds a c hmax hd h hc k hk p hp
    rw [hbits i hiF]
    rw [hus] at hb2
    rw [hhigh k hk b2 hb2 i hi hiF]
    have hq : a.objects.tv = none ∨ sets_ptr k + i < tv_ptr ∨ tv_ptr + 64 ≤ sets_ptr k + i := by
      rcases hfar with h1 | h1 | h1 | h1
      · left
        simp [UserArgs.objects, h1]
      · right
        right
        unfold sets_ptr tv_ptr FD_SETSIZE
        omega
      · have hk0 : k = 0 ∨ 0 < k := by omega
        rcases hk0 with hk0 | hk0
        · subst hk0
          right
          left
          unfold sets_ptr tv_ptr
          omega
        · right
          right
          unfold sets_ptr tv_ptr FD_SETSIZE
          omega
      · right
        right
        unfold sets_ptr tv_ptr
        omega
    rw [sys_select_wait_mem_frame _ _ _ _ _ _ hq, sys_select_tv_mem_frame _ _ _ _ _ hq]
    have hu : a.objects.sets k = some (load_fd_set a.mem p) := by
      simp [UserArgs.objects, hp]
    have := sys_select_copy_in_loop_mem env a.objects m0 3 hci k hk _ hu i hiF
    rw [sys_select_copy_in, this]
    simp only [load_fd_set, hiF, decide_True, Bool.true_and]

/-- Witness for C1: `select(4, &s, NULL, NULL, NULL)` with `s = {3}`, descriptor
3 ready: the call returns 1 and one bit is set below 4. -/
theorem sys_select_count_matches_bits_witness :
    (1 : Int) =
      ((bits_set_below (4 : Int).toNat (args_rfds3.returned_set (sys_select_call cfg16
          (env_plain (vfs_fixed false true) [] (vfs_fixed false true)) mem_zero 4
          args_rfds3).mem 0) +
        bits_set_below (4 : Int).toNat (args_rfds3.returned_set (sys_select_call cfg16
          (env_plain (vfs_fixed false true) [] (vfs_fixed false true)) mem_zero 4
          args_rfds3).mem 1) +
        bits_set_below (4 : Int).toNat (args_rfds3.returned_set (sys_select_call cfg16
          (env_plain (vfs_fixed false true) [] (vfs_fixed false true)) mem_zero 4
          args_rfds3).mem 2) : Nat) : Int) :=
  (sys_select_count_matches_bits cfg16
    (env_plain (vfs_fixed false true) [] (vfs_fixed false true)) mem_zero 4 args_rfds3 1
    (by decide)
    ⟨by
      intro j _ k _ hjk p hp q hq
      simp only [args_rfds3] at hp hq
      by_cases hj0 : j = 0
      · by_cases hk0 : k = 0
        · omega
        · simp [hk0] at hq
      · simp [hj0] at hp,
     by
      intro k _ p _ t ht
      simp [args_rfds3] at ht⟩
    (by decide) (by decide)).1

end Tilck
